import Mathlib

/-!
# Monster allocation and the monster list (`mon-make.c`)

A shallow embedding of `src/mon-make.c`: the allocation-table builder
(`init_race_allocs`), the weighted selector (`get_mon_num_prep`,
`get_mon_race_aux`, `get_mon_num`), the monster list (`mon_pop`,
`delete_monster_idx`, `compact_monsters`, `wipe_mon_list`), damage and death
(`mon_take_hit`, `monster_death`) and placement (`place_monster`,
`place_new_monster_one`, `place_new_monster_group`, `place_friends`,
`mon_create_drop`), followed by the properties proved about them.

Conventions of the embedding:

* C `int`/`long` values are `Int`; a value stored in an `s16b`, `u16b` or
  `s32b` declared in `mon-make.c` wraps explicitly through `s16b`, `u16b` or
  `s32b`.
* The arrays of `init_race_allocs` are lists; an access outside the allocated
  range ends the run with `fault.oob`, and `quit(...)` ends it with
  `fault.quit`.  A failed `assert`, a dereference of `NULL` and a division by
  zero end the run with a fault too.
* A pointer `&r_info[i]` is the registry index `i`, a pointer to a monster is
  its slot index, and `NULL` is `none`.
* Every call of the random number generator takes its raw outcome as an
  explicit argument, so that a statement quantified over the raw values is a
  statement about every outcome of the draws.
-/

namespace MonMake

/-! ## Data model -/

/-- The race flags (`RF_*`) that `mon-make.c` tests. -/
inductive race_flag where
  | UNIQUE | QUESTOR | FORCE_DEPTH | FORCE_SLEEP | MULTIPLY | SEASONAL
  | NO_FEAR | HAS_LIGHT | UNAWARE | ATTR_RAND | MIMIC_INV
  | DROP_20 | DROP_40 | DROP_60 | DROP_4 | DROP_3 | DROP_2 | DROP_1
  | DROP_GOOD | DROP_GREAT | ONLY_ITEM | ONLY_GOLD
deriving DecidableEq, Repr

/-- One rule of a race's specified drops, `struct monster_drop`. -/
structure monster_drop where
  artifact : Option Nat := none
  percent_chance : Nat := 0
  min : Int := 0
  max : Int := 0
deriving DecidableEq, Repr

/-- The fields of `struct monster_race` read or written by `mon-make.c`.
`rarity` is a count (0 means "never generated"), so it is a natural number;
`level`, `cur_num` and `max_num` are C integers.  An artifact or an object
kind is named by its index. -/
structure monster_race where
  level : Int := 0
  rarity : Nat := 0
  flags : List race_flag := []
  cur_num : Int := 0
  max_num : Int := 0
  mexp : Int := 0
  power : Int := 0
  avg_hp : Int := 0
  speed : Int := 0
  sleep : Int := 0
  ridx : Nat := 0
  drops : List monster_drop := []
  mimic_kinds : List Nat := []
deriving DecidableEq, Repr

/-- The test `rf_has(race->flags, flag)`. -/
def rf_has (flags : List race_flag) (flag : race_flag) : Bool :=
  decide (flag ∈ flags)

/-- One entry of the allocation table, `struct alloc_entry`. -/
structure alloc_entry where
  index : Nat := 0
  level : Int := 0
  prob1 : Int := 0
  prob2 : Int := 0
  prob3 : Int := 0
deriving DecidableEq, Repr

/-- How a run can end without a result: `quit("No town monsters!")`, an
access outside an allocated array, a failed `assert`, a dereference of a
`NULL` pointer, or a division by zero. -/
inductive fault where
  | quit
  | oob
  | assertion
  | null_deref
  | div_zero
deriving DecidableEq, Repr

deriving instance DecidableEq for Except

/-- Conversion of an `int` result to `s16b` (two's complement wrap-around). -/
def s16b (x : Int) : Int := (x + 32768) % 65536 - 32768

/-- Read `a[i]` of an array of integers. -/
def arr_get (a : List Int) (i : Int) : Except fault Int :=
  if 0 ≤ i ∧ i < a.length then .ok (a.getD i.toNat 0) else .error fault.oob

/-- Write `a[i] = v` in an array of integers. -/
def arr_set (a : List Int) (i : Int) (v : Int) : Except fault (List Int) :=
  if 0 ≤ i ∧ i < a.length then .ok (a.set i.toNat v) else .error fault.oob

/-- Write `table[z] = e` in the allocation table. -/
def tbl_set (t : List alloc_entry) (z : Int) (e : alloc_entry) :
    Except fault (List alloc_entry) :=
  if 0 ≤ z ∧ z < t.length then .ok (t.set z.toNat e) else .error fault.oob

/-! ## `init_race_allocs` -/

/-- The races visited by `for (i = 1; i < z_info->r_max - 1; i++)`, each with
its index: `race = &r_info[i]`.  `r_max` is the length of the registry. -/
def scanned (r_info : List monster_race) : List (Nat × monster_race) :=
  (List.range' 1 (r_info.length - 2)).map (fun i => (i, r_info.getD i {}))

/-- Body of the first loop: count the entries and group them by level. -/
def count_step (st : Int × List Int) (ir : Nat × monster_race) :
    Except fault (Int × List Int) :=
  if ir.2.rarity ≠ 0 then do
    let n ← arr_get st.2 ir.2.level
    let num ← arr_set st.2 ir.2.level (s16b (n + 1))
    pure (s16b (st.1 + 1), num)
  else pure st

/-- Body of the loop `num[i] += num[i - 1]`. -/
def collect_step (num : List Int) (i : Nat) : Except fault (List Int) := do
  let a ← arr_get num i
  let b ← arr_get num ((i : Int) - 1)
  arr_set num i (s16b (a + b))

/-- Body of the second scan: load the entry of race `i` at its place. -/
def load_step (num : List Int) (st : List alloc_entry × List Int)
    (ir : Nat × monster_race) : Except fault (List alloc_entry × List Int) :=
  if ir.2.rarity ≠ 0 then do
    let x := ir.2.level
    let p : Int := ((100 / ir.2.rarity : Nat) : Int)
    let y ← (if x > 0 then arr_get num (x - 1) else pure 0)
    let a ← arr_get st.2 x
    let z := y + a
    let table ← tbl_set st.1 z
      { index := ir.1, level := x, prob1 := p, prob2 := p, prob3 := p }
    let aux ← arr_set st.2 x (s16b (a + 1))
    pure (table, aux)
  else pure st

/-- The function `init_race_allocs`: the allocation table built from the race
registry `r_info` for `max_depth` levels (`alloc_race_size` is the length of
the result). -/
def init_race_allocs (r_info : List monster_race) (max_depth : Nat) :
    Except fault (List alloc_entry) := do
  let st ← (scanned r_info).foldlM count_step (0, List.replicate max_depth 0)
  let num ← (List.range' 1 (max_depth - 1)).foldlM collect_step st.2
  let n0 ← arr_get num 0
  if n0 = 0 then throw fault.quit
  let out ← (scanned r_info).foldlM (load_step num)
    (List.replicate st.1.toNat {}, List.replicate max_depth 0)
  pure out.1

/-! ## The weighted selector -/

/-- The function `get_mon_num_prep`: apply a restriction to the allocation
table.  `hook` is the restriction function applied to the race
`&r_info[entry->index]` (a race pointer is its registry index); `none` is a
`NULL` hook. -/
def get_mon_num_prep (hook : Option (Nat → Bool)) (table : List alloc_entry) :
    List alloc_entry :=
  table.map (fun entry =>
    match hook with
    | none => { entry with prob2 := entry.prob1 }
    | some f =>
      if f entry.index then { entry with prob2 := entry.prob1 }
      else { entry with prob2 := 0 })

/-- Whether the restriction `hook` lets race `r` through: a `NULL` hook
accepts every race. -/
def hook_accepts (hook : Option (Nat → Bool)) (r : Nat) : Bool :=
  match hook with
  | none => true
  | some f => f r

/-- The state read by `get_mon_num` besides the allocation table. -/
structure selector_env where
  r_info : List monster_race := []
  player_depth : Int := 0
  ood_monster_amount : Nat := 0
  tm_mon : Int := 0
  tm_mday : Int := 1
deriving DecidableEq, Repr

/-- The outcomes of the random draws of one call of `get_mon_num`: the result
of `one_in_(z_info->ood_monster_chance)`, the raw values behind the three
`randint0(total)` of `get_mon_race_aux`, and the one behind `randint0(100)`. -/
structure mon_num_draws where
  ood : Bool := false
  pick1 : Nat := 0
  pick2 : Nat := 0
  pick3 : Nat := 0
  reroll : Nat := 0
deriving DecidableEq, Repr

/-- Modelled from the spec: `randint0(m)` draws a value in `[0, m)`; `raw` is
the raw outcome of the generator behind the draw. -/
def randint0 (raw : Nat) (m : Int) : Int := (raw : Int) % m

/-- The loop of `get_mon_race_aux`: the value of `i` when the loop ends (the
length of the table when no entry is found). -/
def race_aux_scan : List alloc_entry → Int → Nat
  | [], _ => 0
  | entry :: rest, value =>
    if value < entry.prob3 then 0 else race_aux_scan rest (value - entry.prob3) + 1

/-- The function `get_mon_race_aux`: pick an entry by cumulative weight and
return its race, `&r_info[table[i].index]`. -/
def get_mon_race_aux (total : Int) (table : List alloc_entry) (raw : Nat) :
    Except fault Nat :=
  match table[race_aux_scan table (randint0 raw total)]? with
  | some entry => .ok entry.index
  | none => .error fault.oob

/-- The tests of the scan of `get_mon_num` that end in `continue`: whether
the entry is accepted at the (possibly boosted) level. -/
def mon_accept (env : selector_env) (level : Int) (entry : alloc_entry) : Bool :=
  if level > 0 ∧ entry.level ≤ 0 then false
  else if rf_has (env.r_info.getD entry.index {}).flags race_flag.SEASONAL = true ∧
      ¬ (env.tm_mon = 11 ∧ env.tm_mday ≥ 24 ∧ env.tm_mday ≤ 26) then false
  else if rf_has (env.r_info.getD entry.index {}).flags race_flag.UNIQUE = true ∧
      (env.r_info.getD entry.index {}).cur_num ≥ (env.r_info.getD entry.index {}).max_num
    then false
  else if rf_has (env.r_info.getD entry.index {}).flags race_flag.FORCE_DEPTH = true ∧
      (env.r_info.getD entry.index {}).level > env.player_depth then false
  else true

/-- The scan "Process probabilities" of `get_mon_num`, from the current entry
on: the table with its `prob3` recomputed up to the first entry deeper than
`level`, and the running total. -/
def prob_scan (env : selector_env) (level : Int) :
    List alloc_entry → Int → List alloc_entry × Int
  | [], total => ([], total)
  | entry :: rest, total =>
    if entry.level > level then (entry :: rest, total)
    else if mon_accept env level entry = true then
      ({ entry with prob3 := entry.prob2 } ::
          (prob_scan env level rest (total + entry.prob2)).1,
        (prob_scan env level rest (total + entry.prob2)).2)
    else
      ({ entry with prob3 := 0 } :: (prob_scan env level rest total).1,
        (prob_scan env level rest total).2)

/-- The target level of `get_mon_num` after the occasional boost. -/
def boosted_level (level : Int) (ood : Bool) (ood_monster_amount : Nat) : Int :=
  if level > 0 ∧ ood = true then
    level + min (Int.tdiv level 4 + 2) (ood_monster_amount : Int)
  else level

/-- "Keep the deepest one": `if (race->level < old->level) race = old`. -/
def keep_deepest (r_info : List monster_race) (old race : Nat) : Nat :=
  if (r_info.getD race {}).level < (r_info.getD old {}).level then old else race

/-- The function `get_mon_num`: choose a race appropriate to `level`.  The
result is the chosen race (`none` is `NULL`) together with the table, whose
`prob3` the call has rewritten. -/
def get_mon_num (env : selector_env) (table : List alloc_entry) (level : Int)
    (d : mon_num_draws) : Except fault (Option Nat × List alloc_entry) :=
  let level := boosted_level level d.ood env.ood_monster_amount
  let r := prob_scan env level table 0
  if r.2 ≤ 0 then .ok (none, r.1)
  else do
    let race ← get_mon_race_aux r.2 r.1 d.pick1
    let p := randint0 d.reroll 100
    let race ← (if p < 60 then do
        let new ← get_mon_race_aux r.2 r.1 d.pick2
        pure (keep_deepest env.r_info race new)
      else pure race)
    let race ← (if p < 10 then do
        let new ← get_mon_race_aux r.2 r.1 d.pick3
        pure (keep_deepest env.r_info race new)
      else pure race)
    pure (some race, r.1)

/-! ## The monster list -/

/-- The fields of `struct object` that `mon-make.c` reads or writes. -/
structure object where
  artifact : Option Nat := none
  sensed : Bool := false
  is_money : Bool := false
  origin : Nat := 0
  origin_depth : Int := 0
  origin_xtra : Nat := 0
  number : Int := 0
  held_m_idx : Int := 0
  mimicking_m_idx : Int := 0
deriving DecidableEq, Repr

/-- The fields of `struct monster` that `mon-make.c` reads or writes; `{}` is
the slot after `memset(mon, 0, sizeof(struct monster))`.  `sleep` and `fear`
are `m_timed[MON_TMD_SLEEP]` and `m_timed[MON_TMD_FEAR]`, and `unaware`,
`visible` and `nice` are the bits of `mflag`. -/
structure monster where
  race : Option Nat := none
  midx : Int := 0
  fy : Int := 0
  fx : Int := 0
  hp : Int := 0
  maxhp : Int := 0
  mspeed : Int := 0
  energy : Int := 0
  cdis : Int := 0
  sleep : Int := 0
  fear : Int := 0
  unaware : Bool := false
  visible : Bool := false
  nice : Bool := false
  attr : Int := 0
  held_obj : List object := []
  mimicked_obj : Option object := none
deriving DecidableEq, Repr

/-- The state that the monster list code works on: the race registry, the
chunk (`cave`: the monster array with `mon_max` and `mon_cnt`, the monster
reference of every grid cell, the terrain tests, the level feeling), the
global `num_repro`, the target and the tracked monster (a monster pointer is
its slot index), the `created` marker of every artifact, the fields of
`player` and `z_info` that are read, and the messages printed. -/
structure world where
  r_info : List monster_race := []
  monsters : Nat → monster := fun _ => {}
  mon_max : Nat := 1
  mon_cnt : Int := 0
  squares_mon : Int → Int → Int := fun _ _ => 0
  height : Int := 0
  width : Int := 0
  walkable : Int → Int → Bool := fun _ _ => true
  warded : Int → Int → Bool := fun _ _ => false
  passable : Int → Int → Bool := fun _ _ => true
  mon_rating : Int := 0
  num_repro : Int := 0
  target : Option Nat := none
  health_who : Option Nat := none
  created : Nat → Bool := fun _ => false
  py : Int := 0
  px : Int := 0
  depth : Int := 0
  lev : Int := 1
  exp : Int := 0
  exp_frac : Int := 0
  level_monster_max : Nat := 1024
  character_dungeon : Bool := false
  msgs : List String := []

/-- Conversion to `u16b`. -/
def u16b (x : Int) : Int := x % 65536

/-- Conversion to `s32b` (two's complement wrap-around). -/
def s32b (x : Int) : Int := (x + 2147483648) % 4294967296 - 2147483648

/-- Modelled from the spec: `randint1(m)` draws a value in `[1, m]`. -/
def randint1 (raw : Nat) (m : Int) : Int := randint0 raw m + 1

/-- Modelled from the spec: `rand_range(a, b)` draws a value in `[a, b]`. -/
def rand_range (raw : Nat) (a b : Int) : Int := a + randint0 raw (1 + b - a)

/-- The array after `slots[i] = m`. -/
def slot_set (slots : Nat → monster) (i : Nat) (m : monster) : Nat → monster :=
  fun j => if j = i then m else slots j

/-- The grid after `squares[y][x].mon = v`. -/
def grid_set (g : Int → Int → Int) (y x : Int) (v : Int) : Int → Int → Int :=
  fun y' x' => if y' = y ∧ x' = x then v else g y' x'

/-- The artifact markers after `a_info[a].created = v`. -/
def created_set (cr : Nat → Bool) (a : Nat) (v : Bool) : Nat → Bool :=
  fun b => if b = a then v else cr b

/-- The registry after an update of race `r`. -/
def race_update (r_info : List monster_race) (r : Nat)
    (f : monster_race → monster_race) : List monster_race :=
  r_info.set r (f (r_info.getD r {}))

/-- Modelled from the spec: `square_in_bounds(c, y, x)`, the in-bounds check
of the grid. -/
def square_in_bounds (w : world) (y x : Int) : Bool :=
  decide (0 ≤ y ∧ y < w.height ∧ 0 ≤ x ∧ x < w.width)

/-- Modelled from the spec: `square_monster(c, y, x)` is not `NULL`, that is
the cell is occupied: a grid cell holds a slot index, 0 when empty. -/
def square_monster (w : world) (y x : Int) : Bool :=
  decide (w.squares_mon y x > 0)

/-- The function `mon_pop`: the index of a free slot, or 0 if no slot is
available. -/
def mon_pop (w : world) : Int × world :=
  if w.mon_max < w.level_monster_max then
    (s16b w.mon_max, { w with mon_max := w.mon_max + 1, mon_cnt := w.mon_cnt + 1 })
  else
    match (List.range' 1 (w.mon_max - 1)).find?
        (fun m_idx => (w.monsters m_idx).race.isNone) with
    | some m_idx => (s16b m_idx, { w with mon_cnt := w.mon_cnt + 1 })
    | none =>
      (0, if w.character_dungeon then { w with msgs := w.msgs ++ ["Too many monsters!"] }
          else w)

/-- The loop "Delete objects" of `delete_monster_idx`: an artifact that was
not sensed is marked as not created; every object is deleted. -/
def release_held (created : Nat → Bool) : List object → Nat → Bool
  | [] => created
  | obj :: next =>
    match obj.artifact with
    | some a =>
      if obj.sensed = false then release_held (created_set created a false) next
      else release_held created next
    | none => release_held created next

/-- The function `delete_monster_idx`: delete the monster in slot `m_idx`.
The floor piles (`square_excise_object`) and the display
(`square_light_spot`) are not part of the state. -/
def delete_monster_idx (w : world) (m_idx : Int) : Except fault world :=
  if ¬ m_idx > 0 then .error fault.assertion
  else if square_in_bounds w (w.monsters m_idx.toNat).fy (w.monsters m_idx.toNat).fx = false
    then .error fault.assertion
  else
    match (w.monsters m_idx.toNat).race with
    | none => .error fault.null_deref
    | some r =>
      .ok { w with
        r_info := race_update w.r_info r (fun race => { race with cur_num := race.cur_num - 1 })
        num_repro :=
          if rf_has (w.r_info.getD r {}).flags race_flag.MULTIPLY = true
          then s16b (w.num_repro - 1) else w.num_repro
        target := if w.target = some m_idx.toNat then none else w.target
        health_who := if w.health_who = some m_idx.toNat then none else w.health_who
        squares_mon :=
          grid_set w.squares_mon (w.monsters m_idx.toNat).fy (w.monsters m_idx.toNat).fx 0
        created := release_held w.created (w.monsters m_idx.toNat).held_obj
        monsters := slot_set w.monsters m_idx.toNat {}
        mon_cnt := w.mon_cnt - 1 }

/-- The function `monster_death`: the monster in slot `m` drops what it
carries.  The objects leave the monster for the floor (`drop_near`), which is
not part of the state, like the lore and the quest bookkeeping. -/
def monster_death (w : world) (m : Nat) : world :=
  { w with monsters :=
      slot_set w.monsters m { w.monsters m with held_obj := [], mimicked_obj := none } }

/-- The outcomes of the random draws of one call of `mon_take_hit`:
`randint1(dam)`, the first `randint1(10)`, `randint0(100)` and the second
`randint1(10)`. -/
structure hit_draws where
  pain : Nat := 0
  run : Nat := 0
  usually : Nat := 0
  timer : Nat := 0
deriving DecidableEq, Repr

/-- The part of `mon_take_hit` after the monster survived: pain may cancel
fear, and damage may scare the monster.  Modelled from the spec, the timer
helpers of `mon-timed.c`: `mon_dec_timed` reduces the fear timer by the given
amount, `mon_clear_timed` sets it to 0 and `mon_inc_timed` (which cannot fail
here) adds to it. -/
def hit_fear (mon : monster) (race : monster_race) (dam : Int) (fear : Bool)
    (d : hit_draws) : Except fault (Bool × monster) :=
  let s1 : Bool × monster :=
    if fear = false ∧ mon.fear ≠ 0 ∧ dam > 0 then
      if randint1 d.pain dam < mon.fear then
        (fear, { mon with fear := mon.fear - randint1 d.pain dam })
      else (false, { mon with fear := 0 })
    else (fear, mon)
  if s1.2.fear = 0 ∧ rf_has race.flags race_flag.NO_FEAR = false ∧ dam > 0 then
    if s1.2.maxhp = 0 then .error fault.div_zero
    else
      let percentage := Int.tdiv (100 * s1.2.hp) s1.2.maxhp
      if randint1 d.run 10 ≥ percentage ∨
          (dam ≥ s1.2.hp ∧ randint0 d.usually 100 < 80) then
        .ok (true, { s1.2 with fear := s1.2.fear + (randint1 d.timer 10 +
          (if dam ≥ s1.2.hp ∧ percentage > 7 then 20 else (11 - percentage) * 5)) })
      else .ok s1
  else .ok s1

/-- "Give some experience for the kill" and "Handle fractional experience" in
`mon_take_hit`: the experience passed to `player_exp_gain` and the new value
of `player->exp_frac`, for a player of level `div`.  The locals `new_exp`
and `new_exp_frac` are `s32b`. -/
def kill_exp (mexp level div exp_frac : Int) : Int × Int :=
  let new_exp := s32b (Int.tdiv (mexp * level) div)
  let new_exp_frac :=
    s32b (Int.tdiv (Int.tmod (mexp * level) div * 65536) div + exp_frac)
  if new_exp_frac ≥ 65536 then (s32b (new_exp + 1), u16b (new_exp_frac - 65536))
  else (new_exp, u16b new_exp_frac)

/-- The function `mon_take_hit`: decrease the hit points of the monster in
slot `m` by `dam` and handle its death.  The result is the returned flag
(killed), the final value of `*fear`, and the state.  Messages, sounds, the
lore and the history are not part of the state; `mon_clear_timed` ends the
sleep, `become_aware` clears the unaware flag and `player_exp_gain` adds to
`exp`. -/
def mon_take_hit (w : world) (m : Nat) (dam : Int) (fear : Bool) (d : hit_draws) :
    Except fault (Bool × Bool × world) :=
  match (w.monsters m).race with
  | none => .error fault.null_deref
  | some r =>
    let race := w.r_info.getD r {}
    let mon : monster :=
      { w.monsters m with sleep := 0, unaware := false, hp := (w.monsters m).hp - dam }
    let w1 : world := { w with monsters := slot_set w.monsters m mon }
    if mon.hp < 0 then
      if w1.lev = 0 then .error fault.div_zero
      else
        let gained := kill_exp race.mexp race.level w1.lev w1.exp_frac
        let w2 : world := { w1 with exp_frac := gained.2 }
        let w3 : world :=
          if rf_has race.flags race_flag.UNIQUE = true then
            { w2 with r_info := race_update w2.r_info r (fun race => { race with max_num := 0 }) }
          else w2
        let w4 : world := { w3 with exp := w3.exp + gained.1 }
        let w5 := monster_death w4 m
        match delete_monster_idx w5 (w5.monsters m).midx with
        | .error e => .error e
        | .ok w6 => .ok (true, false, w6)
    else
      match hit_fear mon race dam fear d with
      | .error e => .error e
      | .ok s => .ok (false, s.1, { w1 with monsters := slot_set w1.monsters m s.2 })

/-! ## Placement -/

/-- The outcomes of the random draws of `mon_create_drop_count`: the three
`randint0(100)` and the raw values behind the three `rand_range`. -/
structure count_draws where
  d20 : Nat := 0
  d40 : Nat := 0
  d60 : Nat := 0
  d4 : Nat := 0
  d3 : Nat := 0
  d2 : Nat := 0
deriving DecidableEq, Repr

/-- The function `mon_create_drop_count`: the number of things dropped by a
monster. -/
def mon_create_drop_count (race : monster_race) (maximize : Bool) (d : count_draws) : Int :=
  if maximize = true then
    (if rf_has race.flags race_flag.DROP_20 = true then 1 else 0) +
    (if rf_has race.flags race_flag.DROP_40 = true then 1 else 0) +
    (if rf_has race.flags race_flag.DROP_60 = true then 1 else 0) +
    (if rf_has race.flags race_flag.DROP_4 = true then 6 else 0) +
    (if rf_has race.flags race_flag.DROP_3 = true then 4 else 0) +
    (if rf_has race.flags race_flag.DROP_2 = true then 3 else 0) +
    (if rf_has race.flags race_flag.DROP_1 = true then 1 else 0)
  else
    (if rf_has race.flags race_flag.DROP_20 = true ∧ randint0 d.d20 100 < 20 then 1 else 0) +
    (if rf_has race.flags race_flag.DROP_40 = true ∧ randint0 d.d40 100 < 40 then 1 else 0) +
    (if rf_has race.flags race_flag.DROP_60 = true ∧ randint0 d.d60 100 < 60 then 1 else 0) +
    (if rf_has race.flags race_flag.DROP_4 = true then rand_range d.d4 2 6 else 0) +
    (if rf_has race.flags race_flag.DROP_3 = true then rand_range d.d3 2 4 else 0) +
    (if rf_has race.flags race_flag.DROP_2 = true then rand_range d.d2 1 3 else 0) +
    (if rf_has race.flags race_flag.DROP_1 = true then 1 else 0)

/-- What the collaborators give for one specified drop: `randint0(100)`, the
object made by `object_prep` and `copy_artifact_data` or `apply_magic`, the
raw value behind `randint0(drop->max - drop->min)`, and the result of
`monster_carry`. -/
structure spec_draw where
  roll : Nat := 0
  obj : object := {}
  number : Nat := 0
  carry : Bool := true
deriving DecidableEq, Repr

/-- What the collaborators give for one round of "Make some objects":
`randint0(100)`, the result of `make_gold`, the result of `make_object`
(`none` is `NULL`), and the result of `monster_carry`. -/
structure rand_draw where
  coin : Nat := 0
  gold : object := {}
  item : Option object := none
  carry : Bool := true
deriving DecidableEq, Repr

/-- The draws of one call of `mon_create_drop`. -/
structure drop_draws where
  count : count_draws := {}
  specified : List spec_draw := []
  random : List rand_draw := []
deriving DecidableEq, Repr

/-- "Try to carry": Modelled from the spec, `monster_carry` attaches the
object to the monster's carried collection when it succeeds; when it fails,
`obj->artifact->created = FALSE` and the object is discarded.  The state is
the monster, the artifact markers and `any`. -/
def try_carry (st : monster × (Nat → Bool) × Bool) (obj : object) (carry : Bool) :
    Except fault (monster × (Nat → Bool) × Bool) :=
  if carry = true then
    .ok ({ st.1 with held_obj := ({ obj with held_m_idx := st.1.midx } :: st.1.held_obj) },
      st.2.1, true)
  else
    match obj.artifact with
    | none => .error fault.null_deref
    | some a => .ok (st.1, created_set st.2.1 a false, st.2.2)

/-- The loop "Specified drops" of `mon_create_drop`, from the current rule on. -/
def specified_drops (race : monster_race) (origin : Nat) (depth : Int) :
    List monster_drop → List spec_draw → monster × (Nat → Bool) × Bool →
    Except fault (monster × (Nat → Bool) × Bool)
  | [], _, st => .ok st
  | drop :: next, ds, st =>
    if randint0 (ds.headD {}).roll 100 ≥ (drop.percent_chance : Int) then
      specified_drops race origin depth next ds.tail st
    else
      match try_carry
          (st.1, (match drop.artifact with
            | some a => created_set st.2.1 a true
            | none => st.2.1), st.2.2)
          { (ds.headD {}).obj with
            artifact := (match drop.artifact with
              | some a => some a
              | none => (ds.headD {}).obj.artifact)
            origin := origin, origin_depth := depth, origin_xtra := race.ridx
            number := randint0 (ds.headD {}).number (drop.max - drop.min) + drop.min }
          (ds.headD {}).carry with
      | .error e => .error e
      | .ok st' => specified_drops race origin depth next ds.tail st'

/-- The loop "Make some objects" of `mon_create_drop`: `number` rounds. -/
def random_drops (race : monster_race) (origin : Nat) (depth : Int) :
    Nat → List rand_draw → monster × (Nat → Bool) × Bool →
    Except fault (monster × (Nat → Bool) × Bool)
  | 0, _, st => .ok st
  | number + 1, ds, st =>
    if rf_has race.flags race_flag.ONLY_ITEM = false ∧
        (¬ rf_has race.flags race_flag.ONLY_GOLD = false ∨
          randint0 (ds.headD {}).coin 100 < 50) then
      match try_carry st
          { (ds.headD {}).gold with
            origin := origin, origin_depth := depth, origin_xtra := race.ridx }
          (ds.headD {}).carry with
      | .error e => .error e
      | .ok st' => random_drops race origin depth number ds.tail st'
    else
      match (ds.headD {}).item with
      | none => random_drops race origin depth number ds.tail st
      | some obj =>
        match try_carry st
            { obj with origin := origin, origin_depth := depth, origin_xtra := race.ridx }
            (ds.headD {}).carry with
        | .error e => .error e
        | .ok st' => random_drops race origin depth number ds.tail st'

/-- The function `mon_create_drop`: create the drop of the monster in slot
`m`.  The result is the returned flag (anything created) and the state.  The
quality and the level of the objects are inside the objects that the
collaborators give. -/
def mon_create_drop (w : world) (m : Nat) (origin : Nat) (d : drop_draws) :
    Except fault (Bool × world) :=
  match (w.monsters m).race with
  | none => .error fault.null_deref
  | some r =>
    match specified_drops (w.r_info.getD r {}) origin w.depth (w.r_info.getD r {}).drops
        d.specified (w.monsters m, w.created, false) with
    | .error e => .error e
    | .ok st =>
      match random_drops (w.r_info.getD r {}) origin w.depth
          (mon_create_drop_count (w.r_info.getD r {}) false d.count).toNat d.random st with
      | .error e => .error e
      | .ok st' =>
        .ok (st'.2.2, { w with monsters := slot_set w.monsters m st'.1, created := st'.2.1 })

/-- What the collaborators give to one call of `place_new_monster_one`: the
raw value behind `randint1(val * 10)`, the result of `Rand_normal`, the raw
values behind `rand_spread`, `randint0(50)` and `randint1(BASIC_COLORS - 1)`,
the distance and the visibility set by `update_mon`, the draws of
`mon_create_drop`, and for a mimic the object made and the result of
`floor_carry`. -/
structure place_draws where
  sleep : Nat := 0
  normal : Int := 1
  spread : Nat := 0
  energy : Nat := 0
  attr : Nat := 0
  cdis : Int := 0
  visible : Bool := false
  drops : drop_draws := {}
  mimic_obj : object := {}
  floor_carry : Bool := true
deriving DecidableEq, Repr

/-- The end of `place_monster`: "Make mimics start mimicking". -/
def start_mimic (w : world) (m_idx : Int) (d : place_draws) : world :=
  let new_mon := w.monsters m_idx.toNat
  let obj : object := { d.mimic_obj with mimicking_m_idx := m_idx }
  let carried : object := { obj with mimicking_m_idx := 0, held_m_idx := new_mon.midx }
  let mon' : monster :=
    if d.floor_carry = true then { new_mon with mimicked_obj := some obj }
    else if rf_has (w.r_info.getD (new_mon.race.getD 0) {}).flags race_flag.MIMIC_INV = true
    then { new_mon with mimicked_obj := none, held_obj := carried :: new_mon.held_obj }
    else { new_mon with mimicked_obj := none }
  { w with monsters := slot_set w.monsters m_idx.toNat mon' }

/-- The function `place_monster`: put a copy of `mon` at `(y, x)`.  The
result is the slot index of the new monster, or 0 if the placement fails.
`update_mon` sets the distance and the visibility of the new monster. -/
def place_monster (w : world) (y x : Int) (mon : monster) (origin : Nat)
    (d : place_draws) : Except fault (Int × world) :=
  if square_in_bounds w y x = false then .error fault.assertion
  else if square_monster w y x = true then .error fault.assertion
  else if (mon_pop w).1 = 0 then .ok (0, (mon_pop w).2)
  else
    match mon.race with
    | none => .error fault.null_deref
    | some r =>
      let m_idx := (mon_pop w).1
      let w1 : world :=
        { (mon_pop w).2 with
          monsters := slot_set (mon_pop w).2.monsters m_idx.toNat
            { mon with midx := m_idx, fy := y, fx := x, cdis := d.cdis, visible := d.visible }
          squares_mon := grid_set (mon_pop w).2.squares_mon y x m_idx
          num_repro :=
            if rf_has (w.r_info.getD r {}).flags race_flag.MULTIPLY = true
            then s16b (w.num_repro + 1) else w.num_repro
          r_info := race_update w.r_info r
            (fun race => { race with cur_num := race.cur_num + 1 }) }
      if origin = 0 then .ok (m_idx, w1)
      else
        match mon_create_drop w1 m_idx.toNat origin d.drops with
        | .error e => .error e
        | .ok res =>
          if (w.r_info.getD r {}).mimic_kinds = [] then .ok (m_idx, res.2)
          else .ok (m_idx, start_mimic res.2 m_idx d)

/-- Modelled from the spec: `rand_spread(a, d)` draws a value in
`[a - d, a + d]`. -/
def rand_spread (raw : Nat) (a d : Int) : Int := a + randint0 raw (1 + d + d) - d

/-- The `aspect` of a random value. -/
inductive aspect where
  | MINIMISE | AVERAGE | MAXIMISE | EXTREMIFY | RANDOMISE
deriving DecidableEq, Repr

/-- The function `mon_hp`: the hit points of a monster of the race; `normal`
is the outcome of `Rand_normal(race->avg_hp, std_dev)`. -/
def mon_hp (race : monster_race) (hp_aspect : aspect) (normal : Int) : Int :=
  let std_dev := Int.tdiv (Int.tdiv (race.avg_hp * 10) 8 + 5) 10
  let std_dev := if race.avg_hp > 1 then std_dev + 1 else std_dev
  match hp_aspect with
  | aspect.MINIMISE => race.avg_hp - 4 * std_dev
  | aspect.MAXIMISE => race.avg_hp + 4 * std_dev
  | aspect.EXTREMIFY => race.avg_hp + 4 * std_dev
  | aspect.AVERAGE => race.avg_hp
  | aspect.RANDOMISE => normal

/-- The monster that `place_new_monster_one` builds in `monster_body`.
`turn_energy` is the table of `extract_energy`. -/
def new_monster_body (r : Nat) (race : monster_race) (sleep : Bool)
    (turn_energy : Int → Int) (basic_colors : Int) (d : place_draws) : monster :=
  { race := some r
    sleep := if sleep = true ∧ race.sleep ≠ 0
      then race.sleep * 2 + randint1 d.sleep (race.sleep * 10) else 0
    maxhp := if rf_has race.flags race_flag.UNIQUE = true then race.avg_hp
      else max (mon_hp race aspect.RANDOMISE d.normal) 1
    hp := if rf_has race.flags race_flag.UNIQUE = true then race.avg_hp
      else max (mon_hp race aspect.RANDOMISE d.normal) 1
    mspeed :=
      if rf_has race.flags race_flag.UNIQUE = false ∧
          Int.tdiv (turn_energy race.speed) 10 ≠ 0
      then race.speed + rand_spread d.spread 0 (Int.tdiv (turn_energy race.speed) 10)
      else race.speed
    energy := (randint0 d.energy 50) % 256
    nice := rf_has race.flags race_flag.FORCE_SLEEP
    unaware := rf_has race.flags race_flag.UNAWARE
    attr := if rf_has race.flags race_flag.ATTR_RAND = true
      then randint1 d.attr (basic_colors - 1) else 0 }

/-- The function `place_new_monster_one`: try to place a monster of race `r`
at `(y, x)`.  The result is the returned flag and the state.  `turn_energy`
and `basic_colors` stand for the table `extract_energy` and the constant
`BASIC_COLORS`; the cheat messages and the view update request are not part
of the state. -/
def place_new_monster_one (w : world) (y x : Int) (r : Nat) (sleep : Bool) (origin : Nat)
    (turn_energy : Int → Int) (basic_colors : Int) (d : place_draws) :
    Except fault (Bool × world) :=
  if square_in_bounds w y x = false then .error fault.assertion
  else if square_monster w y x = true then .ok (false, w)
  else if w.py = y ∧ w.px = x then .ok (false, w)
  else if w.walkable y x = false then .ok (false, w)
  else if w.warded y x = true then .ok (false, w)
  else if rf_has (w.r_info.getD r {}).flags race_flag.UNIQUE = true ∧
      (w.r_info.getD r {}).cur_num ≥ (w.r_info.getD r {}).max_num then .ok (false, w)
  else if rf_has (w.r_info.getD r {}).flags race_flag.FORCE_DEPTH = true ∧
      w.depth < (w.r_info.getD r {}).level then .ok (false, w)
  else
    match place_monster
        { w with mon_rating :=
            if (w.r_info.getD r {}).level > w.depth then
              w.mon_rating + Int.tdiv (w.r_info.getD r {}).power 20 +
                Int.tdiv (((w.r_info.getD r {}).level - w.depth) *
                  (w.r_info.getD r {}).power) 200
            else w.mon_rating + Int.tdiv (w.r_info.getD r {}).power 20 }
        y x (new_monster_body r (w.r_info.getD r {}) sleep turn_energy basic_colors d)
        origin d with
    | .error e => .error e
    | .ok res => if res.1 = 0 then .ok (false, res.2) else .ok (true, res.2)

/-! ## Compaction and bulk wipe -/

/-- The function `delete_monster`: delete the monster, if any, at `(y, x)`. -/
def delete_monster (w : world) (y x : Int) : Except fault world :=
  if square_in_bounds w y x = false then .error fault.assertion
  else if w.squares_mon y x > 0 then delete_monster_idx w (w.squares_mon y x)
  else .ok w

/-- The function `compact_monsters_aux`: move the monster of slot `i1` to slot
`i2`. -/
def compact_monsters_aux (w : world) (i1 i2 : Nat) : world :=
  if i1 = i2 then w
  else
    let mon := w.monsters i1
    let moved : monster :=
      { mon with
        midx := i2
        held_obj := mon.held_obj.map (fun obj => { obj with held_m_idx := i2 })
        mimicked_obj := mon.mimicked_obj.map (fun obj => { obj with mimicking_m_idx := i2 }) }
    { w with
      squares_mon := grid_set w.squares_mon mon.fy mon.fx i2
      target := if w.target = some i1 then some i2 else w.target
      health_who := if w.health_who = some i1 then some i2 else w.health_who
      monsters := slot_set (slot_set w.monsters i2 moved) i1 {} }

/-- The saving throw of `compact_monsters`: "Saving throw chance" with its two
adjustments, in the order of the source. -/
def compact_chance (flags : List race_flag) (iter : Int) : Int :=
  let chance : Int := 90
  let chance : Int :=
    if rf_has flags race_flag.QUESTOR = true ∧ iter < 1000 then 100 else chance
  if rf_has flags race_flag.UNIQUE = true then 99 else chance

/-- Body of the loop "Check all the monsters" of `compact_monsters` for slot
`m_idx` in pass `iter`; `draw` is the raw value behind `randint0(100)`.  The
state is the chunk and `num_compacted`. -/
def compact_visit (iter : Int) (draw : Nat) (st : world × Int) (m_idx : Nat) :
    Except fault (world × Int) :=
  match (st.1.monsters m_idx).race with
  | none => .ok st
  | some r =>
    if (st.1.r_info.getD r {}).level > 5 * iter then .ok st
    else if 5 * (20 - iter) > 0 ∧ (st.1.monsters m_idx).cdis < 5 * (20 - iter) then .ok st
    else if randint0 draw 100 < compact_chance (st.1.r_info.getD r {}).flags iter then .ok st
    else
      match delete_monster st.1 (st.1.monsters m_idx).fy (st.1.monsters m_idx).fx with
      | .error e => .error e
      | .ok w' => .ok (w', st.2 + 1)

/-- One pass of `compact_monsters` over the slots `1 .. mon_max - 1`. -/
def compact_pass (iter : Int) (draws : Nat → Nat) (w : world) (num_compacted : Int) :
    Except fault (world × Int) :=
  (List.range' 1 (w.mon_max - 1)).foldlM
    (fun st m_idx => compact_visit iter (draws m_idx) st m_idx) (w, num_compacted)

/-- The loop "Compact at least `num_to_compact` objects" of `compact_monsters`
from pass `iter` on.  The loop has no bound of its own, so the model counts
the passes it may still run in `fuel`; `none` means that `fuel` passes were not
enough.  `draws iter m_idx` is the raw value drawn for slot `m_idx` in pass
`iter`. -/
def compact_passes (draws : Nat → Nat → Nat) (num_to_compact : Int) :
    Nat → Nat → world → Int → Option (Except fault (world × Int))
  | 0, _, w, num_compacted =>
    if num_compacted < num_to_compact then none else some (.ok (w, num_compacted))
  | fuel + 1, iter, w, num_compacted =>
    if num_compacted < num_to_compact then
      match compact_pass iter (draws iter) w num_compacted with
      | .error e => some (.error e)
      | .ok st => compact_passes draws num_to_compact fuel (iter + 1) st.1 st.2
    else some (.ok (w, num_compacted))

/-- One round of the loop "Excise dead monsters": a real monster is skipped,
a hole is filled with the last monster and `mon_max` is compressed. -/
def excise_slot (w : world) (m_idx : Nat) : world :=
  if (w.monsters m_idx).race.isSome = true then w
  else { compact_monsters_aux w (w.mon_max - 1) m_idx with mon_max := w.mon_max - 1 }

/-- The loop "Excise dead monsters (backwards!)" of `compact_monsters`, from
slot `m_idx` down to slot 1. -/
def excise_dead : Nat → world → world
  | 0, w => w
  | m_idx + 1, w => excise_dead m_idx (excise_slot w (m_idx + 1))

/-- The function `compact_monsters`: compact and reorder the monster list.
`none` means that the deletion passes did not end within `fuel` passes. -/
def compact_monsters (fuel : Nat) (w : world) (num_to_compact : Int)
    (draws : Nat → Nat → Nat) : Option (Except fault world) :=
  match compact_passes draws num_to_compact fuel 1
      (if num_to_compact ≠ 0 then { w with msgs := w.msgs ++ ["Compacting monsters..."] }
       else w) 0 with
  | none => none
  | some (.error e) => some (.error e)
  | some (.ok st) => some (.ok (excise_dead (st.1.mon_max - 1) st.1))

/-- Body of the loop "Delete all the monsters" of `wipe_mon_list` for slot
`m_idx`. -/
def wipe_slot (w : world) (m_idx : Nat) : world :=
  match (w.monsters m_idx).race with
  | none => w
  | some r =>
    { w with
      created := release_held w.created (w.monsters m_idx).held_obj
      r_info := race_update w.r_info r (fun race => { race with cur_num := race.cur_num - 1 })
      squares_mon := grid_set w.squares_mon (w.monsters m_idx).fy (w.monsters m_idx).fx 0
      monsters := slot_set w.monsters m_idx {} }

/-- The loop "Delete all the monsters" of `wipe_mon_list`, from slot `m_idx`
down to slot 1. -/
def wipe_loop : Nat → world → world
  | 0, w => w
  | m_idx + 1, w => wipe_loop m_idx (wipe_slot w (m_idx + 1))

/-- The function `wipe_mon_list`: delete all the monsters of the chunk. -/
def wipe_mon_list (w : world) : world :=
  { wipe_loop (w.mon_max - 1) w with
    mon_max := 1, mon_cnt := 0, num_repro := 0, target := none, health_who := none }

/-! ## Groups -/

/-- Modelled from the spec: the tables `ddx_ddd` and `ddy_ddd`, the offsets of
the 8 neighbours of a cell, tried in turn. -/
def ddx_ddd : List Int := [0, 0, 1, -1, 1, -1, 1, -1]

/-- Modelled from the spec: the row offsets that go with `ddx_ddd`. -/
def ddy_ddd : List Int := [1, -1, 0, 0, 1, 1, -1, -1]

/-- Modelled from the spec: `square_isempty(c, y, x)`, the open/empty
predicate: the terrain is open and no monster stands there. -/
def square_isempty (w : world) (y x : Int) : Bool :=
  w.passable y x && decide (w.squares_mon y x = 0)

/-- Conversion to `byte`, the type of `hack_y[]` and `hack_x[]`. -/
def byte (v : Int) : Int := v % 256

/-- Body of the loop "Check each direction, up to total" of
`place_new_monster_group` for direction `i` around `(hy, hx)`.  The state is
the chunk and the list of the `hack_n` coordinates recorded so far. -/
def group_try (r : Nat) (sleep : Bool) (origin : Nat) (turn_energy : Int → Int)
    (basic_colors : Int) (total : Int) (hy hx : Int) (draws : Nat → place_draws)
    (st : world × List (Int × Int)) (i : Nat) : Except fault (world × List (Int × Int)) :=
  if ¬ (st.2.length : Int) < total then .ok st
  else if square_isempty st.1 (hy + ddy_ddd.getD i 0) (hx + ddx_ddd.getD i 0) = false then .ok st
  else
    match place_new_monster_one st.1 (hy + ddy_ddd.getD i 0) (hx + ddx_ddd.getD i 0)
        r sleep origin turn_energy basic_colors (draws i) with
    | .error e => .error e
    | .ok res =>
      if res.1 = false then .ok (res.2, st.2)
      else if st.2.length ≥ 25 then .error fault.oob
      else .ok (res.2,
        st.2 ++ [(byte (hy + ddy_ddd.getD i 0), byte (hx + ddx_ddd.getD i 0))])

/-- The loop "Puddle monsters, breadth first, up to total" of
`place_new_monster_group` from `n` on; it ends within `total` rounds, which
`fuel` counts. -/
def group_loop (r : Nat) (sleep : Bool) (origin : Nat) (turn_energy : Int → Int)
    (basic_colors : Int) (total : Int) (draws : Nat → Nat → place_draws) :
    Nat → Nat → world × List (Int × Int) → Except fault (world × List (Int × Int))
  | 0, _, st => .ok st
  | fuel + 1, n, st =>
    if n < st.2.length ∧ (st.2.length : Int) < total then
      match (List.range 8).foldlM
          (group_try r sleep origin turn_energy basic_colors total
            (st.2.getD n (0, 0)).1 (st.2.getD n (0, 0)).2 (draws n)) st with
      | .error e => .error e
      | .ok st' => group_loop r sleep origin turn_energy basic_colors total draws fuel (n + 1) st'
    else .ok st

/-- The function `place_new_monster_group`: place monsters of race `r` around
`(y, x)`, where the first monster of the group already stands, until the
group has `total` members.  `draws n i` are the draws of the placement tried
in direction `i` around the `n`-th member.  The result is the returned flag
and the state. -/
def place_new_monster_group (w : world) (y x : Int) (r : Nat) (sleep : Bool) (total : Int)
    (origin : Nat) (turn_energy : Int → Int) (basic_colors : Int)
    (draws : Nat → Nat → place_draws) : Except fault (Bool × world) :=
  match group_loop r sleep origin turn_energy basic_colors total draws total.toNat 0
      (w, [(byte y, byte x)]) with
  | .error e => .error e
  | .ok st => .ok (true, st.1)

/-! ## The level of a drop -/

/-- The level that `mon_create_drop` passes to `object_prep`, `apply_magic`,
`make_gold` and `make_object`, for a player at `depth`: the lines from "Give
added bonus for unique monters" to `level = MIN(level, 100)`. -/
def drop_level (race : monster_race) (depth : Int) : Int :=
  let monlevel := race.level
  let monlevel :=
    if rf_has race.flags race_flag.UNIQUE = true then min (monlevel + 15) (monlevel * 2)
    else monlevel
  let level := max (Int.tdiv (monlevel + depth) 2) monlevel
  min level 100

/-! ## Friends and escorts -/

/-- Modelled from the spec: `square_isopen(c, y, x)`, the open predicate: the
terrain is open and no monster stands there.  The objects on the floor, which
tell an empty cell from an open one, are not part of the state. -/
def square_isopen (w : world) (y x : Int) : Bool :=
  w.passable y x && decide (w.squares_mon y x = 0)

/-- The outcomes of the random draws of one call of `place_friends`: the raw
value behind `randint0(10)`, the cell `(ny, nx)` that the `j`-th call of
`scatter` returns, the draws of the placement of the first friend and those of
the group. -/
structure friends_draws where
  extra : Nat := 0
  scatter : Nat → Int × Int := fun _ => (0, 0)
  one : place_draws := {}
  group : Nat → Nat → place_draws := fun _ _ => {}

/-- The start of `place_friends`, from "Find the difference between current
dungeon depth and monster level" to the end of "Reduce group size within 5
levels of natural depth": the value of `total` after these lines, or `none`
when the function has returned FALSE ("no groups allowed").  `depth` is
`player->depth` and `raw` is the raw value behind `randint0(10)`. -/
def friends_size (depth : Int) (friends_race : monster_race) (total : Int) (raw : Nat) :
    Option Int :=
  let level_difference := depth - friends_race.level + 5
  let is_unique := rf_has friends_race.flags race_flag.UNIQUE
  let total :=
    if is_unique = true then (if friends_race.cur_num < friends_race.max_num then 1 else 0)
    else total
  if level_difference ≤ 0 ∧ is_unique = false then none
  else if level_difference < 10 ∧ is_unique = false then
    let extra_chance := Int.tmod (total * level_difference) 10
    let total := Int.tdiv (total * level_difference) 10
    if randint0 raw 10 > extra_chance then some (total + 1) else some total
  else some total

/-- The loop "Find a nearby place to put the other groups" of `place_friends`:
the cell `(ny, nx)` after the loop, which is the first open cell among those
returned by the 50 calls of `scatter`, or the 50th cell if none is open. -/
def friends_cell (w : world) (scatter : Nat → Int × Int) : Int × Int :=
  match (List.range 50).find? (fun j => square_isopen w (scatter j).1 (scatter j).2) with
  | some j => scatter j
  | none => scatter 49

/-- The function `place_friends`: place the friends or the escort, of race
`friends_r`, of a monster of race `r` that stands at `(y, x)`.  The result is
the returned flag and the state. -/
def place_friends (w : world) (y x : Int) (r friends_r : Nat) (total : Int) (sleep : Bool)
    (origin : Nat) (turn_energy : Int → Int) (basic_colors : Int) (d : friends_draws) :
    Except fault (Bool × world) :=
  match friends_size w.depth (w.r_info.getD friends_r {}) total d.extra with
  | none => .ok (false, w)
  | some total =>
    if total ≤ 0 then .ok (false, w)
    else if (w.r_info.getD r {}).ridx = (w.r_info.getD friends_r {}).ridx then
      place_new_monster_group w y x r sleep total origin turn_energy basic_colors d.group
    else
      match place_new_monster_one w (friends_cell w d.scatter).1 (friends_cell w d.scatter).2
          friends_r sleep origin turn_energy basic_colors d.one with
      | .error e => .error e
      | .ok res =>
        if total > 1 then
          place_new_monster_group res.2 (friends_cell w d.scatter).1 (friends_cell w d.scatter).2
            friends_r sleep total origin turn_energy basic_colors d.group
        else .ok res

/-! ## Notions used in the statements -/

/-- The scanned races with nonzero rarity, in registry order. -/
def kept (r_info : List monster_race) : List (Nat × monster_race) :=
  (scanned r_info).filter (fun ir => decide (ir.2.rarity ≠ 0))

/-- Number of races of `K` whose level is exactly `l`. -/
def lev_count (K : List (Nat × monster_race)) (l : Int) : Nat :=
  K.countP (fun ir => decide (ir.2.level = l))

/-- Number of races of `K` whose level is below `l`. -/
def lev_below (K : List (Nat × monster_race)) (l : Int) : Nat :=
  K.countP (fun ir => decide (ir.2.level < l))

/-- The entry that the second scan of `init_race_allocs` loads for a race. -/
def entry_of (ir : Nat × monster_race) : alloc_entry :=
  { index := ir.1, level := ir.2.level,
    prob1 := ((100 / ir.2.rarity : Nat) : Int),
    prob2 := ((100 / ir.2.rarity : Nat) : Int),
    prob3 := ((100 / ir.2.rarity : Nat) : Int) }

/-- Level of the `k`-th race of `K`. -/
def lev_at (K : List (Nat × monster_race)) (k : Nat) : Int :=
  (K.getD k (0, {})).2.level

/-- Table position of the `k`-th race of `K`: the number of races of lower
level, plus the number of earlier races of the same level. -/
def slot_of (K : List (Nat × monster_race)) (k : Nat) : Nat :=
  lev_below K (lev_at K k) + lev_count (K.take k) (lev_at K k)

/-- Race `i` is visited by the scans of `init_race_allocs` (it is neither the
placeholder at index 0 nor the final ghost race) and has nonzero rarity. -/
def is_kept (r_info : List monster_race) (i : Nat) : Prop :=
  1 ≤ i ∧ i + 2 ≤ r_info.length ∧ (r_info.getD i {}).rarity ≠ 0

/-- Every scanned race with nonzero rarity has its level in `[0, max_depth)`. -/
def levels_in_range (r_info : List monster_race) (max_depth : Nat) : Prop :=
  ∀ ir ∈ kept r_info, 0 ≤ ir.2.level ∧ ir.2.level < max_depth

instance (r_info : List monster_race) (max_depth : Nat) :
    Decidable (levels_in_range r_info max_depth) := by
  unfold levels_in_range; infer_instance

/-- Sum of the base weights of the depth-0 entries of a table. -/
def town_weight (tbl : List alloc_entry) : Int :=
  ((tbl.filter (fun e => decide (e.level = 0))).map (fun e => e.prob1)).sum

/-- What the table of `init_race_allocs` looks like: race `k` of the kept list
sits at position `slot_of K k`. -/
def table_of (K : List (Nat × monster_race)) (tbl : List alloc_entry) : Prop :=
  tbl.length = K.length ∧
    ∀ j, j < K.length → tbl[slot_of K j]? = some (entry_of (K.getD j (0, {})))

/-- Entry `e` can be chosen at level `L`: it lies at or above that level in
the table's order, passes the tests of the scan and has positive `prob2`. -/
def pickable (env : selector_env) (L : Int) (table : List alloc_entry) (r : Nat) : Prop :=
  ∃ e ∈ table, e.index = r ∧ e.level ≤ L ∧ mon_accept env L e = true ∧ 0 < e.prob2

/-- The entries visited by the scan of `get_mon_num`: those before the first
entry deeper than `L`. -/
def visited (L : Int) (table : List alloc_entry) : List alloc_entry :=
  table.takeWhile (fun e => decide (e.level ≤ L))

/-- The `prob3` that the scan of `get_mon_num` gives a visited entry. -/
def rescore (env : selector_env) (L : Int) (e : alloc_entry) : alloc_entry :=
  if mon_accept env L e = true then { e with prob3 := e.prob2 } else { e with prob3 := 0 }

/-- The fields of an entry that a scan of `get_mon_num` leaves alone. -/
def entry_key (e : alloc_entry) : Nat × Int × Int × Int :=
  (e.index, e.level, e.prob1, e.prob2)

/-- The invariant of the allocation table: it is sorted by level, no `prob1`
or `prob2` is negative, and every entry records the level of its race. -/
def table_ok (r_info : List monster_race) (table : List alloc_entry) : Prop :=
  table.Pairwise (fun a b => a.level ≤ b.level) ∧
  ∀ e ∈ table, 0 ≤ e.prob1 ∧ 0 ≤ e.prob2 ∧ (r_info.getD e.index {}).level = e.level

/-- Slot `i` of the monster array holds a live monster. -/
def is_live (w : world) (i : Nat) : Bool := (w.monsters i).race.isSome

/-- The monster list agrees with the grid: every live monster sits in a slot
of `[1, mon_max)`, knows its own slot index, and the grid cell at its position
holds that index. -/
def slots_on_grid (w : world) : Prop :=
  ∀ i, is_live w i = true →
    1 ≤ i ∧ i < w.mon_max ∧ (w.monsters i).midx = i ∧
      w.squares_mon (w.monsters i).fy (w.monsters i).fx = i

/-- Some object of the pile carries artifact `a` without having been sensed. -/
def holds_unsensed (objs : List object) (a : Nat) : Prop :=
  ∃ obj ∈ objs, obj.artifact = some a ∧ obj.sensed = false

/-- The number of live monsters of race `r` in the list. -/
def live_of_race (w : world) (r : Nat) : Nat :=
  (List.range' 1 (w.mon_max - 1)).countP (fun i => decide ((w.monsters i).race = some r))

/-- Every race pointer of the monster list points into the registry. -/
def races_valid (w : world) : Prop :=
  ∀ i r, (w.monsters i).race = some r → r < w.r_info.length

/-- The monster without the objects it carries or mimics. -/
def without_items (m : monster) : monster :=
  { m with held_obj := [], mimicked_obj := none }

/-- What a successful placement of a monster of race `r` at `(y, x)` in slot
`m` does to the monster list, the grid and the counters. -/
def placed (w w' : world) (y x : Int) (r : Nat) (m : Int) : Prop :=
  w'.squares_mon y x = m ∧
  (w'.monsters m.toNat).race = some r ∧
  (w'.monsters m.toNat).fy = y ∧
  (w'.monsters m.toNat).fx = x ∧
  (w'.monsters m.toNat).midx = m ∧
  (w'.r_info.getD r {}).cur_num = (w.r_info.getD r {}).cur_num + 1 ∧
  w'.mon_cnt = w.mon_cnt + 1 ∧
  w'.num_repro =
    (if rf_has (w.r_info.getD r {}).flags race_flag.MULTIPLY = true
     then w.num_repro + 1 else w.num_repro) ∧
  (∀ j, j ≠ m.toNat → w'.monsters j = w.monsters j) ∧
  (∀ y' x', ¬ (y' = y ∧ x' = x) → w'.squares_mon y' x' = w.squares_mon y' x')

/-- The chunk after `place_new_monster_one` added race `r` to the level
feeling. -/
def rated (w : world) (r : Nat) : world :=
  { w with mon_rating :=
      if (w.r_info.getD r {}).level > w.depth then
        w.mon_rating + Int.tdiv (w.r_info.getD r {}).power 20 +
          Int.tdiv (((w.r_info.getD r {}).level - w.depth) *
            (w.r_info.getD r {}).power) 200
      else w.mon_rating + Int.tdiv (w.r_info.getD r {}).power 20 }

/-- A monster without the references to its slot: its own `midx` and the
back-references of the objects it carries or mimics. -/
def unindexed (m : monster) : monster :=
  { m with
    midx := 0
    held_obj := m.held_obj.map (fun obj => { obj with held_m_idx := 0 })
    mimicked_obj := m.mimicked_obj.map (fun obj => { obj with mimicking_m_idx := 0 }) }

/-- The live monster of slot `i`, if any, without the references to its slot. -/
def live_slot (w : world) (i : Nat) : Option monster :=
  if is_live w i = true then some (unindexed (w.monsters i)) else none

/-- The live monsters of the slots below `n`, in slot order. -/
def live_upto (w : world) (n : Nat) : List monster :=
  (List.range n).filterMap (live_slot w)

/-- The live monsters of the list, in slot order. -/
def live_monsters (w : world) : List monster := live_upto w w.mon_max

/-- The cell `(y, x)` is open for a new monster: inside the grid, empty for
`square_isempty`, without monster or player, walkable and not warded. -/
def cell_free (w : world) (y x : Int) : Prop :=
  square_in_bounds w y x = true ∧ w.passable y x = true ∧ w.squares_mon y x = 0 ∧
  ¬ (w.py = y ∧ w.px = x) ∧ w.walkable y x = true ∧ w.warded y x = false

/-- The race `r` is neither a unique nor a FORCE_DEPTH race deeper than the
player. -/
def race_free (w : world) (r : Nat) : Prop :=
  rf_has (w.r_info.getD r {}).flags race_flag.UNIQUE = false ∧
  ¬ (rf_has (w.r_info.getD r {}).flags race_flag.FORCE_DEPTH = true ∧
    w.depth < (w.r_info.getD r {}).level)

/-- Every `monster_carry` of the draws succeeds. -/
def carries (d : place_draws) : Prop :=
  (∀ s ∈ d.drops.specified, s.carry = true) ∧ (∀ s ∈ d.drops.random, s.carry = true)

/-- The chunk `w'` is the chunk `w` with one more monster, of race `r`, in
the slot `w.mon_max` and on the cell `(y, x)`; the terrain, the player and
the capacity are the same. -/
def grown (w w' : world) (y x : Int) (r : Nat) : Prop :=
  w'.squares_mon = grid_set w.squares_mon y x w.mon_max ∧
  w'.mon_max = w.mon_max + 1 ∧
  w'.mon_cnt = w.mon_cnt + 1 ∧
  (∀ j, j ≠ w.mon_max → w'.monsters j = w.monsters j) ∧
  (w'.monsters w.mon_max).race = some r ∧
  (w'.monsters w.mon_max).fy = y ∧
  (w'.monsters w.mon_max).fx = x ∧
  w'.level_monster_max = w.level_monster_max ∧
  w'.height = w.height ∧ w'.width = w.width ∧
  w'.py = w.py ∧ w'.px = w.px ∧ w'.depth = w.depth ∧
  w'.walkable = w.walkable ∧ w'.warded = w.warded ∧ w'.passable = w.passable ∧
  (w'.r_info.getD r {}).flags = (w.r_info.getD r {}).flags ∧
  (w'.r_info.getD r {}).level = (w.r_info.getD r {}).level

/-- The coordinates that `place_new_monster_group` stores in `hack_y` and
`hack_x` for the neighbour `i` of `(hy, hx)`. -/
def stored (hy hx : Int) (i : Nat) : Int × Int :=
  (byte (hy + ddy_ddd.getD i 0), byte (hx + ddx_ddd.getD i 0))

/-- The value 1 if the race has the flag, 0 otherwise. -/
def flag_bit (race : monster_race) (flag : race_flag) : Int :=
  if rf_has race.flags flag = true then 1 else 0

/-- The level of a race as `mon_create_drop` uses it: inflated for a unique. -/
def bonus_level (race : monster_race) : Int :=
  if rf_has race.flags race_flag.UNIQUE = true then min (race.level + 15) (race.level * 2)
  else race.level

/-- The cumulative effective weight of the first `k` entries of the table. -/
def cum_weight (table : List alloc_entry) (k : Nat) : Int :=
  ((table.take k).map (fun e => e.prob3)).sum

/-- The race kept by `get_mon_num` among the candidates `c1`, `c2`, `c3` for
the reroll value `p`: one candidate when `p ≥ 60`, two when `10 ≤ p < 60`,
three when `p < 10`. -/
def reroll_keep (r_info : List monster_race) (p : Int) (c1 c2 c3 : Nat) : Nat :=
  if p < 10 then keep_deepest r_info (keep_deepest r_info c1 c2) c3
  else if p < 60 then keep_deepest r_info c1 c2
  else c1

/-- The state of a lethal `mon_take_hit` on the monster of race `r` in slot
`m` just before `delete_monster_idx`: the hit is taken, the experience is
granted, a unique has `max_num = 0`, and the monster has dropped its objects. -/
def slain (w : world) (m : Nat) (r : Nat) (dam : Int) : world :=
  let race := w.r_info.getD r {}
  let mon : monster :=
    { w.monsters m with sleep := 0, unaware := false, hp := (w.monsters m).hp - dam }
  let w1 : world := { w with monsters := slot_set w.monsters m mon }
  let gained := kill_exp race.mexp race.level w1.lev w1.exp_frac
  let w2 : world := { w1 with exp_frac := gained.2 }
  let w3 : world :=
    if rf_has race.flags race_flag.UNIQUE = true then
      { w2 with r_info := race_update w2.r_info r (fun race => { race with max_num := 0 }) }
    else w2
  let w4 : world := { w3 with exp := w3.exp + gained.1 }
  monster_death w4 m

/-- The population cap of race `k`, as the invariant reads it for a unique:
the race is a unique and `cur_num ≤ max_num`. -/
def capped (w : world) (k : Nat) : Prop :=
  rf_has (w.r_info.getD k {}).flags race_flag.UNIQUE = true ∧
  (w.r_info.getD k {}).cur_num ≤ (w.r_info.getD k {}).max_num

/-- Grid/slot agreement: every live monster sits in a slot of `[1, mon_max)`
and the grid cell at its position holds its slot index; every nonzero grid
cell holds the index of a live monster that stands on that cell. -/
def grid_agrees (w : world) : Prop :=
  (∀ i, is_live w i = true →
    1 ≤ i ∧ i < w.mon_max ∧ w.squares_mon (w.monsters i).fy (w.monsters i).fx = i) ∧
  (∀ y x, w.squares_mon y x ≠ 0 →
    ∃ i : Nat, w.squares_mon y x = (i : Int) ∧ is_live w i = true ∧
      (w.monsters i).fy = y ∧ (w.monsters i).fx = x)

/-- The test "Sometimes a monster gets scared by damage" passes for the
monster in slot `m`, of race `r`, that survives a hit of `dam` points: the race
is not immune to fear, and the first draw is at least the percentage of health
left or the hit took at least the hit points left and the second draw is below
80. -/
def scared (w : world) (m r : Nat) (dam : Int) (d : hit_draws) : Prop :=
  rf_has (w.r_info.getD r {}).flags race_flag.NO_FEAR = false ∧
  (randint1 d.run 10 ≥ Int.tdiv (100 * ((w.monsters m).hp - dam)) (w.monsters m).maxhp ∨
    (dam ≥ (w.monsters m).hp - dam ∧ randint0 d.usually 100 < 80))

/-- The duration of the fear that a hit of `dam` points induces in the monster
in slot `m`: `randint1(10)` plus 20 or `(11 - percentage) * 5`. -/
def scare_time (w : world) (m : Nat) (dam : Int) (d : hit_draws) : Int :=
  randint1 d.timer 10 +
    (if dam ≥ (w.monsters m).hp - dam ∧
        Int.tdiv (100 * ((w.monsters m).hp - dam)) (w.monsters m).maxhp > 7 then 20
     else (11 - Int.tdiv (100 * ((w.monsters m).hp - dam)) (w.monsters m).maxhp) * 5)

/-! ## Sample inputs -/

/-- A small registry: the placeholder, four races (one of them unique) and
the ghost. -/
def demo_registry : List monster_race :=
  [{}, { level := 3, rarity := 25 }, { level := 0, rarity := 1 },
   { level := 3, rarity := 2, flags := [race_flag.UNIQUE], max_num := 1, cur_num := 1,
     mexp := 90 },
   { level := 1, rarity := 7 }, {}]

/-- The allocation table of `demo_registry`. -/
def demo_table : List alloc_entry :=
  [{ index := 2, level := 0, prob1 := 100, prob2 := 100, prob3 := 100 },
   { index := 4, level := 1, prob1 := 14, prob2 := 14, prob3 := 14 },
   { index := 1, level := 3, prob1 := 4, prob2 := 4, prob3 := 4 },
   { index := 3, level := 3, prob1 := 50, prob2 := 50, prob3 := 50 }]

/-- The table `demo_table` after a scan of `get_mon_num` at level 3 with the
player at depth 3: the town race and the unique at its cap weigh 0. -/
def demo_scored : List alloc_entry :=
  [{ index := 2, level := 0, prob1 := 100, prob2 := 100, prob3 := 0 },
   { index := 4, level := 1, prob1 := 14, prob2 := 14, prob3 := 14 },
   { index := 1, level := 3, prob1 := 4, prob2 := 4, prob3 := 4 },
   { index := 3, level := 3, prob1 := 50, prob2 := 50, prob3 := 0 }]

/-- A selector state over `demo_registry`, with the player at depth 3. -/
def demo_env : selector_env :=
  { r_info := demo_registry, player_depth := 3, ood_monster_amount := 4 }

/-- A 3x3 chunk whose only monster, in slot 1 at `(1, 1)`, is of the unique
race 3 of `demo_registry`. -/
def demo_world : world :=
  { r_info := demo_registry
    monsters := fun i =>
      if i = 1 then { race := some 3, midx := 1, fy := 1, fx := 1, hp := 5, maxhp := 10 }
      else {}
    mon_max := 2
    mon_cnt := 1
    squares_mon := fun y x => if y = 1 ∧ x = 1 then 1 else 0
    height := 3
    width := 3
    depth := 3
    lev := 7 }

/-- The state after the monster of `demo_world` took a hit of 10 points. -/
def demo_world_after : world :=
  match mon_take_hit demo_world 1 10 false {} with
  | .ok res => res.2.2
  | .error _ => demo_world

/-- The chunk `demo_world` with its monster carrying two artifacts: artifact 7
not yet sensed, artifact 8 sensed; both are marked as created. -/
def demo_carrier : world :=
  { demo_world with
    monsters := fun i =>
      if i = 1 then
        { race := some 3, midx := 1, fy := 1, fx := 1, hp := 5, maxhp := 10,
          held_obj := [{ artifact := some 7, held_m_idx := 1 },
                       { artifact := some 8, sensed := true, held_m_idx := 1 }] }
      else {}
    created := fun a => decide (a = 7 ∨ a = 8) }

/-- The chunk `demo_world` where race 3 is a quest monster as well as a
unique, and its monster is far from the player. -/
def demo_quest : world :=
  { demo_world with
    r_info := race_update demo_registry 3
      (fun race => { race with flags := [race_flag.QUESTOR, race_flag.UNIQUE] })
    monsters := fun i =>
      if i = 1 then
        { race := some 3, midx := 1, fy := 1, fx := 1, hp := 5, maxhp := 10, cdis := 100 }
      else {} }

/-- The state after `compact_monsters(1)` on `demo_quest` when every
`randint0(100)` gives 99. -/
def demo_quest_after : world :=
  match compact_monsters 1 demo_quest 1 (fun _ _ => 99) with
  | some (.ok w) => w
  | _ => demo_quest

/-- The chunk `demo_world` with a monster list of capacity 2, which is full,
and a race 1 of power 40. -/
def demo_full : world :=
  { demo_world with
    level_monster_max := 2
    r_info := race_update demo_registry 1 (fun race => { race with power := 40 }) }

/-- The state after `place_new_monster_one` tried to place a monster of race
1 at `(0, 1)` of `demo_full`. -/
def demo_full_after : world :=
  match place_new_monster_one demo_full 0 1 1 false 0 (fun _ => 0) 16 {} with
  | .ok res => res.2
  | .error _ => demo_full

/-- The state after `place_monster` put a monster of race 1 at `(0, 1)` of
`demo_world`, without drops. -/
def demo_world_placed : world :=
  match place_monster demo_world 0 1 { race := some 1 } 0 {} with
  | .ok res => res.2
  | .error _ => demo_world

/-- The chunk `demo_world` with a glyph of warding on `(0, 1)`. -/
def demo_warded : world :=
  { demo_world with warded := fun y x => decide (y = 0 ∧ x = 1) }

/-- A 3x3 chunk whose monster list has a hole: slot 1 is dead, slot 2 holds
a monster of race 1 at `(0, 1)` and slot 3 a monster of race 4 at `(2, 2)`. -/
def demo_holes : world :=
  { r_info := demo_registry
    monsters := fun i =>
      if i = 2 then { race := some 1, midx := 2, fy := 0, fx := 1, hp := 4, maxhp := 4 }
      else if i = 3 then { race := some 4, midx := 3, fy := 2, fx := 2, hp := 6, maxhp := 6 }
      else {}
    mon_max := 4
    mon_cnt := 2
    squares_mon := fun y x => if y = 0 ∧ x = 1 then 2 else if y = 2 ∧ x = 2 then 3 else 0
    height := 3
    width := 3
    depth := 3
    lev := 7 }

/-- A 5x5 chunk without monsters, open everywhere, with the player in the
corner `(0, 0)`. -/
def demo_open : world :=
  { r_info := demo_registry
    height := 5
    width := 5
    depth := 3
    lev := 7 }

/-- The state after `place_new_monster_group` with size 5 for race 1, seeded
at the centre `(2, 2)` of `demo_open`. -/
def demo_open_after : world :=
  match place_new_monster_group demo_open 2 2 1 false 5 0 (fun _ => 0) 16 (fun _ _ => {}) with
  | .ok res => res.2
  | .error _ => demo_open

/-- The chunk `demo_world` where race 3 drops one thing (DROP_1) and is not
a unique. -/
def demo_dropper : world :=
  { demo_world with
    r_info := race_update demo_registry 3
      (fun race => { race with flags := [race_flag.DROP_1] }) }

/-- The chunk `demo_world` where the unique race 3 has a cap of 2 and two
living members, in slot 1 at `(1, 1)` and in slot 2 at `(2, 2)`. -/
def demo_twins : world :=
  { demo_world with
    r_info := race_update demo_registry 3
      (fun race => { race with max_num := 2, cur_num := 2 })
    monsters := fun i =>
      if i = 1 then { race := some 3, midx := 1, fy := 1, fx := 1, hp := 5, maxhp := 10 }
      else if i = 2 then { race := some 3, midx := 2, fy := 2, fx := 2, hp := 5, maxhp := 10 }
      else {}
    mon_max := 3
    mon_cnt := 2
    squares_mon := fun y x => if y = 1 ∧ x = 1 then 1 else if y = 2 ∧ x = 2 then 2 else 0 }

/-- The state after the monster in slot 1 of `demo_twins` took a hit of 10
points. -/
def demo_twins_after : world :=
  match mon_take_hit demo_twins 1 10 false {} with
  | .ok res => res.2.2
  | .error _ => demo_twins

/-- A 9x9 chunk without monsters, open everywhere, with the player in the
corner `(0, 0)`. -/
def demo_field : world :=
  { r_info := demo_registry
    height := 9
    width := 9
    depth := 3
    lev := 7 }

/-- The chunk `demo_world` with its monster afraid: the fear timer is 2. -/
def demo_afraid : world :=
  { demo_world with
    monsters := fun i =>
      if i = 1 then
        { race := some 3, midx := 1, fy := 1, fx := 1, hp := 5, maxhp := 10, fear := 2 }
      else {} }

/-- The state after the monster of `demo_afraid` took a hit of 3 points for
which `randint1(3)` gave 2. -/
def demo_afraid_after : world :=
  match mon_take_hit demo_afraid 1 3 false { pain := 1 } with
  | .ok res => res.2.2
  | .error _ => demo_afraid

/-- A 9x9 chunk without monsters, open everywhere, with the player in the
corner `(0, 0)` at depth 3, and a registry of two races of level 3. -/
def demo_pack : world :=
  { r_info := [{}, { level := 3, rarity := 1, ridx := 1 }, { level := 3, rarity := 1, ridx := 2 }]
    height := 9
    width := 9
    depth := 3
    lev := 7 }

/-! ## Properties -/

theorem s16b_id (x : Int) (h1 : -32768 ≤ x) (h2 : x ≤ 32767) : s16b x = x := by
  unfold s16b; omega

theorem arr_get_ok (a : List Int) (i : Nat) (h : i < a.length) :
    arr_get a (i : Int) = .ok (a.getD i 0) := by
  unfold arr_get
  have : (0 : Int) ≤ i ∧ (i : Int) < a.length := ⟨by omega, by omega⟩
  simp [this]

theorem arr_set_ok (a : List Int) (i : Nat) (v : Int) (h : i < a.length) :
    arr_set a (i : Int) v = .ok (a.set i v) := by
  unfold arr_set
  have : (0 : Int) ≤ i ∧ (i : Int) < a.length := ⟨by omega, by omega⟩
  simp [this]

theorem getD_set_int (a : List Int) (i j : Nat) (v : Int) (h : i < a.length) :
    (a.set i v).getD j 0 = if i = j then v else a.getD j 0 := by
  simp only [List.getD_eq_getElem?_getD, List.getElem?_set]
  by_cases hij : i = j
  · subst hij; simp [h]
  · simp [hij]

theorem foldlM_skip {σ α : Type} (p : α → Bool) (f : σ → α → Except fault σ)
    (hf : ∀ s a, p a = false → f s a = pure s) (l : List α) (s : σ) :
    l.foldlM f s = (l.filter p).foldlM f s := by
  induction l generalizing s with
  | nil => rfl
  | cons a l ih =>
    by_cases hp : p a = true
    · simp only [List.foldlM_cons, List.filter_cons_of_pos hp]
      cases h : f s a with
      | error e => rfl
      | ok s1 => simp only [bind, Except.bind]; exact ih s1
    · have hp2 : p a = false := by simpa using hp
      simp only [List.foldlM_cons, List.filter_cons_of_neg hp, hf s a hp2]
      exact ih s

theorem lev_below_succ (K : List (Nat × monster_race)) (l : Int) :
    lev_below K (l + 1) = lev_below K l + lev_count K l := by
  unfold lev_below lev_count
  induction K with
  | nil => rfl
  | cons a K ih =>
    simp only [List.countP_cons, ih]
    by_cases h1 : a.2.level < l
    · have h2 : a.2.level < l + 1 := by omega
      have h3 : ¬ a.2.level = l := by omega
      simp [h1, h2, h3]; omega
    · by_cases h3 : a.2.level = l
      · have h2 : a.2.level < l + 1 := by omega
        simp [h1, h2, h3]; omega
      · have h2 : ¬ a.2.level < l + 1 := by omega
        simp [h1, h2, h3]

theorem lev_count_append_one (pre : List (Nat × monster_race)) (a : Nat × monster_race)
    (l : Int) :
    lev_count (pre ++ [a]) l = lev_count pre l + (if a.2.level = l then 1 else 0) := by
  unfold lev_count
  simp [List.countP_append, List.countP_cons]

theorem lev_count_le (K : List (Nat × monster_race)) (l : Int) : lev_count K l ≤ K.length :=
  List.countP_le_length _

theorem lev_below_le (K : List (Nat × monster_race)) (l : Int) : lev_below K l ≤ K.length :=
  List.countP_le_length _

theorem count_loop (md : Nat) (suf pre : List (Nat × monster_race)) (num : List Int)
    (hk : ∀ ir ∈ suf, ir.2.rarity ≠ 0 ∧ 0 ≤ ir.2.level ∧ ir.2.level < md)
    (hn : pre.length + suf.length ≤ 32767)
    (hlen : num.length = md)
    (hnum : ∀ l : Nat, l < md → num.getD l 0 = (lev_count pre l : Int)) :
    ∃ num', suf.foldlM count_step ((pre.length : Int), num)
        = .ok (((pre ++ suf).length : Int), num')
      ∧ num'.length = md
      ∧ ∀ l : Nat, l < md → num'.getD l 0 = (lev_count (pre ++ suf) l : Int) := by
  induction suf generalizing pre num with
  | nil => exact ⟨num, by simp [pure, Except.pure], hlen, by simpa using hnum⟩
  | cons a suf ih =>
    obtain ⟨hr, h0, h1⟩ := hk a (List.mem_cons_self _ _)
    obtain ⟨x, hx⟩ := Int.eq_ofNat_of_zero_le h0
    have hxm : x < md := by omega
    have hcl := lev_count_le pre (x : Int)
    simp only [List.length_cons] at hn
    have hstep : count_step ((pre.length : Int), num) a
        = .ok (((pre ++ [a]).length : Int), num.set x (num.getD x 0 + 1)) := by
      unfold count_step
      simp only [hr, ne_eq, not_false_eq_true, if_true, hx]
      rw [arr_get_ok num x (by omega)]
      simp only [bind, Except.bind]
      rw [arr_set_ok num x _ (by omega)]
      simp only [pure, Except.pure, List.length_append, List.length_singleton]
      have hgx := hnum x hxm
      rw [s16b_id _ (by omega) (by omega), s16b_id _ (by omega) (by omega)]
      push_cast; rfl
    have hnum2 : ∀ l : Nat, l < md →
        (num.set x (num.getD x 0 + 1)).getD l 0 = (lev_count (pre ++ [a]) l : Int) := by
      intro l hl
      rw [getD_set_int _ _ _ _ (by omega), lev_count_append_one, hx]
      by_cases hxl : x = l
      · subst hxl; rw [if_pos rfl, if_pos rfl, hnum x hxm]; push_cast; rfl
      · have : ¬ ((x : Int) = (l : Int)) := by omega
        rw [if_neg hxl, if_neg this, hnum l hl]; simp
    obtain ⟨num', h1', h2', h3'⟩ := ih (pre ++ [a]) (num.set x (num.getD x 0 + 1))
      (fun ir hir => hk ir (List.mem_cons_of_mem _ hir))
      (by simp; omega) (by simp [hlen]) hnum2
    refine ⟨num', ?_, h2', ?_⟩
    · rw [List.foldlM_cons, hstep]
      simp only [bind, Except.bind]
      rw [h1']; simp
    · intro l hl; have := h3' l hl; simpa using this

theorem collect_loop (K : List (Nat × monster_race)) (md : Nat) (hK : K.length ≤ 32767)
    (m s : Nat) (num : List Int) (hs : 1 ≤ s) (hsm : s + m = md)
    (hlen : num.length = md)
    (hlo : ∀ l : Nat, l < s → num.getD l 0 = (lev_below K ((l : Int) + 1) : Int))
    (hhi : ∀ l : Nat, s ≤ l → l < md → num.getD l 0 = (lev_count K l : Int)) :
    ∃ num', (List.range' s m).foldlM collect_step num = .ok num'
      ∧ num'.length = md
      ∧ ∀ l : Nat, l < md → num'.getD l 0 = (lev_below K ((l : Int) + 1) : Int) := by
  induction m generalizing s num with
  | zero =>
    refine ⟨num, by simp [pure, Except.pure], hlen, ?_⟩
    intro l hl; exact hlo l (by omega)
  | succ m ih =>
    have hsmd : s < md := by omega
    have ha := hhi s (le_refl _) hsmd
    have hb := hlo (s - 1) (by omega)
    have hcast : ((s : Int) - 1) = ((s - 1 : Nat) : Int) := by omega
    have hsucc := lev_below_succ K (s : Int)
    have hble := lev_below_le K ((s : Int) + 1)
    have hb' : num.getD (s - 1) 0 = (lev_below K (s : Int) : Int) := by
      rw [hb]; congr 2; omega
    have hstep : collect_step num s
        = .ok (num.set s (lev_below K ((s : Int) + 1) : Int)) := by
      unfold collect_step
      rw [arr_get_ok num s (by omega)]
      simp only [bind, Except.bind]
      rw [hcast, arr_get_ok num (s - 1) (by omega)]
      simp only []
      rw [arr_set_ok num s _ (by omega), ha, hb', s16b_id _ (by omega) (by omega), hsucc]
      push_cast; rw [add_comm]
    obtain ⟨num', h1, h2, h3⟩ := ih (s + 1) (num.set s (lev_below K ((s : Int) + 1) : Int))
      (by omega) (by omega) (by simp [hlen])
      (by
        intro l hl
        rw [getD_set_int _ _ _ _ (by omega)]
        by_cases hsl : s = l
        · subst hsl; rw [if_pos rfl]
        · rw [if_neg hsl]; exact hlo l (by omega))
      (by
        intro l hl1 hl2
        rw [getD_set_int _ _ _ _ (by omega), if_neg (by omega)]
        exact hhi l (by omega) hl2)
    refine ⟨num', ?_, h2, h3⟩
    rw [List.range'_succ, List.foldlM_cons, hstep]
    simp only [bind, Except.bind]
    exact h1

theorem lev_at_eq (K : List (Nat × monster_race)) (k : Nat) (hk : k < K.length) :
    lev_at K k = K[k].2.level := by
  unfold lev_at; rw [List.getD_eq_getElem _ _ hk]

theorem lev_count_take_lt (K : List (Nat × monster_race)) (j : Nat) (hj : j < K.length) :
    lev_count (K.take j) (lev_at K j) < lev_count K (lev_at K j) := by
  have hsplit : K = K.take j ++ K[j] :: K.drop (j + 1) := by
    rw [← List.drop_eq_getElem_cons hj, List.take_append_drop]
  have h2 : lev_count K (lev_at K j)
      = lev_count (K.take j ++ K[j] :: K.drop (j + 1)) (lev_at K j) := by rw [← hsplit]
  rw [h2]
  unfold lev_count
  rw [List.countP_append, List.countP_cons]
  have : decide (K[j].2.level = lev_at K j) = true := by
    rw [lev_at_eq K j hj]; simp
  rw [if_pos this]; omega

theorem lev_count_take_mono (K : List (Nat × monster_race)) (j k : Nat) (hjk : j ≤ k)
    (l : Int) : lev_count (K.take j) l ≤ lev_count (K.take k) l := by
  unfold lev_count
  exact List.Sublist.countP_le _ (List.take_sublist_take_left K hjk)

theorem lev_count_take_lt_take (K : List (Nat × monster_race)) (j k : Nat) (hjk : j < k)
    (hk : k ≤ K.length) :
    lev_count (K.take j) (lev_at K j) < lev_count (K.take k) (lev_at K j) := by
  have hj : j < (K.take k).length := by simp; omega
  have h := lev_count_take_lt (K.take k) j hj
  have h1 : (K.take k).take j = K.take j := by
    rw [List.take_take]; congr 1; omega
  have h2 : lev_at (K.take k) j = lev_at K j := by
    rw [lev_at_eq _ _ hj, lev_at_eq _ _ (by omega), List.getElem_take]
  rw [h1, h2] at h; exact h

theorem lev_below_mono (K : List (Nat × monster_race)) (a b : Int) (hab : a ≤ b) :
    lev_below K a ≤ lev_below K b := by
  unfold lev_below
  apply List.countP_mono_left
  intro x _ hx
  simp only [decide_eq_true_eq] at hx ⊢
  omega

theorem slot_of_lt_below (K : List (Nat × monster_race)) (j : Nat) (hj : j < K.length) :
    slot_of K j < lev_below K (lev_at K j + 1) := by
  unfold slot_of
  rw [lev_below_succ]
  have := lev_count_take_lt K j hj
  omega

theorem slot_of_lt_length (K : List (Nat × monster_race)) (j : Nat) (hj : j < K.length) :
    slot_of K j < K.length :=
  lt_of_lt_of_le (slot_of_lt_below K j hj) (lev_below_le K _)

/-- The table position is strictly increasing in the key (level, rank). -/
theorem slot_of_lt_of_key (K : List (Nat × monster_race)) (j k : Nat)
    (hj : j < K.length) (hk : k < K.length)
    (hkey : lev_at K j < lev_at K k ∨ (lev_at K j = lev_at K k ∧ j < k)) :
    slot_of K j < slot_of K k := by
  rcases hkey with hlt | ⟨heq, hjk⟩
  · have h1 := slot_of_lt_below K j hj
    have h2 := lev_below_mono K (lev_at K j + 1) (lev_at K k) (by omega)
    have h3 : lev_below K (lev_at K k) ≤ slot_of K k := by unfold slot_of; omega
    omega
  · have h := lev_count_take_lt_take K j k hjk (by omega)
    unfold slot_of
    rw [← heq]; omega

theorem slot_of_injective (K : List (Nat × monster_race)) (j k : Nat)
    (hj : j < K.length) (hk : k < K.length) (h : slot_of K j = slot_of K k) : j = k := by
  by_contra hne
  rcases lt_trichotomy (lev_at K j) (lev_at K k) with h1 | h1 | h1
  · have := slot_of_lt_of_key K j k hj hk (Or.inl h1); omega
  · rcases lt_or_gt_of_ne hne with h2 | h2
    · have := slot_of_lt_of_key K j k hj hk (Or.inr ⟨h1, h2⟩); omega
    · have := slot_of_lt_of_key K k j hk hj (Or.inr ⟨h1.symm, h2⟩); omega
  · have := slot_of_lt_of_key K k j hk hj (Or.inl h1); omega

theorem getD_append_cons {α : Type} (pre : List α) (a : α) (suf : List α) (d : α) :
    (pre ++ a :: suf).getD pre.length d = a := by
  induction pre with
  | nil => rfl
  | cons b pre ih => simpa [List.getD_cons_succ] using ih

theorem tbl_set_ok (t : List alloc_entry) (z : Nat) (e : alloc_entry) (h : z < t.length) :
    tbl_set t (z : Int) e = .ok (t.set z e) := by
  unfold tbl_set
  have : (0 : Int) ≤ z ∧ (z : Int) < t.length := ⟨by omega, by omega⟩
  simp [this]

theorem lev_below_zero (K : List (Nat × monster_race))
    (h : ∀ ir ∈ K, 0 ≤ ir.2.level) : lev_below K 0 = 0 := by
  unfold lev_below
  rw [List.countP_eq_zero]
  intro a ha
  have := h a ha
  simp only [decide_eq_true_eq]; omega

theorem load_loop (K : List (Nat × monster_race)) (md : Nat) (num : List Int)
    (hK : K.length ≤ 32767)
    (hlev : ∀ ir ∈ K, ir.2.rarity ≠ 0 ∧ 0 ≤ ir.2.level ∧ ir.2.level < md)
    (hnl : num.length = md)
    (hnum : ∀ l : Nat, l < md → num.getD l 0 = (lev_below K ((l : Int) + 1) : Int))
    (suf pre : List (Nat × monster_race)) (hsplit : K = pre ++ suf)
    (tbl : List alloc_entry) (aux : List Int)
    (htl : tbl.length = K.length) (hal : aux.length = md)
    (haux : ∀ l : Nat, l < md → aux.getD l 0 = (lev_count pre l : Int))
    (htbl : ∀ j, j < pre.length → tbl[slot_of K j]? = some (entry_of (K.getD j (0, {})))) :
    ∃ tbl' aux', suf.foldlM (load_step num) (tbl, aux) = .ok (tbl', aux')
      ∧ tbl'.length = K.length
      ∧ ∀ j, j < K.length → tbl'[slot_of K j]? = some (entry_of (K.getD j (0, {}))) := by
  induction suf generalizing pre tbl aux with
  | nil =>
    refine ⟨tbl, aux, by simp [pure, Except.pure], htl, ?_⟩
    intro j hj; exact htbl j (by simpa [hsplit] using hj)
  | cons a suf ih =>
    have hkl : pre.length < K.length := by rw [hsplit]; simp
    have hKa : K.getD pre.length (0, {}) = a := by
      rw [hsplit]; exact getD_append_cons pre a suf _
    have htake : K.take pre.length = pre := by simp [hsplit]
    have hla : lev_at K pre.length = a.2.level := by unfold lev_at; rw [hKa]
    have hamem : a ∈ K := by rw [hsplit]; simp
    obtain ⟨hr, h0, h1⟩ := hlev a hamem
    obtain ⟨x, hx⟩ := Int.eq_ofNat_of_zero_le h0
    have hxm : x < md := by omega
    have hslot : slot_of K pre.length = lev_below K (x : Int) + lev_count pre (x : Int) := by
      unfold slot_of; rw [htake, hla, hx]
    have hslt := slot_of_lt_length K pre.length hkl
    have hy : (if (x : Int) > 0 then arr_get num ((x : Int) - 1) else pure 0)
        = (.ok (lev_below K (x : Int) : Int) : Except fault Int) := by
      by_cases hx0 : (x : Int) > 0
      · rw [if_pos hx0]
        have hcast : ((x : Int) - 1) = ((x - 1 : Nat) : Int) := by omega
        rw [hcast, arr_get_ok num (x - 1) (by omega), hnum (x - 1) (by omega)]
        congr 3; omega
      · rw [if_neg hx0]
        have hx00 : (x : Int) = 0 := by omega
        rw [hx00, lev_below_zero K (fun ir hir => (hlev ir hir).2.1)]; rfl
    have hcl := lev_count_le pre (x : Int)
    have hpl : pre.length < 32767 := by omega
    have hstep : load_step num (tbl, aux) a
        = .ok (tbl.set (slot_of K pre.length) (entry_of a),
               aux.set x ((lev_count pre (x : Int) : Int) + 1)) := by
      unfold load_step
      simp only [hr, ne_eq, not_false_eq_true, if_true, hx, hy]
      simp only [bind, Except.bind]
      rw [arr_get_ok aux x (by omega), haux x hxm]
      simp only []
      have hz : (lev_below K (x : Int) : Int) + (lev_count pre (x : Int) : Int)
          = ((slot_of K pre.length : Nat) : Int) := by rw [hslot]; push_cast; rfl
      rw [hz, tbl_set_ok _ _ _ (by omega)]
      simp only []
      rw [arr_set_ok aux x _ (by omega), s16b_id _ (by omega) (by omega)]
      simp only [pure, Except.pure, entry_of, hx]
    obtain ⟨tbl', aux', h1', h2', h3'⟩ := ih (pre ++ [a]) (by simp [hsplit])
      (tbl.set (slot_of K pre.length) (entry_of a))
      (aux.set x ((lev_count pre (x : Int) : Int) + 1))
      (by simp [htl]) (by simp [hal])
      (by
        intro l hl
        rw [getD_set_int _ _ _ _ (by omega), lev_count_append_one, hx]
        by_cases hxl : x = l
        · subst hxl; rw [if_pos rfl, if_pos rfl]; push_cast; rfl
        · have : ¬ ((x : Int) = (l : Int)) := by omega
          rw [if_neg hxl, if_neg this, haux l hl]; simp)
      (by
        intro j hj
        simp only [List.length_append, List.length_singleton] at hj
        rw [List.getElem?_set]
        by_cases hjk : j = pre.length
        · subst hjk
          rw [if_pos rfl, if_pos (by omega), hKa]
        · have hne : slot_of K pre.length ≠ slot_of K j := by
            intro heq
            exact hjk (slot_of_injective K j pre.length (by omega) hkl heq.symm)
          rw [if_neg hne]
          exact htbl j (by omega))
    refine ⟨tbl', aux', ?_, h2', h3'⟩
    rw [List.foldlM_cons, hstep]
    simp only [bind, Except.bind]
    exact h1'

theorem mem_scanned_iff (r_info : List monster_race) (ir : Nat × monster_race) :
    ir ∈ scanned r_info ↔
      1 ≤ ir.1 ∧ ir.1 + 2 ≤ r_info.length ∧ ir.2 = r_info.getD ir.1 {} := by
  unfold scanned
  simp only [List.mem_map, List.mem_range'_1]
  constructor
  · rintro ⟨i, ⟨h1, h2⟩, rfl⟩
    exact ⟨h1, by simp only; omega, rfl⟩
  · rintro ⟨h1, h2, h3⟩
    exact ⟨ir.1, ⟨h1, by omega⟩, by rw [← h3]⟩

theorem mem_kept_iff (r_info : List monster_race) (ir : Nat × monster_race) :
    ir ∈ kept r_info ↔ is_kept r_info ir.1 ∧ ir.2 = r_info.getD ir.1 {} := by
  unfold kept is_kept
  rw [List.mem_filter, mem_scanned_iff]
  simp only [decide_eq_true_eq]
  constructor
  · rintro ⟨⟨h1, h2, h3⟩, h4⟩
    exact ⟨⟨h1, h2, by rw [← h3]; exact h4⟩, h3⟩
  · rintro ⟨⟨h1, h2, h3⟩, h4⟩
    exact ⟨⟨h1, h2, h4⟩, by rw [h4]; exact h3⟩

theorem kept_levels (r_info : List monster_race) (md : Nat)
    (h : levels_in_range r_info md) :
    ∀ ir ∈ kept r_info, ir.2.rarity ≠ 0 ∧ 0 ≤ ir.2.level ∧ ir.2.level < md := by
  intro ir hir
  have hr : ir.2.rarity ≠ 0 := by
    have := (List.mem_filter.mp hir).2
    simpa using this
  exact ⟨hr, h ir hir⟩

theorem count_fold_kept (r_info : List monster_race) (st : Int × List Int) :
    (scanned r_info).foldlM count_step st = (kept r_info).foldlM count_step st := by
  unfold kept
  apply foldlM_skip
  intro s a ha
  unfold count_step
  simp only [ne_eq, decide_not, Bool.not_eq_false', decide_eq_true_eq] at ha
  simp [ha]

theorem load_fold_kept (r_info : List monster_race) (num : List Int)
    (st : List alloc_entry × List Int) :
    (scanned r_info).foldlM (load_step num) st = (kept r_info).foldlM (load_step num) st := by
  unfold kept
  apply foldlM_skip
  intro s a ha
  unfold load_step
  simp only [ne_eq, decide_not, Bool.not_eq_false', decide_eq_true_eq] at ha
  simp [ha]

theorem getD_replicate_zero (n l : Nat) : (List.replicate n (0 : Int)).getD l 0 = 0 := by
  rw [List.getD_eq_getElem?_getD]
  by_cases h : l < n
  · simp [List.getElem?_replicate, h]
  · simp [List.getElem?_replicate, h]

theorem init_race_allocs_run (r_info : List monster_race) (md : Nat) (hmd : 0 < md)
    (hrange : levels_in_range r_info md) (hsize : (kept r_info).length ≤ 32767) :
    (lev_count (kept r_info) 0 = 0 → init_race_allocs r_info md = .error fault.quit) ∧
    (lev_count (kept r_info) 0 ≠ 0 →
      ∃ tbl, init_race_allocs r_info md = .ok tbl ∧ table_of (kept r_info) tbl) := by
  have hlev := kept_levels r_info md hrange
  obtain ⟨num1, hc1, hc2, hc3⟩ := count_loop md (kept r_info) [] (List.replicate md 0) hlev
    (by simpa using hsize) (by simp)
    (by intro l _; rw [getD_replicate_zero]; simp [lev_count])
  simp only [List.nil_append, List.length_nil, Nat.cast_zero] at hc1 hc3
  have hb0 := lev_below_zero (kept r_info) (fun ir hir => (hlev ir hir).2.1)
  obtain ⟨num2, hd1, hd2, hd3⟩ := collect_loop (kept r_info) md hsize (md - 1) 1 num1
    (le_refl _) (by omega) hc2
    (by
      intro l hl
      have hl0 : l = 0 := by omega
      subst hl0
      rw [hc3 0 hmd]
      have := lev_below_succ (kept r_info) 0
      simp only [zero_add] at this
      simp only [Nat.cast_zero, zero_add]
      rw [this, hb0]; simp)
    (by intro l _ hl; exact hc3 l hl)
  have hn0 : arr_get num2 0 = .ok (lev_count (kept r_info) 0 : Int) := by
    have := arr_get_ok num2 0 (by omega)
    simp only [Nat.cast_zero] at this
    rw [this, hd3 0 hmd]
    have h2 := lev_below_succ (kept r_info) 0
    simp only [zero_add] at h2
    simp only [Nat.cast_zero, zero_add]
    rw [h2, hb0]; simp
  have hunf : init_race_allocs r_info md =
      (if (lev_count (kept r_info) 0 : Int) = 0 then .error fault.quit
       else do
        let out ← (kept r_info).foldlM (load_step num2)
          (List.replicate (kept r_info).length {}, List.replicate md 0)
        pure out.1) := by
    unfold init_race_allocs
    rw [count_fold_kept, hc1]
    simp only [bind, Except.bind]
    rw [hd1]
    simp only []
    rw [hn0]
    simp only [load_fold_kept, Int.toNat_ofNat]
    rfl
  constructor
  · intro h0
    rw [hunf, h0]; rfl
  · intro h0
    obtain ⟨tbl, aux, hl1, hl2, hl3⟩ := load_loop (kept r_info) md num2 hsize hlev hd2 hd3
      (kept r_info) [] (by simp) (List.replicate (kept r_info).length {})
      (List.replicate md 0) (by simp) (by simp)
      (by intro l _; rw [getD_replicate_zero]; simp [lev_count])
      (by intro j hj; simp at hj)
    refine ⟨tbl, ?_, hl2, hl3⟩
    rw [hunf, if_neg (by exact_mod_cast h0), hl1]
    rfl

theorem count_step_ok (st st1 : Int × List Int) (a : Nat × monster_race)
    (h : count_step st a = .ok st1) :
    st1.2.length = st.2.length ∧
      (a.2.rarity ≠ 0 → 0 ≤ a.2.level ∧ a.2.level < st.2.length) := by
  unfold count_step at h
  by_cases hr : a.2.rarity ≠ 0
  · rw [if_pos hr] at h
    by_cases hb : 0 ≤ a.2.level ∧ a.2.level < st.2.length
    · simp only [arr_get, arr_set, hb, and_self, if_true, bind, Except.bind, pure,
        Except.pure, Except.ok.injEq] at h
      rw [← h]
      exact ⟨by simp, fun _ => hb⟩
    · simp [arr_get, hb, bind, Except.bind] at h
  · rw [if_neg hr] at h
    simp only [pure, Except.pure, Except.ok.injEq] at h
    rw [← h]
    exact ⟨rfl, fun h' => absurd h' hr⟩

theorem count_fold_range (suf : List (Nat × monster_race)) (st st' : Int × List Int)
    (h : suf.foldlM count_step st = .ok st') :
    ∀ ir ∈ suf, ir.2.rarity ≠ 0 → 0 ≤ ir.2.level ∧ ir.2.level < st.2.length := by
  induction suf generalizing st with
  | nil => intro ir hir; simp at hir
  | cons a suf ih =>
    rw [List.foldlM_cons] at h
    cases hs : count_step st a with
    | error e => rw [hs] at h; simp [bind, Except.bind] at h
    | ok st1 =>
      rw [hs] at h
      simp only [bind, Except.bind] at h
      obtain ⟨hlen, hin⟩ := count_step_ok st st1 a hs
      intro ir hir
      rcases List.mem_cons.mp hir with rfl | hmem
      · exact hin
      · have := ih st1 h ir hmem
        rw [hlen] at this; exact this

theorem init_ok_range (r_info : List monster_race) (md : Nat) (tbl : List alloc_entry)
    (h : init_race_allocs r_info md = .ok tbl) : levels_in_range r_info md := by
  unfold init_race_allocs at h
  cases hs : (scanned r_info).foldlM count_step (0, List.replicate md 0) with
  | error e => rw [hs] at h; simp [bind, Except.bind] at h
  | ok st1 =>
    have hr := count_fold_range _ _ _ hs
    intro ir hir
    have hm := List.mem_filter.mp hir
    have := hr ir hm.1 (by simpa using hm.2)
    simpa using this

theorem init_ok_depth (r_info : List monster_race) (md : Nat) (tbl : List alloc_entry)
    (h : init_race_allocs r_info md = .ok tbl) : 0 < md := by
  by_contra hmd
  have hmd0 : md = 0 := by omega
  subst hmd0
  have hrange := init_ok_range r_info 0 tbl h
  have hK : kept r_info = [] := by
    rw [List.eq_nil_iff_forall_not_mem]
    intro ir hir
    have := kept_levels r_info 0 hrange ir hir
    omega
  unfold init_race_allocs at h
  rw [count_fold_kept, hK] at h
  simp [bind, Except.bind, pure, Except.pure, arr_get] at h

theorem init_race_allocs_table (r_info : List monster_race) (md : Nat)
    (tbl : List alloc_entry) (hsize : (kept r_info).length ≤ 32767)
    (h : init_race_allocs r_info md = .ok tbl) :
    table_of (kept r_info) tbl ∧ lev_count (kept r_info) 0 ≠ 0 := by
  have hrange := init_ok_range r_info md tbl h
  have hmd := init_ok_depth r_info md tbl h
  obtain ⟨hq, hok⟩ := init_race_allocs_run r_info md hmd hrange hsize
  by_cases h0 : lev_count (kept r_info) 0 = 0
  · rw [hq h0] at h; cases h
  · obtain ⟨tbl', ht1, ht2⟩ := hok h0
    rw [ht1] at h
    cases h
    exact ⟨ht2, h0⟩

theorem perm_of_slots {α : Type} (n : Nat) (l1 l2 : List α) (h1 : l1.length = n)
    (h2 : l2.length = n) (σ : Fin n → Fin n) (hσ : Function.Injective σ)
    (h : ∀ k : Fin n, l1[(σ k).val]? = l2[k.val]?) : l1.Perm l2 := by
  subst h1
  have hbij : Function.Bijective σ := ⟨hσ, Finite.injective_iff_surjective.mp hσ⟩
  let e : Equiv.Perm (Fin l1.length) := Equiv.ofBijective σ hbij
  have e1 : l1 = List.ofFn (fun z : Fin l1.length => l1[z.val]) := (List.ofFn_getElem l1).symm
  have e2 : l2 = List.ofFn ((fun z : Fin l1.length => l1[z.val]) ∘ e) := by
    apply List.ext_getElem
    · simp [h2]
    · intro i hi1 hi2
      simp only [List.getElem_ofFn, Function.comp]
      have hk := h ⟨i, by omega⟩
      have hlt : (σ ⟨i, by omega⟩).val < l1.length := (σ ⟨i, by omega⟩).isLt
      rw [List.getElem?_eq_getElem hlt, List.getElem?_eq_getElem hi1] at hk
      simp only [Option.some.injEq] at hk
      rw [← hk]; rfl
  rw [e2]
  conv_lhs => rw [e1]
  exact (Equiv.Perm.ofFn_comp_perm e _).symm

theorem surj_of_slots (n : Nat) (f : Nat → Nat) (hlt : ∀ k, k < n → f k < n)
    (hinj : ∀ j k, j < n → k < n → f j = f k → j = k) :
    ∀ z, z < n → ∃ k, k < n ∧ f k = z := by
  let σ : Fin n → Fin n := fun k => ⟨f k.val, hlt k.val k.isLt⟩
  have hσ : Function.Injective σ := by
    intro a b hab
    have : f a.val = f b.val := by simpa [σ] using congrArg Fin.val hab
    exact Fin.ext (hinj _ _ a.isLt b.isLt this)
  have hs := Finite.injective_iff_surjective.mp hσ
  intro z hz
  obtain ⟨k, hk⟩ := hs ⟨z, hz⟩
  exact ⟨k.val, k.isLt, by simpa [σ] using congrArg Fin.val hk⟩

theorem table_of_entry (K : List (Nat × monster_race)) (tbl : List alloc_entry)
    (h : table_of K tbl) (z : Nat) (hz : z < tbl.length) :
    ∃ j, j < K.length ∧ slot_of K j = z ∧ tbl[z]? = some (entry_of (K.getD j (0, {}))) := by
  obtain ⟨hlen, hslots⟩ := h
  obtain ⟨j, hj, hjz⟩ := surj_of_slots K.length (slot_of K)
    (fun k hk => slot_of_lt_length K k hk)
    (fun j k hj hk hjk => slot_of_injective K j k hj hk hjk) z (by omega)
  exact ⟨j, hj, hjz, by rw [← hjz]; exact hslots j hj⟩

theorem table_of_perm (K : List (Nat × monster_race)) (tbl : List alloc_entry)
    (h : table_of K tbl) : tbl.Perm (K.map entry_of) := by
  obtain ⟨hlen, hslots⟩ := h
  apply perm_of_slots K.length tbl (K.map entry_of) hlen (by simp)
    (fun k => ⟨slot_of K k.val, slot_of_lt_length K k.val k.isLt⟩)
  · intro a b hab
    have : slot_of K a.val = slot_of K b.val := by simpa using congrArg Fin.val hab
    exact Fin.ext (slot_of_injective K _ _ a.isLt b.isLt this)
  · intro k
    simp only
    rw [hslots k.val k.isLt, List.getElem?_map, List.getD_eq_getElem _ _ k.isLt,
      List.getElem?_eq_getElem k.isLt]
    rfl

theorem kept_index_lt (r_info : List monster_race) (j k : Nat) (hjk : j < k)
    (hk : k < (kept r_info).length) :
    ((kept r_info).getD j (0, {})).1 < ((kept r_info).getD k (0, {})).1 := by
  have hp : List.Pairwise (fun a b : Nat × monster_race => a.1 < b.1) (kept r_info) := by
    unfold kept
    apply List.Pairwise.filter
    unfold scanned
    rw [List.pairwise_map]
    exact List.pairwise_lt_range' 1 _
  rw [List.pairwise_iff_getElem] at hp
  rw [List.getD_eq_getElem _ _ (by omega), List.getD_eq_getElem _ _ hk]
  exact hp j k (by omega) hk hjk

theorem table_of_order (K : List (Nat × monster_race)) (tbl : List alloc_entry)
    (h : table_of K tbl)
    (hidx : ∀ j k, j < k → k < K.length → (K.getD j (0, {})).1 < (K.getD k (0, {})).1) :
    tbl.Pairwise (fun a b => a.level ≤ b.level ∧ (a.level = b.level → a.index < b.index)) := by
  rw [List.pairwise_iff_getElem]
  intro z1 z2 hz1 hz2 hlt
  obtain ⟨j1, hj1, hs1, he1⟩ := table_of_entry K tbl h z1 hz1
  obtain ⟨j2, hj2, hs2, he2⟩ := table_of_entry K tbl h z2 hz2
  rw [List.getElem?_eq_getElem hz1, Option.some.injEq] at he1
  rw [List.getElem?_eq_getElem hz2, Option.some.injEq] at he2
  rw [he1, he2]
  have hl1 : (entry_of (K.getD j1 (0, {}))).level = lev_at K j1 := rfl
  have hl2 : (entry_of (K.getD j2 (0, {}))).level = lev_at K j2 := rfl
  have hi1 : (entry_of (K.getD j1 (0, {}))).index = (K.getD j1 (0, {})).1 := rfl
  have hi2 : (entry_of (K.getD j2 (0, {}))).index = (K.getD j2 (0, {})).1 := rfl
  rw [hl1, hl2, hi1, hi2]
  have hle : lev_at K j1 ≤ lev_at K j2 := by
    by_contra hc
    have := slot_of_lt_of_key K j2 j1 hj2 hj1 (Or.inl (by omega))
    omega
  refine ⟨hle, fun heq => ?_⟩
  have hjj : j1 < j2 := by
    by_contra hc
    rcases Nat.lt_or_ge j2 j1 with h2 | h2
    · have := slot_of_lt_of_key K j2 j1 hj2 hj1 (Or.inr ⟨heq.symm, h2⟩)
      omega
    · have : j1 = j2 := by omega
      subst this; omega
  exact hidx j1 j2 hjj hj2

theorem mem_table_iff (r_info : List monster_race) (md : Nat) (tbl : List alloc_entry)
    (hsize : (kept r_info).length ≤ 32767) (h : init_race_allocs r_info md = .ok tbl)
    (e : alloc_entry) :
    e ∈ tbl ↔ ∃ i, is_kept r_info i ∧ e = entry_of (i, r_info.getD i {}) := by
  have hp := table_of_perm _ _ (init_race_allocs_table r_info md tbl hsize h).1
  rw [hp.mem_iff, List.mem_map]
  constructor
  · rintro ⟨ir, hir, rfl⟩
    rw [mem_kept_iff] at hir
    refine ⟨ir.1, hir.1, ?_⟩
    rw [← hir.2]
  · rintro ⟨i, hi, rfl⟩
    exact ⟨(i, r_info.getD i {}), (mem_kept_iff _ _).mpr ⟨hi, rfl⟩, rfl⟩

theorem kept_index_nodup (r_info : List monster_race) :
    ((kept r_info).map Prod.fst).Nodup := by
  have hp : List.Pairwise (fun a b : Nat × monster_race => a.1 < b.1) (kept r_info) := by
    unfold kept
    apply List.Pairwise.filter
    unfold scanned
    rw [List.pairwise_map]
    exact List.pairwise_lt_range' 1 _
  rw [List.Nodup, List.pairwise_map]
  exact hp.imp (fun hab => Nat.ne_of_lt hab)

theorem sum_pos_iff_of_nonneg (l : List Int) (h : ∀ x ∈ l, 0 ≤ x) :
    0 < l.sum ↔ ∃ x ∈ l, 0 < x := by
  induction l with
  | nil => simp
  | cons a l ih =>
    have ha := h a (List.mem_cons_self _ _)
    have hl : ∀ x ∈ l, 0 ≤ x := fun x hx => h x (List.mem_cons_of_mem _ hx)
    have hs : 0 ≤ l.sum := List.sum_nonneg hl
    rw [List.sum_cons]
    constructor
    · intro hpos
      by_cases ha0 : 0 < a
      · exact ⟨a, List.mem_cons_self _ _, ha0⟩
      · obtain ⟨x, hx, hx0⟩ := (ih hl).mp (by omega)
        exact ⟨x, List.mem_cons_of_mem _ hx, hx0⟩
    · rintro ⟨x, hx, hx0⟩
      rcases List.mem_cons.mp hx with rfl | hmem
      · omega
      · have := (ih hl).mpr ⟨x, hmem, hx0⟩
        omega

/-- C1: when every scanned race with nonzero rarity has its level in
`[0, max_depth)` (and the entries can be counted in the `s16b` counters), the
table produced by `init_race_allocs` is sorted by non-decreasing level, and
entries of equal level appear in ascending registry index. -/
theorem init_race_allocs_sorted (r_info : List monster_race) (max_depth : Nat)
    (tbl : List alloc_entry)
    (hrange : levels_in_range r_info max_depth)
    (hsize : (kept r_info).length ≤ 32767)
    (h : init_race_allocs r_info max_depth = .ok tbl) :
    tbl.Pairwise
      (fun a b => a.level ≤ b.level ∧ (a.level = b.level → a.index < b.index)) := by
  have hmd := init_ok_depth r_info max_depth tbl h
  obtain ⟨hq, hok⟩ := init_race_allocs_run r_info max_depth hmd hrange hsize
  by_cases h0 : lev_count (kept r_info) 0 = 0
  · rw [hq h0] at h; cases h
  · obtain ⟨tbl', ht1, ht2⟩ := hok h0
    rw [ht1] at h
    cases h
    exact table_of_order _ _ ht2 (fun j k hjk hk => kept_index_lt r_info j k hjk hk)

theorem init_race_allocs_sorted_witness :
    levels_in_range demo_registry 5 ∧ (kept demo_registry).length ≤ 32767 ∧
    init_race_allocs demo_registry 5 = .ok demo_table ∧
    demo_table.Pairwise
      (fun a b => a.level ≤ b.level ∧ (a.level = b.level → a.index < b.index)) :=
  ⟨by decide, by decide, by decide,
    init_race_allocs_sorted demo_registry 5 demo_table (by decide) (by decide) (by decide)⟩

/-- C2: the table built by `init_race_allocs` has exactly one entry for each
registry index `i` with `1 ≤ i ≤ r_max - 2` whose race has nonzero rarity, and
no other entry; each entry records the level of its race and has `prob1`,
`prob2` and `prob3` all equal to `floor(100 / rarity)`; a race of rarity 25 and
level 3 has an entry of base weight 4 at level 3. -/
theorem init_race_allocs_entries (r_info : List monster_race) (max_depth : Nat)
    (tbl : List alloc_entry)
    (hsize : (kept r_info).length ≤ 32767)
    (h : init_race_allocs r_info max_depth = .ok tbl) :
    (∀ i, is_kept r_info i → tbl.countP (fun e => decide (e.index = i)) = 1) ∧
    (∀ e ∈ tbl, is_kept r_info e.index ∧
      e.level = (r_info.getD e.index {}).level ∧
      e.prob1 = ((100 / (r_info.getD e.index {}).rarity : Nat) : Int) ∧
      e.prob2 = ((100 / (r_info.getD e.index {}).rarity : Nat) : Int) ∧
      e.prob3 = ((100 / (r_info.getD e.index {}).rarity : Nat) : Int)) ∧
    (∀ i, is_kept r_info i → (r_info.getD i {}).rarity = 25 →
      (r_info.getD i {}).level = 3 →
      ∃ e ∈ tbl, e.index = i ∧ e.level = 3 ∧ e.prob1 = 4) := by
  have hp := table_of_perm _ _ (init_race_allocs_table r_info max_depth tbl hsize h).1
  refine ⟨?_, ?_, ?_⟩
  · intro i hi
    rw [hp.countP_eq, List.countP_map]
    have hmem : i ∈ (kept r_info).map Prod.fst :=
      List.mem_map.mpr ⟨(i, r_info.getD i {}), (mem_kept_iff _ _).mpr ⟨hi, rfl⟩, rfl⟩
    have hc := List.count_eq_one_of_mem (kept_index_nodup r_info) hmem
    rw [List.count, List.countP_map] at hc
    rw [← hc]
    apply List.countP_congr
    intro ir _
    simp only [Function.comp, entry_of, decide_eq_true_eq, beq_iff_eq]
  · intro e he
    obtain ⟨i, hi, rfl⟩ := (mem_table_iff r_info max_depth tbl hsize h e).mp he
    exact ⟨hi, rfl, rfl, rfl, rfl⟩
  · intro i hi hr hl
    refine ⟨entry_of (i, r_info.getD i {}),
      (mem_table_iff r_info max_depth tbl hsize h _).mpr ⟨i, hi, rfl⟩, rfl, hl, ?_⟩
    show ((100 / (r_info.getD i {}).rarity : Nat) : Int) = 4
    rw [hr]; rfl

theorem init_race_allocs_entries_witness :
    (kept demo_registry).length ≤ 32767 ∧
    init_race_allocs demo_registry 5 = .ok demo_table ∧
    ∃ e ∈ demo_table, e.index = 1 ∧ e.level = 3 ∧ e.prob1 = 4 :=
  ⟨by decide, by decide,
    (init_race_allocs_entries demo_registry 5 demo_table (by decide) (by decide)).2.2 1
      (by unfold is_kept; decide) (by decide) (by decide)⟩

/-- C3: on a registry whose scanned races have their levels in
`[0, max_depth)`, `init_race_allocs` ends in `quit` exactly when no scanned
race with nonzero rarity has level 0, and whenever such a town race exists the
build completes and yields a table. -/
theorem init_race_allocs_quit_iff (r_info : List monster_race) (max_depth : Nat)
    (hmd : 0 < max_depth)
    (hrange : levels_in_range r_info max_depth)
    (hsize : (kept r_info).length ≤ 32767) :
    (init_race_allocs r_info max_depth = .error fault.quit ↔
      ¬ ∃ i, is_kept r_info i ∧ (r_info.getD i {}).level = 0) ∧
    ((∃ i, is_kept r_info i ∧ (r_info.getD i {}).level = 0) →
      ∃ tbl, init_race_allocs r_info max_depth = .ok tbl) := by
  obtain ⟨hq, hok⟩ := init_race_allocs_run r_info max_depth hmd hrange hsize
  have hcount : lev_count (kept r_info) 0 ≠ 0 ↔
      ∃ i, is_kept r_info i ∧ (r_info.getD i {}).level = 0 := by
    unfold lev_count
    rw [Nat.ne_zero_iff_zero_lt, List.countP_pos_iff]
    constructor
    · rintro ⟨ir, hir, hl⟩
      rw [mem_kept_iff] at hir
      refine ⟨ir.1, hir.1, ?_⟩
      rw [← hir.2]; simpa using hl
    · rintro ⟨i, hi, hl⟩
      exact ⟨(i, r_info.getD i {}), (mem_kept_iff _ _).mpr ⟨hi, rfl⟩, by simpa using hl⟩
  refine ⟨⟨?_, ?_⟩, ?_⟩
  · intro hquit hex
    obtain ⟨tbl, ht, _⟩ := hok (hcount.mpr hex)
    rw [ht] at hquit
    cases hquit
  · intro hno
    apply hq
    by_contra hc
    exact hno (hcount.mp hc)
  · intro hex
    obtain ⟨tbl, ht, _⟩ := hok (hcount.mpr hex)
    exact ⟨tbl, ht⟩

theorem init_race_allocs_quit_iff_witness :
    0 < 5 ∧ levels_in_range demo_registry 5 ∧ (kept demo_registry).length ≤ 32767 ∧
    ∃ tbl, init_race_allocs demo_registry 5 = .ok tbl :=
  ⟨by decide, by decide, by decide,
    (init_race_allocs_quit_iff demo_registry 5 (by decide) (by decide) (by decide)).2
      ⟨2, by unfold is_kept; decide, by decide⟩⟩

/-- C4 (as stated) fails: a registry whose only town race has rarity 101 is
built successfully, and the base weights of its depth-0 entries sum to 0. -/
theorem init_race_allocs_town_weight_zero :
    init_race_allocs [{}, { level := 0, rarity := 101 }, {}] 1
      = .ok [{ index := 1, level := 0, prob1 := 0, prob2 := 0, prob3 := 0 }] ∧
    town_weight [{ index := 1, level := 0, prob1 := 0, prob2 := 0, prob3 := 0 }] = 0 := by
  decide

/-- C4 (amended): every table that `init_race_allocs` builds has at least one
depth-0 entry and no negative base weight, and the sum of the base weights of
its depth-0 entries is strictly positive exactly when some depth-0 race in it
has rarity at most 100. -/
theorem init_race_allocs_town (r_info : List monster_race) (max_depth : Nat)
    (tbl : List alloc_entry)
    (hsize : (kept r_info).length ≤ 32767)
    (h : init_race_allocs r_info max_depth = .ok tbl) :
    (∃ e ∈ tbl, e.level = 0) ∧ (∀ e ∈ tbl, 0 ≤ e.prob1) ∧
    (0 < town_weight tbl ↔
      ∃ i, is_kept r_info i ∧ (r_info.getD i {}).level = 0 ∧
        (r_info.getD i {}).rarity ≤ 100) := by
  have hmem := mem_table_iff r_info max_depth tbl hsize h
  have h0 := (init_race_allocs_table r_info max_depth tbl hsize h).2
  have hnn : ∀ e ∈ tbl, 0 ≤ e.prob1 := by
    intro e he
    obtain ⟨i, _, rfl⟩ := (hmem e).mp he
    exact Int.ofNat_nonneg _
  refine ⟨?_, hnn, ?_⟩
  · unfold lev_count at h0
    rw [Nat.ne_zero_iff_zero_lt, List.countP_pos_iff] at h0
    obtain ⟨ir, hir, hl⟩ := h0
    rw [mem_kept_iff] at hir
    refine ⟨entry_of (ir.1, r_info.getD ir.1 {}), (hmem _).mpr ⟨ir.1, hir.1, rfl⟩, ?_⟩
    rw [← hir.2]; simpa [entry_of] using hl
  · unfold town_weight
    rw [sum_pos_iff_of_nonneg]
    · constructor
      · rintro ⟨x, hx, hx0⟩
        obtain ⟨e, he, rfl⟩ := List.mem_map.mp hx
        obtain ⟨het, hel⟩ := List.mem_filter.mp he
        obtain ⟨i, hi, rfl⟩ := (hmem e).mp het
        refine ⟨i, hi, by simpa [entry_of] using hel, ?_⟩
        simp only [entry_of] at hx0
        have hx1 : 0 < 100 / (r_info.getD i {}).rarity := by exact_mod_cast hx0
        exact (Nat.div_pos_iff hi.2.2).mp hx1
      · rintro ⟨i, hi, hl, hr⟩
        refine ⟨(entry_of (i, r_info.getD i {})).prob1, List.mem_map.mpr
          ⟨entry_of (i, r_info.getD i {}), List.mem_filter.mpr
            ⟨(hmem _).mpr ⟨i, hi, rfl⟩, by simpa [entry_of] using hl⟩, rfl⟩, ?_⟩
        simp only [entry_of]
        have : 0 < 100 / (r_info.getD i {}).rarity :=
          Nat.div_pos hr (Nat.pos_of_ne_zero hi.2.2)
        exact_mod_cast this
    · intro x hx
      obtain ⟨e, he, rfl⟩ := List.mem_map.mp hx
      exact hnn e (List.mem_filter.mp he).1

theorem init_race_allocs_town_witness :
    (kept demo_registry).length ≤ 32767 ∧
    init_race_allocs demo_registry 5 = .ok demo_table ∧
    ∃ e ∈ demo_table, e.level = 0 :=
  ⟨by decide, by decide,
    (init_race_allocs_town demo_registry 5 demo_table (by decide) (by decide)).1⟩

theorem prob_scan_eq (env : selector_env) (L : Int) (table : List alloc_entry)
    (total : Int) :
    prob_scan env L table total =
      ((visited L table).map (rescore env L)
          ++ table.dropWhile (fun e => decide (e.level ≤ L)),
        total + (((visited L table).map (rescore env L)).map (fun e => e.prob3)).sum) := by
  unfold visited
  induction table generalizing total with
  | nil => simp [prob_scan]
  | cons e es ih =>
    unfold prob_scan
    by_cases h1 : e.level > L
    · have h1' : ¬ e.level ≤ L := by omega
      simp [h1, h1', List.takeWhile_cons, List.dropWhile_cons]
    · have h1' : e.level ≤ L := by omega
      rw [if_neg h1]
      by_cases h2 : mon_accept env L e = true
      · rw [if_pos h2, ih]
        simp [h1', List.takeWhile_cons, List.dropWhile_cons, rescore, h2, add_assoc]
      · rw [if_neg h2, ih]
        simp [h1', List.takeWhile_cons, List.dropWhile_cons, rescore, h2]

theorem race_aux_scan_spec (l rest : List alloc_entry) (value : Int) (h0 : 0 ≤ value)
    (hlt : value < (l.map (fun e => e.prob3)).sum) :
    ∃ e, (l ++ rest)[race_aux_scan (l ++ rest) value]? = some e ∧ e ∈ l ∧ 0 < e.prob3 := by
  induction l generalizing value with
  | nil => simp at hlt; omega
  | cons a l ih =>
    simp only [List.map_cons, List.sum_cons] at hlt
    simp only [List.cons_append, race_aux_scan]
    by_cases hv : value < a.prob3
    · rw [if_pos hv]
      exact ⟨a, by simp, by simp, by omega⟩
    · rw [if_neg hv]
      obtain ⟨e, he1, he2, he3⟩ := ih (value - a.prob3) (by omega) (by omega)
      exact ⟨e, by simpa using he1, List.mem_cons_of_mem _ he2, he3⟩

theorem mem_visited (L : Int) (table : List alloc_entry) (e : alloc_entry)
    (h : e ∈ visited L table) : e ∈ table ∧ e.level ≤ L := by
  unfold visited at h
  exact ⟨(List.takeWhile_sublist _).subset h, by simpa using List.mem_takeWhile_imp h⟩

theorem get_mon_race_aux_spec (env : selector_env) (L : Int) (table : List alloc_entry)
    (raw : Nat) (hpos : 0 < (prob_scan env L table 0).2) :
    ∃ r, get_mon_race_aux (prob_scan env L table 0).2 (prob_scan env L table 0).1 raw
        = .ok r ∧ pickable env L table r := by
  rw [prob_scan_eq] at hpos ⊢
  simp only [zero_add] at hpos ⊢
  have hv0 := Int.emod_nonneg (raw : Int) (ne_of_gt hpos)
  have hv1 := Int.emod_lt_of_pos (raw : Int) hpos
  obtain ⟨e', he1, he2, he3⟩ := race_aux_scan_spec _
    (table.dropWhile (fun e => decide (e.level ≤ L))) _ hv0 hv1
  refine ⟨e'.index, ?_, ?_⟩
  · unfold get_mon_race_aux randint0
    rw [he1]
  · obtain ⟨e, he, rfl⟩ := List.mem_map.mp he2
    obtain ⟨hmem, hlev⟩ := mem_visited L table e he
    unfold rescore at he3 ⊢
    by_cases hacc : mon_accept env L e = true
    · rw [if_pos hacc] at he3 ⊢
      exact ⟨e, hmem, rfl, hlev, hacc, he3⟩
    · rw [if_neg hacc] at he3
      simp at he3

theorem get_mon_num_null (env : selector_env) (table : List alloc_entry) (level : Int)
    (d : mon_num_draws)
    (h : (prob_scan env (boosted_level level d.ood env.ood_monster_amount) table 0).2 ≤ 0) :
    get_mon_num env table level d = .ok (none,
      (prob_scan env (boosted_level level d.ood env.ood_monster_amount) table 0).1) := by
  unfold get_mon_num
  simp only [h, if_true]

theorem get_mon_num_race (env : selector_env) (table : List alloc_entry) (level : Int)
    (d : mon_num_draws)
    (h : 0 < (prob_scan env (boosted_level level d.ood env.ood_monster_amount) table 0).2) :
    ∃ r, get_mon_num env table level d = .ok (some r,
        (prob_scan env (boosted_level level d.ood env.ood_monster_amount) table 0).1)
      ∧ pickable env (boosted_level level d.ood env.ood_monster_amount) table r := by
  obtain ⟨r1, h1, p1⟩ := get_mon_race_aux_spec env _ table d.pick1 h
  obtain ⟨r2, h2, p2⟩ := get_mon_race_aux_spec env _ table d.pick2 h
  obtain ⟨r3, h3, p3⟩ := get_mon_race_aux_spec env _ table d.pick3 h
  have hk : ∀ a b, pickable env (boosted_level level d.ood env.ood_monster_amount) table a →
      pickable env (boosted_level level d.ood env.ood_monster_amount) table b →
      pickable env (boosted_level level d.ood env.ood_monster_amount) table
        (keep_deepest env.r_info a b) := by
    intro a b ha hb
    unfold keep_deepest
    split
    · exact ha
    · exact hb
  unfold get_mon_num
  simp only [not_le.mpr h, if_false, h1, h2, h3, bind, Except.bind]
  by_cases hp60 : randint0 d.reroll 100 < 60
  · by_cases hp10 : randint0 d.reroll 100 < 10
    · simp only [hp60, hp10, if_true, pure, Except.pure]
      exact ⟨_, rfl, hk _ _ (hk _ _ p1 p2) p3⟩
    · simp only [hp60, hp10, if_true, if_false, pure, Except.pure]
      exact ⟨_, rfl, hk _ _ p1 p2⟩
  · have hp10 : ¬ randint0 d.reroll 100 < 10 := by omega
    simp only [hp60, hp10, if_false, pure, Except.pure]
    exact ⟨_, rfl, p1⟩

theorem get_mon_num_some (env : selector_env) (table : List alloc_entry) (level : Int)
    (d : mon_num_draws) (r : Nat) (t' : List alloc_entry)
    (h : get_mon_num env table level d = .ok (some r, t')) :
    pickable env (boosted_level level d.ood env.ood_monster_amount) table r := by
  by_cases htot :
      (prob_scan env (boosted_level level d.ood env.ood_monster_amount) table 0).2 ≤ 0
  · rw [get_mon_num_null env table level d htot] at h
    cases h
  · obtain ⟨r', hr', hp⟩ := get_mon_num_race env table level d (by omega)
    rw [hr'] at h
    cases h
    exact hp

theorem boosted_level_eq (level : Int) (ood : Bool) (amount : Nat) :
    boosted_level level ood amount =
      if level > 0 ∧ ood = true then level + min (level / 4 + 2) (amount : Int)
      else level := by
  unfold boosted_level
  by_cases h : level > 0 ∧ ood = true
  · rw [if_pos h, if_pos h, Int.tdiv_eq_ediv (by omega) (by omega)]
  · rw [if_neg h, if_neg h]

theorem boosted_level_ge (level : Int) (ood : Bool) (amount : Nat) (h : 0 < level) :
    level ≤ boosted_level level ood amount := by
  rw [boosted_level_eq]
  split
  · have : (0 : Int) ≤ level / 4 := Int.ediv_nonneg (by omega) (by omega)
    have h2 : (0 : Int) ≤ min (level / 4 + 2) (amount : Int) := by
      apply le_min <;> omega
    omega
  · exact le_refl _

theorem mem_visited_of_sorted (L : Int) (table : List alloc_entry)
    (hsorted : table.Pairwise (fun a b => a.level ≤ b.level)) (e : alloc_entry)
    (he : e ∈ table) (hl : e.level ≤ L) : e ∈ visited L table := by
  unfold visited
  induction table with
  | nil => simp at he
  | cons a l ih =>
    rw [List.pairwise_cons] at hsorted
    by_cases ha : a.level ≤ L
    · rw [List.takeWhile_cons_of_pos (by simpa using ha)]
      rcases List.mem_cons.mp he with rfl | hmem
      · exact List.mem_cons_self _ _
      · exact List.mem_cons_of_mem _ (ih hsorted.2 hmem)
    · exfalso
      rcases List.mem_cons.mp he with rfl | hmem
      · exact ha hl
      · have := hsorted.1 e hmem
        omega

theorem scan_total_eq (env : selector_env) (L : Int) (table : List alloc_entry) :
    (prob_scan env L table 0).2 =
      (((visited L table).map (rescore env L)).map (fun e => e.prob3)).sum := by
  rw [prob_scan_eq]; simp

theorem rescore_prob3_nonneg (env : selector_env) (L : Int) (e : alloc_entry)
    (h : 0 ≤ e.prob2) : 0 ≤ (rescore env L e).prob3 := by
  unfold rescore
  split
  · exact h
  · exact le_refl _

theorem scan_total_pos_iff (env : selector_env) (L : Int) (table : List alloc_entry)
    (hsorted : table.Pairwise (fun a b => a.level ≤ b.level))
    (hnn : ∀ e ∈ table, 0 ≤ e.prob2) :
    0 < (prob_scan env L table 0).2 ↔
      ∃ e ∈ table, e.level ≤ L ∧ mon_accept env L e = true ∧ 0 < e.prob2 := by
  rw [scan_total_eq, sum_pos_iff_of_nonneg]
  · constructor
    · rintro ⟨x, hx, hx0⟩
      obtain ⟨e', he', rfl⟩ := List.mem_map.mp hx
      obtain ⟨e, he, rfl⟩ := List.mem_map.mp he'
      obtain ⟨hmem, hlev⟩ := mem_visited L table e he
      refine ⟨e, hmem, hlev, ?_⟩
      unfold rescore at hx0
      by_cases hacc : mon_accept env L e = true
      · rw [if_pos hacc] at hx0
        exact ⟨hacc, hx0⟩
      · rw [if_neg hacc] at hx0
        simp at hx0
    · rintro ⟨e, he, hl, hacc, hp⟩
      refine ⟨(rescore env L e).prob3, List.mem_map.mpr ⟨rescore env L e,
        List.mem_map.mpr ⟨e, mem_visited_of_sorted L table hsorted e he hl, rfl⟩, rfl⟩, ?_⟩
      unfold rescore
      rw [if_pos hacc]
      exact hp
  · intro x hx
    obtain ⟨e', he', rfl⟩ := List.mem_map.mp hx
    obtain ⟨e, he, rfl⟩ := List.mem_map.mp he'
    exact rescore_prob3_nonneg env L e (hnn e (mem_visited L table e he).1)

theorem scan_total_nonneg (env : selector_env) (L : Int) (table : List alloc_entry)
    (hnn : ∀ e ∈ table, 0 ≤ e.prob2) : 0 ≤ (prob_scan env L table 0).2 := by
  rw [scan_total_eq]
  apply List.sum_nonneg
  intro x hx
  obtain ⟨e', he', rfl⟩ := List.mem_map.mp hx
  obtain ⟨e, he, rfl⟩ := List.mem_map.mp he'
  exact rescore_prob3_nonneg env L e (hnn e (mem_visited L table e he).1)

theorem mon_accept_true (env : selector_env) (L : Int) (e : alloc_entry)
    (h : mon_accept env L e = true) :
    ¬ (L > 0 ∧ e.level ≤ 0) ∧
    ¬ (rf_has (env.r_info.getD e.index {}).flags race_flag.SEASONAL = true ∧
        ¬ (env.tm_mon = 11 ∧ env.tm_mday ≥ 24 ∧ env.tm_mday ≤ 26)) ∧
    ¬ (rf_has (env.r_info.getD e.index {}).flags race_flag.UNIQUE = true ∧
        (env.r_info.getD e.index {}).cur_num ≥ (env.r_info.getD e.index {}).max_num) ∧
    ¬ (rf_has (env.r_info.getD e.index {}).flags race_flag.FORCE_DEPTH = true ∧
        (env.r_info.getD e.index {}).level > env.player_depth) := by
  unfold mon_accept at h
  by_cases h1 : L > 0 ∧ e.level ≤ 0
  · rw [if_pos h1] at h; cases h
  · rw [if_neg h1] at h
    by_cases h2 : rf_has (env.r_info.getD e.index {}).flags race_flag.SEASONAL = true ∧
        ¬ (env.tm_mon = 11 ∧ env.tm_mday ≥ 24 ∧ env.tm_mday ≤ 26)
    · rw [if_pos h2] at h; cases h
    · rw [if_neg h2] at h
      by_cases h3 : rf_has (env.r_info.getD e.index {}).flags race_flag.UNIQUE = true ∧
          (env.r_info.getD e.index {}).cur_num ≥ (env.r_info.getD e.index {}).max_num
      · rw [if_pos h3] at h; cases h
      · rw [if_neg h3] at h
        by_cases h4 : rf_has (env.r_info.getD e.index {}).flags race_flag.FORCE_DEPTH = true ∧
            (env.r_info.getD e.index {}).level > env.player_depth
        · rw [if_pos h4] at h; cases h
        · exact ⟨h1, h2, h3, h4⟩

theorem prep_prob2_pos (hook : Option (Nat → Bool)) (table0 : List alloc_entry)
    (e : alloc_entry) (he : e ∈ get_mon_num_prep hook table0) (hp : 0 < e.prob2) :
    hook = none ∨ ∃ f, hook = some f ∧ f e.index = true := by
  unfold get_mon_num_prep at he
  obtain ⟨e0, _, rfl⟩ := List.mem_map.mp he
  cases hook with
  | none => exact Or.inl rfl
  | some f =>
    right
    refine ⟨f, rfl, ?_⟩
    by_cases hf : f e0.index = true
    · simp [hf]
    · simp [hf] at hp

theorem table_ok_of_keys (r_info : List monster_race) (t t' : List alloc_entry)
    (hk : t'.map entry_key = t.map entry_key) (hok : table_ok r_info t) :
    table_ok r_info t' := by
  obtain ⟨hs, he⟩ := hok
  constructor
  · have h1 : (t.map entry_key).Pairwise (fun a b => a.2.1 ≤ b.2.1) := by
      rw [List.pairwise_map]; exact hs
    rw [← hk, List.pairwise_map] at h1
    exact h1
  · intro e' he'
    have hm : entry_key e' ∈ t.map entry_key := by
      rw [← hk]; exact List.mem_map_of_mem _ he'
    obtain ⟨e, hmem, hkey⟩ := List.mem_map.mp hm
    have h := he e hmem
    simp only [entry_key, Prod.mk.injEq] at hkey
    obtain ⟨k1, k2, k3, k4⟩ := hkey
    rw [← k1, ← k2, ← k3, ← k4]
    exact h

theorem prob_scan_keys (env : selector_env) (L : Int) (t : List alloc_entry) (total : Int) :
    (prob_scan env L t total).1.map entry_key = t.map entry_key := by
  induction t generalizing total with
  | nil => rfl
  | cons e es ih =>
    unfold prob_scan
    by_cases h1 : e.level > L
    · rw [if_pos h1]
    · rw [if_neg h1]
      by_cases h2 : mon_accept env L e = true
      · rw [if_pos h2]
        simp only [List.map_cons, ih]
        rfl
      · rw [if_neg h2]
        simp only [List.map_cons, ih]
        rfl

/-- The table that `init_race_allocs` builds satisfies the table invariant. -/
theorem init_table_ok (r_info : List monster_race) (max_depth : Nat)
    (tbl : List alloc_entry) (hsize : (kept r_info).length ≤ 32767)
    (h : init_race_allocs r_info max_depth = .ok tbl) : table_ok r_info tbl := by
  constructor
  · exact (table_of_order _ _ (init_race_allocs_table r_info max_depth tbl hsize h).1
      (fun j k hjk hk => kept_index_lt r_info j k hjk hk)).imp (fun hab => hab.1)
  · intro e he
    obtain ⟨i, _, rfl⟩ := (mem_table_iff r_info max_depth tbl hsize h e).mp he
    exact ⟨Int.ofNat_nonneg _, Int.ofNat_nonneg _, rfl⟩

/-- The table invariant is kept by `get_mon_num_prep`. -/
theorem prep_table_ok (r_info : List monster_race) (hook : Option (Nat → Bool))
    (t : List alloc_entry) (hok : table_ok r_info t) :
    table_ok r_info (get_mon_num_prep hook t) := by
  obtain ⟨hs, he⟩ := hok
  have hlev : ∀ e : alloc_entry,
      (match hook with
        | none => { e with prob2 := e.prob1 }
        | some f => if f e.index = true then { e with prob2 := e.prob1 }
            else { e with prob2 := 0 } : alloc_entry).level = e.level := by
    intro e
    cases hook with
    | none => rfl
    | some f => by_cases hf : f e.index = true <;> simp [hf]
  constructor
  · unfold get_mon_num_prep
    rw [List.pairwise_map]
    refine hs.imp ?_
    intro a b hab
    rw [hlev a, hlev b]
    exact hab
  · intro e' he'
    unfold get_mon_num_prep at he'
    obtain ⟨e, hmem, rfl⟩ := List.mem_map.mp he'
    obtain ⟨h1, h2, h3⟩ := he e hmem
    cases hook with
    | none => exact ⟨h1, h1, h3⟩
    | some f =>
      by_cases hf : f e.index = true
      · simp only [hf, if_true]; exact ⟨h1, h1, h3⟩
      · simp only [hf, Bool.false_eq_true, if_false]; exact ⟨h1, le_refl _, h3⟩

/-- The table invariant is kept by `get_mon_num`. -/
theorem get_mon_num_table_ok (env : selector_env) (table : List alloc_entry) (level : Int)
    (d : mon_num_draws) (res : Option Nat) (t' : List alloc_entry)
    (hok : table_ok env.r_info table)
    (h : get_mon_num env table level d = .ok (res, t')) : table_ok env.r_info t' := by
  have ht : t' = (prob_scan env (boosted_level level d.ood env.ood_monster_amount) table 0).1 := by
    by_cases htot :
        (prob_scan env (boosted_level level d.ood env.ood_monster_amount) table 0).2 ≤ 0
    · rw [get_mon_num_null env table level d htot] at h
      cases h; rfl
    · obtain ⟨r', hr', _⟩ := get_mon_num_race env table level d (by omega)
      rw [hr'] at h
      cases h; rfl
  rw [ht]
  exact table_ok_of_keys _ _ _ (prob_scan_keys env _ table 0) hok

/-- C5: after `get_mon_num_prep(hook)` the table has the same entries in the
same order, each with its `index`, `level`, `prob1` (and `prob3`) unchanged
and with `prob2` equal to `prob1` if the hook is absent or accepts the
entry's race and 0 otherwise; `get_mon_num_prep(NULL)` after any earlier
restriction gives every entry `prob2 = prob1`. -/
theorem get_mon_num_prep_spec (hook : Option (Nat → Bool)) (table : List alloc_entry) :
    (get_mon_num_prep hook table).length = table.length ∧
    (∀ (i : Nat) (e : alloc_entry), table[i]? = some e →
      ∃ e', (get_mon_num_prep hook table)[i]? = some e' ∧
        e'.index = e.index ∧ e'.level = e.level ∧ e'.prob1 = e.prob1 ∧
        e'.prob3 = e.prob3 ∧
        e'.prob2 = (if hook_accepts hook e.index = true then e.prob1 else 0)) ∧
    (∀ (i : Nat) (e : alloc_entry), table[i]? = some e →
      ∃ e', (get_mon_num_prep none (get_mon_num_prep hook table))[i]? = some e' ∧
        e'.index = e.index ∧ e'.level = e.level ∧ e'.prob1 = e.prob1 ∧
        e'.prob2 = e.prob1) := by
  refine ⟨by simp [get_mon_num_prep], ?_, ?_⟩
  · intro i e hi
    cases hook with
    | none =>
      exact ⟨{ e with prob2 := e.prob1 }, by simp [get_mon_num_prep, hi], rfl, rfl, rfl, rfl,
        by simp [hook_accepts]⟩
    | some f =>
      by_cases hf : f e.index = true
      · exact ⟨{ e with prob2 := e.prob1 }, by simp [get_mon_num_prep, hi, hf],
          rfl, rfl, rfl, rfl, by simp [hook_accepts, hf]⟩
      · exact ⟨{ e with prob2 := 0 }, by simp [get_mon_num_prep, hi, hf],
          rfl, rfl, rfl, rfl, by simp [hook_accepts, hf]⟩
  · intro i e hi
    cases hook with
    | none =>
      exact ⟨{ e with prob2 := e.prob1 }, by simp [get_mon_num_prep, hi], rfl, rfl, rfl, rfl⟩
    | some f =>
      by_cases hf : f e.index = true
      · exact ⟨{ e with prob2 := e.prob1 }, by simp [get_mon_num_prep, hi, hf],
          rfl, rfl, rfl, rfl⟩
      · exact ⟨{ e with prob2 := e.prob1 }, by simp [get_mon_num_prep, hi, hf],
          rfl, rfl, rfl, rfl⟩

/-- C6: on a table whose entries record the level of their race, whatever
the earlier contents of `prob3`, the requested level and the draws, a race
returned by `get_mon_num(level)` has a level at most the target level, which
is `level` when not boosted and `level + min(level/4 + 2, ood_monster_amount)`
when boosted; a level that is not positive is never boosted. -/
theorem get_mon_num_depth (env : selector_env) (table : List alloc_entry) (level : Int)
    (d : mon_num_draws) (r : Nat) (t' : List alloc_entry)
    (hcons : ∀ e ∈ table, (env.r_info.getD e.index {}).level = e.level)
    (h : get_mon_num env table level d = .ok (some r, t')) :
    (env.r_info.getD r {}).level ≤
        (if level > 0 ∧ d.ood = true
          then level + min (level / 4 + 2) (env.ood_monster_amount : Int) else level) ∧
    (level ≤ 0 → (env.r_info.getD r {}).level ≤ level) := by
  obtain ⟨e, he, hidx, hlev, _, _⟩ := get_mon_num_some env table level d r t' h
  rw [boosted_level_eq] at hlev
  rw [← hidx, hcons e he]
  refine ⟨hlev, fun h0 => ?_⟩
  rw [if_neg (by omega)] at hlev
  exact hlev

theorem get_mon_num_depth_witness :
    (∀ e ∈ demo_table, (demo_env.r_info.getD e.index {}).level = e.level) ∧
    get_mon_num demo_env demo_table 3 {} = .ok (some 4, demo_scored) ∧
    (demo_env.r_info.getD 4 {}).level ≤
      (if (3 : Int) > 0 ∧ ({} : mon_num_draws).ood = true
        then 3 + min ((3 : Int) / 4 + 2) (demo_env.ood_monster_amount : Int) else 3) :=
  ⟨by decide, by decide,
    (get_mon_num_depth demo_env demo_table 3 {} 4 demo_scored (by decide) (by decide)).1⟩

/-- C7: a race returned by `get_mon_num` passed every test of the scan: some
entry of it has positive `prob2` (so, when the table comes from
`get_mon_num_prep(hook)`, the hook is absent or accepted the race); it is not
a unique race with `cur_num >= max_num`, not a force-depth race deeper than
the player's depth, not a seasonal race outside the season, and not a town
race (level at most 0) when the requested level is positive. -/
theorem get_mon_num_eligible (env : selector_env) (table : List alloc_entry)
    (level : Int) (d : mon_num_draws) (r : Nat) (t' : List alloc_entry)
    (hcons : ∀ e ∈ table, (env.r_info.getD e.index {}).level = e.level)
    (h : get_mon_num env table level d = .ok (some r, t')) :
    (∃ e ∈ table, e.index = r ∧ 0 < e.prob2) ∧
    (∀ hook table0, table = get_mon_num_prep hook table0 →
      hook_accepts hook r = true) ∧
    ¬ (rf_has (env.r_info.getD r {}).flags race_flag.UNIQUE = true ∧
        (env.r_info.getD r {}).cur_num ≥ (env.r_info.getD r {}).max_num) ∧
    ¬ (rf_has (env.r_info.getD r {}).flags race_flag.FORCE_DEPTH = true ∧
        (env.r_info.getD r {}).level > env.player_depth) ∧
    ¬ (rf_has (env.r_info.getD r {}).flags race_flag.SEASONAL = true ∧
        ¬ (env.tm_mon = 11 ∧ env.tm_mday ≥ 24 ∧ env.tm_mday ≤ 26)) ∧
    ¬ (level > 0 ∧ (env.r_info.getD r {}).level ≤ 0) := by
  obtain ⟨e, he, hidx, hlev, hacc, hp⟩ := get_mon_num_some env table level d r t' h
  obtain ⟨a1, a2, a3, a4⟩ := mon_accept_true env _ e hacc
  rw [hidx] at a2 a3 a4
  refine ⟨⟨e, he, hidx, hp⟩, ?_, a3, a4, a2, ?_⟩
  · intro hook table0 heq
    rw [heq] at he
    have := prep_prob2_pos hook table0 e he hp
    rw [hidx] at this
    rcases this with rfl | ⟨f, rfl, hf⟩
    · rfl
    · exact hf
  · rintro ⟨hl, hr⟩
    have hge := boosted_level_ge level d.ood env.ood_monster_amount hl
    rw [← hidx, hcons e he] at hr
    exact a1 ⟨by omega, hr⟩

theorem get_mon_num_eligible_witness :
    (∀ e ∈ demo_table, (demo_env.r_info.getD e.index {}).level = e.level) ∧
    get_mon_num demo_env demo_table 3 { ood := true, pick1 := 17, reroll := 75 }
      = .ok (some 1, demo_scored) ∧
    ∃ e ∈ demo_table, e.index = 1 ∧ 0 < e.prob2 :=
  ⟨by decide, by decide,
    (get_mon_num_eligible demo_env demo_table 3 { ood := true, pick1 := 17, reroll := 75 }
      1 demo_scored (by decide) (by decide)).1⟩

/-- C8: on a depth-sorted table without negative `prob2`, `get_mon_num(level)`
returns `NULL` exactly when the total of the effective weights is 0, that is
when no entry of level at most the target level passes the tests of the scan
with a positive `prob2`; otherwise it returns the race of an entry of the
table. -/
theorem get_mon_num_null_iff (env : selector_env) (table : List alloc_entry)
    (level : Int) (d : mon_num_draws)
    (hsorted : table.Pairwise (fun a b => a.level ≤ b.level))
    (hnn : ∀ e ∈ table, 0 ≤ e.prob2) :
    ((∃ t', get_mon_num env table level d = .ok (none, t')) ↔
      (prob_scan env (boosted_level level d.ood env.ood_monster_amount) table 0).2 = 0) ∧
    ((prob_scan env (boosted_level level d.ood env.ood_monster_amount) table 0).2 = 0 ↔
      ¬ ∃ e ∈ table, e.level ≤ boosted_level level d.ood env.ood_monster_amount ∧
        mon_accept env (boosted_level level d.ood env.ood_monster_amount) e = true ∧
        0 < e.prob2) ∧
    ((prob_scan env (boosted_level level d.ood env.ood_monster_amount) table 0).2 ≠ 0 →
      ∃ e ∈ table, ∃ t', get_mon_num env table level d = .ok (some e.index, t')) := by
  have hnonneg := scan_total_nonneg env
    (boosted_level level d.ood env.ood_monster_amount) table hnn
  have hpos := scan_total_pos_iff env
    (boosted_level level d.ood env.ood_monster_amount) table hsorted hnn
  refine ⟨⟨?_, ?_⟩, ⟨?_, ?_⟩, ?_⟩
  · rintro ⟨t', ht'⟩
    by_contra hne
    obtain ⟨r, hr, _⟩ := get_mon_num_race env table level d (by omega)
    rw [hr] at ht'
    cases ht'
  · intro h0
    exact ⟨_, get_mon_num_null env table level d (by omega)⟩
  · intro h0 hex
    have := hpos.mpr hex
    omega
  · intro hno
    by_contra hne
    exact hno (hpos.mp (by omega))
  · intro hne
    obtain ⟨r, hr, e, he, hidx, _⟩ := get_mon_num_race env table level d (by omega)
    exact ⟨e, he, _, by rw [hidx]; exact hr⟩

theorem get_mon_num_null_iff_witness :
    demo_table.Pairwise (fun a b => a.level ≤ b.level) ∧
    (∀ e ∈ demo_table, 0 ≤ e.prob2) ∧
    ∃ e ∈ demo_table, ∃ t', get_mon_num demo_env demo_table 3 {} = .ok (some e.index, t') :=
  ⟨by decide, by decide,
    (get_mon_num_null_iff demo_env demo_table 3 {} (by decide) (by decide)).2.2
      (by decide)⟩

theorem find_range'_some (p : Nat → Bool) (n s i : Nat) (hs : s ≤ i) (hi : i < s + n)
    (hp : p i = true) (hlt : ∀ j, s ≤ j → j < i → p j = false) :
    (List.range' s n).find? p = some i := by
  induction n generalizing s with
  | zero => omega
  | succ n ih =>
    rw [List.range'_succ, List.find?_cons]
    by_cases hsi : s = i
    · subst hsi; rw [hp]
    · rw [hlt s (le_refl _) (by omega)]
      exact ih (s + 1) (by omega) (by omega) (fun j hj1 hj2 => hlt j (by omega) hj2)

theorem find_range'_none (p : Nat → Bool) (n s : Nat)
    (hall : ∀ j, s ≤ j → j < s + n → p j = false) :
    (List.range' s n).find? p = none := by
  rw [List.find?_eq_none]
  intro x hx
  rw [List.mem_range'_1] at hx
  rw [hall x hx.1 hx.2]
  simp

/-- C10: `mon_pop`, with slot indices that fit the `s16b` result.  If
`mon_max` is below `level_monster_max` it returns the old `mon_max` and
increments `mon_max` and `mon_cnt`; otherwise it returns the lowest index in
`[1, mon_max)` whose slot has no race and increments only `mon_cnt`;
otherwise it returns 0 and leaves `mon_max`, `mon_cnt` and every slot
unchanged.  When the slots from `mon_max` on are empty, a nonzero result is
the index of a slot that holds no live monster. -/
theorem mon_pop_spec (w : world) (hidx : w.mon_max ≤ 32767) :
    (w.mon_max < w.level_monster_max →
      mon_pop w = ((w.mon_max : Int),
        { w with mon_max := w.mon_max + 1, mon_cnt := w.mon_cnt + 1 })) ∧
    (¬ w.mon_max < w.level_monster_max →
      ∀ i, 1 ≤ i → i < w.mon_max → (w.monsters i).race = none →
        (∀ j, 1 ≤ j → j < i → (w.monsters j).race ≠ none) →
        mon_pop w = ((i : Int), { w with mon_cnt := w.mon_cnt + 1 })) ∧
    (¬ w.mon_max < w.level_monster_max →
      (∀ j, 1 ≤ j → j < w.mon_max → (w.monsters j).race ≠ none) →
      (mon_pop w).1 = 0 ∧ (mon_pop w).2.mon_max = w.mon_max ∧
        (mon_pop w).2.mon_cnt = w.mon_cnt ∧ (mon_pop w).2.monsters = w.monsters) ∧
    ((∀ i, w.mon_max ≤ i → (w.monsters i).race = none) →
      (mon_pop w).1 ≠ 0 →
      ((mon_pop w).2.monsters (mon_pop w).1.toNat).race = none) := by
  refine ⟨?_, ?_, ?_, ?_⟩
  · intro hlt
    unfold mon_pop
    rw [if_pos hlt, s16b_id _ (by omega) (by omega)]
  · intro hfull i hi1 hi2 hdead hlive
    unfold mon_pop
    rw [if_neg hfull, find_range'_some _ (w.mon_max - 1) 1 i hi1 (by omega)
      (by simp [hdead])
      (fun j hj1 hj2 => by
        have := hlive j hj1 hj2
        cases h : (w.monsters j).race with
        | none => exact absurd h this
        | some _ => rfl)]
    simp only
    rw [s16b_id _ (by omega) (by omega)]
  · intro hfull hlive
    unfold mon_pop
    rw [if_neg hfull, find_range'_none _ (w.mon_max - 1) 1
      (fun j hj1 hj2 => by
        have := hlive j hj1 (by omega)
        cases h : (w.monsters j).race with
        | none => exact absurd h this
        | some _ => rfl)]
    simp only
    by_cases hc : w.character_dungeon = true
    · simp [hc]
    · simp [hc]
  · intro hfree hne
    unfold mon_pop at hne ⊢
    by_cases hlt : w.mon_max < w.level_monster_max
    · rw [if_pos hlt, s16b_id _ (by omega) (by omega)]
      simp only [Int.toNat_ofNat]
      exact hfree _ (le_refl _)
    · rw [if_neg hlt] at hne ⊢
      cases hf : (List.range' 1 (w.mon_max - 1)).find?
          (fun m_idx => (w.monsters m_idx).race.isNone) with
      | none => rw [hf] at hne; simp at hne
      | some i =>
        have hp := List.find?_some hf
        have hmem := List.mem_of_find?_eq_some hf
        rw [List.mem_range'_1] at hmem
        simp only
        rw [s16b_id _ (by omega) (by omega)]
        simp only [Int.toNat_ofNat]
        simpa using hp

theorem mon_pop_spec_witness :
    demo_world.mon_max ≤ 32767 ∧ (mon_pop demo_world).1 = 2 :=
  ⟨by decide,
    congrArg Prod.fst ((mon_pop_spec demo_world (by decide)).1 (by decide))⟩

theorem getD_race_update (r_info : List monster_race) (r k : Nat)
    (f : monster_race → monster_race) :
    (race_update r_info r f).getD k {} =
      if k = r ∧ r < r_info.length then f (r_info.getD r {}) else r_info.getD k {} := by
  unfold race_update
  simp only [List.getD_eq_getElem?_getD, List.getElem?_set]
  by_cases hk : r = k
  · subst hk
    by_cases hlt : r < r_info.length
    · simp [hlt]
    · rw [if_pos rfl, if_neg hlt, if_neg (fun h => hlt h.2), List.getElem?_eq_none (by omega)]
  · have hk' : ¬ k = r := fun h => hk h.symm
    simp [hk, hk']

theorem delete_monster_idx_r_info (w w' : world) (m_idx : Int)
    (h : delete_monster_idx w m_idx = .ok w') :
    ∃ r', w'.r_info =
      race_update w.r_info r' (fun race => { race with cur_num := race.cur_num - 1 }) := by
  unfold delete_monster_idx at h
  split at h
  · cases h
  · split at h
    · cases h
    · split at h
      · cases h
      · rename_i r' _
        simp only [Except.ok.injEq] at h
        exact ⟨r', by rw [← h]⟩

theorem mon_take_hit_kill_r_info (w w' : world) (m : Nat) (dam : Int) (fear fear' : Bool)
    (d : hit_draws) (r : Nat) (hrace : (w.monsters m).race = some r)
    (hkill : mon_take_hit w m dam fear d = .ok (true, fear', w')) :
    ∃ r', w'.r_info =
      race_update
        (if rf_has (w.r_info.getD r {}).flags race_flag.UNIQUE = true then
          race_update w.r_info r (fun race => { race with max_num := 0 })
        else w.r_info)
        r' (fun race => { race with cur_num := race.cur_num - 1 }) := by
  unfold mon_take_hit at hkill
  rw [hrace] at hkill
  simp only at hkill
  split at hkill
  · split at hkill
    · cases hkill
    · split at hkill
      · cases hkill
      · rename_i w'' hdel
        simp only [Except.ok.injEq, Prod.mk.injEq, true_and] at hkill
        obtain ⟨r', hr'⟩ := delete_monster_idx_r_info _ _ _ hdel
        refine ⟨r', ?_⟩
        rw [← hkill.2, hr']
        by_cases hu : rf_has (w.r_info.getD r {}).flags race_flag.UNIQUE = true
        · simp only [hu, if_true, monster_death]
        · simp only [hu, Bool.false_eq_true, if_false, monster_death]
  · split at hkill
    · cases hkill
    · simp at hkill

/-- C9: when `mon_take_hit` kills a monster of a unique race, the race has
`max_num = 0` afterwards (and is still unique); and in every state in which
that race is unique with `max_num = 0` and `cur_num >= 0`, `get_mon_num` does
not return it, whatever the table, the requested level and the draws, and
`place_new_monster_one` returns `FALSE` for it and changes nothing. -/
theorem unique_kill_is_permanent (w w' : world) (m : Nat) (dam : Int) (fear fear' : Bool)
    (d : hit_draws) (r : Nat)
    (hrace : (w.monsters m).race = some r)
    (huniq : rf_has (w.r_info.getD r {}).flags race_flag.UNIQUE = true)
    (hkill : mon_take_hit w m dam fear d = .ok (true, fear', w')) :
    (w'.r_info.getD r {}).max_num = 0 ∧
    rf_has (w'.r_info.getD r {}).flags race_flag.UNIQUE = true ∧
    (∀ (env : selector_env) (table : List alloc_entry) (level : Int) (dr : mon_num_draws)
        (t' : List alloc_entry),
      rf_has (env.r_info.getD r {}).flags race_flag.UNIQUE = true →
      (env.r_info.getD r {}).max_num = 0 → 0 ≤ (env.r_info.getD r {}).cur_num →
      get_mon_num env table level dr ≠ .ok (some r, t')) ∧
    (∀ (w2 : world) (y x : Int) (sleep : Bool) (origin : Nat) (turn_energy : Int → Int)
        (basic_colors : Int) (pd : place_draws),
      rf_has (w2.r_info.getD r {}).flags race_flag.UNIQUE = true →
      (w2.r_info.getD r {}).max_num = 0 → 0 ≤ (w2.r_info.getD r {}).cur_num →
      square_in_bounds w2 y x = true →
      place_new_monster_one w2 y x r sleep origin turn_energy basic_colors pd
        = .ok (false, w2)) := by
  obtain ⟨r', hr'⟩ := mon_take_hit_kill_r_info w w' m dam fear fear' d r hrace hkill
  rw [if_pos huniq] at hr'
  have hlen : r < w.r_info.length := by
    by_contra hc
    rw [List.getD_eq_default _ _ (by omega)] at huniq
    simp [rf_has] at huniq
  have hfield : (w'.r_info.getD r {}).max_num = 0 ∧
      (w'.r_info.getD r {}).flags = (w.r_info.getD r {}).flags := by
    rw [hr', getD_race_update]
    by_cases hc : r = r' ∧ r' < (race_update w.r_info r
        (fun race => { race with max_num := 0 })).length
    · rw [if_pos hc, ← hc.1, getD_race_update, if_pos ⟨rfl, hlen⟩]
      exact ⟨rfl, rfl⟩
    · rw [if_neg hc, getD_race_update, if_pos ⟨rfl, hlen⟩]
      exact ⟨rfl, rfl⟩
  refine ⟨hfield.1, by rw [hfield.2]; exact huniq, ?_, ?_⟩
  · intro env table level dr t' hu hmax hcur hret
    obtain ⟨e, _, hidx, _, hacc, _⟩ := get_mon_num_some env table level dr r t' hret
    have := (mon_accept_true env _ e hacc).2.2.1
    rw [hidx] at this
    exact this ⟨hu, by omega⟩
  · intro w2 y x sleep origin te bc pd hu hmax hcur hin
    unfold place_new_monster_one
    rw [if_neg (by simp [hin])]
    have hcap : rf_has (w2.r_info.getD r {}).flags race_flag.UNIQUE = true ∧
        (w2.r_info.getD r {}).cur_num ≥ (w2.r_info.getD r {}).max_num := ⟨hu, by omega⟩
    by_cases h1 : square_monster w2 y x = true
    · rw [if_pos h1]
    · rw [if_neg h1]
      by_cases h2 : w2.py = y ∧ w2.px = x
      · rw [if_pos h2]
      · rw [if_neg h2]
        by_cases h3 : w2.walkable y x = false
        · rw [if_pos h3]
        · rw [if_neg h3]
          by_cases h4 : w2.warded y x = true
          · rw [if_pos h4]
          · rw [if_neg h4, if_pos hcap]

theorem unique_kill_is_permanent_witness :
    (demo_world.monsters 1).race = some 3 ∧
    rf_has (demo_world.r_info.getD 3 {}).flags race_flag.UNIQUE = true ∧
    mon_take_hit demo_world 1 10 false {} = .ok (true, false, demo_world_after) ∧
    (demo_world_after.r_info.getD 3 {}).max_num = 0 :=
  ⟨rfl, rfl, rfl,
    (unique_kill_is_permanent demo_world demo_world_after 1 10 false false {} 3
      rfl rfl rfl).1⟩

/-! ## Properties of deletion, compaction and wipe -/

theorem release_held_false (objs : List object) (cr : Nat → Bool) (a : Nat)
    (h : cr a = false) : release_held cr objs a = false := by
  induction objs generalizing cr with
  | nil => exact h
  | cons obj next ih =>
    unfold release_held
    cases hart : obj.artifact with
    | none => exact ih cr h
    | some b =>
      simp only
      by_cases hs : obj.sensed = false
      · rw [if_pos hs]
        apply ih
        unfold created_set
        by_cases hab : a = b
        · rw [if_pos hab]
        · rw [if_neg hab]; exact h
      · rw [if_neg hs]; exact ih cr h

theorem release_held_unsensed (objs : List object) (cr : Nat → Bool) (a : Nat)
    (h : holds_unsensed objs a) : release_held cr objs a = false := by
  induction objs generalizing cr with
  | nil => obtain ⟨obj, hmem, _⟩ := h; simp at hmem
  | cons obj next ih =>
    obtain ⟨o, hmem, hart, hsens⟩ := h
    unfold release_held
    rcases List.mem_cons.mp hmem with rfl | hnext
    · rw [hart]
      simp only
      rw [if_pos hsens]
      apply release_held_false
      unfold created_set
      rw [if_pos rfl]
    · have hn : holds_unsensed next a := ⟨o, hnext, hart, hsens⟩
      cases hart2 : obj.artifact with
      | none => exact ih cr hn
      | some b =>
        simp only
        by_cases hs : obj.sensed = false
        · rw [if_pos hs]; exact ih _ hn
        · rw [if_neg hs]; exact ih _ hn

theorem release_held_kept (objs : List object) (cr : Nat → Bool) (a : Nat)
    (h : ¬ holds_unsensed objs a) : release_held cr objs a = cr a := by
  induction objs generalizing cr with
  | nil => rfl
  | cons obj next ih =>
    have hn : ¬ holds_unsensed next a := by
      rintro ⟨o, hmem, hart, hsens⟩
      exact h ⟨o, List.mem_cons_of_mem _ hmem, hart, hsens⟩
    unfold release_held
    cases hart : obj.artifact with
    | none => exact ih cr hn
    | some b =>
      simp only
      by_cases hs : obj.sensed = false
      · rw [if_pos hs, ih _ hn]
        unfold created_set
        have hab : ¬ a = b := by
          intro hab
          exact h ⟨obj, List.mem_cons_self _ _, by rw [hart, hab], hs⟩
        rw [if_neg hab]
      · rw [if_neg hs]; exact ih cr hn

theorem delete_monster_idx_ok (w : world) (m_idx : Int) (r : Nat)
    (hpos : m_idx > 0)
    (hlive : (w.monsters m_idx.toNat).race = some r)
    (hin : square_in_bounds w (w.monsters m_idx.toNat).fy (w.monsters m_idx.toNat).fx = true) :
    delete_monster_idx w m_idx = .ok { w with
        r_info := race_update w.r_info r (fun race => { race with cur_num := race.cur_num - 1 })
        num_repro :=
          if rf_has (w.r_info.getD r {}).flags race_flag.MULTIPLY = true
          then s16b (w.num_repro - 1) else w.num_repro
        target := if w.target = some m_idx.toNat then none else w.target
        health_who := if w.health_who = some m_idx.toNat then none else w.health_who
        squares_mon :=
          grid_set w.squares_mon (w.monsters m_idx.toNat).fy (w.monsters m_idx.toNat).fx 0
        created := release_held w.created (w.monsters m_idx.toNat).held_obj
        monsters := slot_set w.monsters m_idx.toNat {}
        mon_cnt := w.mon_cnt - 1 } := by
  unfold delete_monster_idx
  rw [if_neg (by omega), if_neg (by simp [hin]), hlive]

/-- C11: for a live slot `m_idx > 0` whose monster stands inside the grid,
`delete_monster_idx(m_idx)` returns, and afterwards the grid cell of the
monster holds 0, the slot is zeroed (no race, no carried items), `cur_num` of
its race and `mon_cnt` are one less, `num_repro` is one less if and only if
the race has the MULTIPLY flag (and is unchanged otherwise), and the target
and the tracked monster are cleared if they were this monster and unchanged
otherwise. -/
theorem delete_monster_idx_spec (w : world) (m_idx : Int) (r : Nat)
    (hpos : m_idx > 0)
    (hlive : (w.monsters m_idx.toNat).race = some r)
    (hin : square_in_bounds w (w.monsters m_idx.toNat).fy (w.monsters m_idx.toNat).fx = true)
    (hr : r < w.r_info.length)
    (hrepro : -32768 < w.num_repro ∧ w.num_repro ≤ 32767) :
    ∃ w', delete_monster_idx w m_idx = .ok w' ∧
      w'.squares_mon (w.monsters m_idx.toNat).fy (w.monsters m_idx.toNat).fx = 0 ∧
      w'.monsters m_idx.toNat = {} ∧
      (w'.monsters m_idx.toNat).race = none ∧
      (w'.monsters m_idx.toNat).held_obj = [] ∧
      (w'.r_info.getD r {}).cur_num = (w.r_info.getD r {}).cur_num - 1 ∧
      w'.mon_cnt = w.mon_cnt - 1 ∧
      (w'.num_repro = w.num_repro - 1 ↔
        rf_has (w.r_info.getD r {}).flags race_flag.MULTIPLY = true) ∧
      (rf_has (w.r_info.getD r {}).flags race_flag.MULTIPLY = false →
        w'.num_repro = w.num_repro) ∧
      w'.target = (if w.target = some m_idx.toNat then none else w.target) ∧
      w'.health_who = (if w.health_who = some m_idx.toNat then none else w.health_who) := by
  refine ⟨_, delete_monster_idx_ok w m_idx r hpos hlive hin, ?_, ?_, ?_, ?_, ?_, rfl, ?_, ?_,
    rfl, rfl⟩
  · simp [grid_set]
  · simp [slot_set]
  · simp [slot_set]
  · simp [slot_set]
  · simp only
    rw [getD_race_update, if_pos ⟨rfl, hr⟩]
  · simp only
    by_cases hm : rf_has (w.r_info.getD r {}).flags race_flag.MULTIPLY = true
    · rw [if_pos hm, s16b_id _ (by omega) (by omega)]
      exact ⟨fun _ => hm, fun _ => rfl⟩
    · rw [if_neg hm]
      constructor
      · intro h; omega
      · intro h; exact absurd h hm
  · intro hm
    simp only
    rw [if_neg (by rw [hm]; exact Bool.false_ne_true)]

theorem wipe_slot_dead (w : world) (m : Nat) (h : (w.monsters m).race = none) :
    wipe_slot w m = w := by
  unfold wipe_slot; rw [h]

theorem wipe_slot_live (w : world) (m r : Nat) (h : (w.monsters m).race = some r) :
    wipe_slot w m = { w with
      created := release_held w.created (w.monsters m).held_obj
      r_info := race_update w.r_info r (fun race => { race with cur_num := race.cur_num - 1 })
      squares_mon := grid_set w.squares_mon (w.monsters m).fy (w.monsters m).fx 0
      monsters := slot_set w.monsters m {} } := by
  unfold wipe_slot; rw [h]

theorem wipe_slot_monsters_ne (w : world) (m i : Nat) (h : i ≠ m) :
    (wipe_slot w m).monsters i = w.monsters i := by
  cases hr : (w.monsters m).race with
  | none => rw [wipe_slot_dead w m hr]
  | some r => rw [wipe_slot_live w m r hr]; simp [slot_set, h]

theorem wipe_slot_created (w : world) (m : Nat) (a : Nat) :
    (is_live w m = true → holds_unsensed (w.monsters m).held_obj a →
      (wipe_slot w m).created a = false) ∧
    (¬ (is_live w m = true ∧ holds_unsensed (w.monsters m).held_obj a) →
      (wipe_slot w m).created a = w.created a) ∧
    (w.created a = false → (wipe_slot w m).created a = false) := by
  unfold is_live
  cases hr : (w.monsters m).race with
  | none =>
    rw [wipe_slot_dead w m hr]
    exact ⟨fun h => by simp at h, fun _ => rfl, fun h => h⟩
  | some r =>
    rw [wipe_slot_live w m r hr]
    refine ⟨fun _ h => release_held_unsensed _ _ _ h, fun h => ?_,
      fun h => release_held_false _ _ _ h⟩
    exact release_held_kept _ _ _ (fun hu => h ⟨rfl, hu⟩)

theorem wipe_loop_created_false (k : Nat) (w : world) (a : Nat) (h : w.created a = false) :
    (wipe_loop k w).created a = false := by
  induction k generalizing w with
  | zero => exact h
  | succ k ih =>
    unfold wipe_loop
    exact ih _ ((wipe_slot_created w (k + 1) a).2.2 h)

theorem wipe_loop_created (k : Nat) (w : world) (a : Nat) :
    ((∃ i, 1 ≤ i ∧ i ≤ k ∧ is_live w i = true ∧ holds_unsensed (w.monsters i).held_obj a) →
      (wipe_loop k w).created a = false) ∧
    ((¬ ∃ i, 1 ≤ i ∧ i ≤ k ∧ is_live w i = true ∧ holds_unsensed (w.monsters i).held_obj a) →
      (wipe_loop k w).created a = w.created a) := by
  induction k generalizing w with
  | zero =>
    refine ⟨?_, fun _ => rfl⟩
    rintro ⟨i, h1, h2, _⟩
    omega
  | succ k ih =>
    have hsame : ∀ i, i ≤ k → (wipe_slot w (k + 1)).monsters i = w.monsters i :=
      fun i hi => wipe_slot_monsters_ne w (k + 1) i (by omega)
    constructor
    · rintro ⟨i, h1, h2, hl, hu⟩
      unfold wipe_loop
      by_cases hik : i = k + 1
      · subst hik
        exact wipe_loop_created_false k _ a ((wipe_slot_created w (k + 1) a).1 hl hu)
      · apply (ih (wipe_slot w (k + 1))).1
        refine ⟨i, h1, by omega, ?_, ?_⟩
        · unfold is_live at hl ⊢
          rw [hsame i (by omega)]; exact hl
        · rw [hsame i (by omega)]; exact hu
    · intro hno
      unfold wipe_loop
      rw [(ih (wipe_slot w (k + 1))).2 ?_]
      · apply (wipe_slot_created w (k + 1) a).2.1
        rintro ⟨hl, hu⟩
        exact hno ⟨k + 1, by omega, le_refl _, hl, hu⟩
      · rintro ⟨i, h1, h2, hl, hu⟩
        apply hno
        refine ⟨i, h1, by omega, ?_, ?_⟩
        · unfold is_live at hl ⊢
          rw [hsame i h2] at hl; exact hl
        · rw [hsame i h2] at hu; exact hu

/-- C12: releasing the carried items of a deleted monster. After a run of
`delete_monster_idx(m_idx)`, an artifact of which the monster carried an
object that was not sensed is marked as not created, and the marker of every
other artifact (carried and sensed, or not carried by this monster) is
unchanged. After `wipe_mon_list`, an artifact of which some live monster of
the list carried an object that was not sensed is marked as not created, and
the marker of every other artifact is unchanged. -/
theorem carried_artifacts_released (w : world) (a : Nat) :
    (∀ m_idx w', delete_monster_idx w m_idx = .ok w' →
      (holds_unsensed (w.monsters m_idx.toNat).held_obj a → w'.created a = false) ∧
      (¬ holds_unsensed (w.monsters m_idx.toNat).held_obj a → w'.created a = w.created a)) ∧
    ((∃ i, 1 ≤ i ∧ i < w.mon_max ∧ is_live w i = true ∧
        holds_unsensed (w.monsters i).held_obj a) →
      (wipe_mon_list w).created a = false) ∧
    ((¬ ∃ i, 1 ≤ i ∧ i < w.mon_max ∧ is_live w i = true ∧
        holds_unsensed (w.monsters i).held_obj a) →
      (wipe_mon_list w).created a = w.created a) := by
  refine ⟨?_, ?_, ?_⟩
  · intro m_idx w' h
    unfold delete_monster_idx at h
    by_cases h1 : ¬ m_idx > 0
    · rw [if_pos h1] at h; cases h
    · rw [if_neg h1] at h
      by_cases h2 : square_in_bounds w (w.monsters m_idx.toNat).fy
          (w.monsters m_idx.toNat).fx = false
      · rw [if_pos h2] at h; cases h
      · rw [if_neg h2] at h
        cases hr : (w.monsters m_idx.toNat).race with
        | none => rw [hr] at h; cases h
        | some r =>
          rw [hr] at h
          injection h with h
          subst h
          exact ⟨fun hu => release_held_unsensed _ _ _ hu,
            fun hu => release_held_kept _ _ _ hu⟩
  · rintro ⟨i, h1, h2, hl, hu⟩
    exact (wipe_loop_created (w.mon_max - 1) w a).1 ⟨i, h1, by omega, hl, hu⟩
  · intro hno
    apply (wipe_loop_created (w.mon_max - 1) w a).2
    rintro ⟨i, h1, h2, hl, hu⟩
    exact hno ⟨i, h1, by omega, hl, hu⟩

theorem carried_artifacts_released_witness :
    (wipe_mon_list demo_carrier).created 7 = false ∧
    (wipe_mon_list demo_carrier).created 8 = demo_carrier.created 8 ∧
    demo_carrier.created 7 = true ∧ demo_carrier.created 8 = true :=
  ⟨(carried_artifacts_released demo_carrier 7).2.1
      ⟨1, by decide, by decide, rfl, { artifact := some 7, held_m_idx := 1 },
        by decide, rfl, rfl⟩,
    (carried_artifacts_released demo_carrier 8).2.2 (by
      rintro ⟨i, h1, h2, _, obj, hmem, hart, hsens⟩
      have hi : i = 1 := by
        have : i < 2 := h2
        omega
      subst hi
      have hmem2 : obj ∈ [({ artifact := some 7, held_m_idx := 1 } : object),
          { artifact := some 8, sensed := true, held_m_idx := 1 }] := hmem
      simp only [List.mem_cons, List.mem_singleton, List.not_mem_nil, or_false] at hmem2
      rcases hmem2 with rfl | rfl
      · cases hart
      · cases hsens),
    rfl, rfl⟩

theorem delete_monster_idx_spec_witness :
    (demo_world.monsters 1).race = some 3 ∧
    ∃ w', delete_monster_idx demo_world 1 = .ok w' ∧ w'.squares_mon 1 1 = 0 ∧
      (w'.monsters 1).race = none ∧ w'.mon_cnt = 0 ∧
      (w'.r_info.getD 3 {}).cur_num = 0 :=
  ⟨rfl, by
    obtain ⟨w', h, hg, _, hrace, _, hcur, hcnt, _⟩ :=
      delete_monster_idx_spec demo_world 1 3 (by decide) rfl rfl (by decide)
        ⟨by decide, by decide⟩
    exact ⟨w', h, hg, hrace, hcnt, hcur⟩⟩

theorem race_update_length (r_info : List monster_race) (r : Nat)
    (f : monster_race → monster_race) : (race_update r_info r f).length = r_info.length := by
  unfold race_update; simp

theorem wipe_slot_valid (w : world) (m : Nat) (h : races_valid w) :
    races_valid (wipe_slot w m) := by
  intro i r hr
  cases hm : (w.monsters m).race with
  | none => rw [wipe_slot_dead w m hm] at hr ⊢; exact h i r hr
  | some r0 =>
    rw [wipe_slot_live w m r0 hm] at hr ⊢
    simp only [race_update_length]
    by_cases him : i = m
    · subst him; simp [slot_set] at hr
    · simp only [slot_set, if_neg him] at hr
      exact h i r hr

theorem wipe_loop_monsters (k : Nat) (w : world) (i : Nat) :
    (wipe_loop k w).monsters i =
      if 1 ≤ i ∧ i ≤ k ∧ is_live w i = true then {} else w.monsters i := by
  induction k generalizing w with
  | zero =>
    rw [if_neg (by omega)]; rfl
  | succ k ih =>
    unfold wipe_loop
    rw [ih]
    by_cases hik : i = k + 1
    · subst hik
      rw [if_neg (by omega)]
      unfold is_live
      cases hm : (w.monsters (k + 1)).race with
      | none => rw [wipe_slot_dead w _ hm]; simp
      | some r => rw [wipe_slot_live w _ r hm]; simp [slot_set]
    · unfold is_live
      rw [wipe_slot_monsters_ne w (k + 1) i hik]
      by_cases hc : 1 ≤ i ∧ i ≤ k ∧ (w.monsters i).race.isSome = true
      · rw [if_pos hc, if_pos ⟨hc.1, by omega, hc.2.2⟩]
      · rw [if_neg hc, if_neg (fun h => hc ⟨h.1, by omega, h.2.2⟩)]

theorem wipe_slot_grid_zero (w : world) (m : Nat) (y x : Int) (h : w.squares_mon y x = 0) :
    (wipe_slot w m).squares_mon y x = 0 := by
  cases hm : (w.monsters m).race with
  | none => rw [wipe_slot_dead w m hm]; exact h
  | some r =>
    rw [wipe_slot_live w m r hm]
    simp only [grid_set]
    split
    · rfl
    · exact h

theorem wipe_loop_grid_zero (k : Nat) (w : world) (y x : Int) (h : w.squares_mon y x = 0) :
    (wipe_loop k w).squares_mon y x = 0 := by
  induction k generalizing w with
  | zero => exact h
  | succ k ih =>
    unfold wipe_loop
    exact ih _ (wipe_slot_grid_zero w (k + 1) y x h)

theorem wipe_loop_grid (k : Nat) (w : world) (i : Nat) (h1 : 1 ≤ i) (h2 : i ≤ k)
    (hl : is_live w i = true) :
    (wipe_loop k w).squares_mon (w.monsters i).fy (w.monsters i).fx = 0 := by
  induction k generalizing w with
  | zero => omega
  | succ k ih =>
    unfold wipe_loop
    by_cases hik : i = k + 1
    · subst hik
      apply wipe_loop_grid_zero
      unfold is_live at hl
      cases hm : (w.monsters (k + 1)).race with
      | none => rw [hm] at hl; cases hl
      | some r => rw [wipe_slot_live w _ r hm]; simp [grid_set]
    · have hs := wipe_slot_monsters_ne w (k + 1) i hik
      have := ih (wipe_slot w (k + 1)) (by omega) (by unfold is_live at hl ⊢; rw [hs]; exact hl)
      rw [hs] at this
      exact this

theorem wipe_slot_cur_num (w : world) (m r : Nat) (hv : races_valid w) :
    ((wipe_slot w m).r_info.getD r {}).cur_num =
      (w.r_info.getD r {}).cur_num -
        (if (w.monsters m).race = some r then 1 else 0) := by
  cases hm : (w.monsters m).race with
  | none => rw [wipe_slot_dead w m hm]; simp
  | some r0 =>
    rw [wipe_slot_live w m r0 hm]
    simp only
    rw [getD_race_update]
    by_cases hr : r = r0
    · subst hr
      rw [if_pos ⟨rfl, hv m r hm⟩, if_pos rfl]
    · rw [if_neg (fun h => hr h.1), if_neg (by simpa using fun h => hr h.symm)]
      simp

theorem wipe_loop_cur_num (k : Nat) (w : world) (r : Nat) (hv : races_valid w) :
    ((wipe_loop k w).r_info.getD r {}).cur_num =
      (w.r_info.getD r {}).cur_num -
        ((List.range' 1 k).countP (fun i => decide ((w.monsters i).race = some r)) : Nat) := by
  induction k generalizing w with
  | zero => simp [wipe_loop]
  | succ k ih =>
    unfold wipe_loop
    rw [ih _ (wipe_slot_valid w (k + 1) hv), wipe_slot_cur_num w (k + 1) r hv,
      List.range'_1_concat, List.countP_append]
    have hc : (List.range' 1 k).countP
          (fun i => decide (((wipe_slot w (k + 1)).monsters i).race = some r)) =
        (List.range' 1 k).countP (fun i => decide ((w.monsters i).race = some r)) := by
      apply List.countP_congr
      intro i hi
      rw [List.mem_range'_1] at hi
      rw [wipe_slot_monsters_ne w (k + 1) i (by omega)]
    rw [hc]
    by_cases hm : (w.monsters (1 + k)).race = some r
    · have hm2 : (w.monsters (k + 1)).race = some r := by rw [Nat.add_comm]; exact hm
      simp [List.countP_cons, hm, hm2]
      omega
    · have hm2 : ¬ (w.monsters (k + 1)).race = some r := by rw [Nat.add_comm]; exact hm
      simp [List.countP_cons, hm, hm2]

/-- C16: after `wipe_mon_list` on a chunk whose monster list agrees with the
grid (and whose race pointers are valid), every slot is empty (the slots that
held a monster are zeroed), `mon_cnt` is 0, `mon_max` is 1, `num_repro` is 0,
the target and the tracked monster are none, the grid cell of every formerly
live monster holds 0, and `cur_num` of every race has decreased by exactly the
number of monsters of that race that were live in the chunk. -/
theorem wipe_mon_list_spec (w : world) (hgrid : slots_on_grid w) (hvalid : races_valid w) :
    (∀ i, ((wipe_mon_list w).monsters i).race = none) ∧
    (∀ i, is_live w i = true → (wipe_mon_list w).monsters i = {}) ∧
    (wipe_mon_list w).mon_cnt = 0 ∧
    (wipe_mon_list w).mon_max = 1 ∧
    (wipe_mon_list w).num_repro = 0 ∧
    (wipe_mon_list w).target = none ∧
    (wipe_mon_list w).health_who = none ∧
    (∀ i, is_live w i = true →
      (wipe_mon_list w).squares_mon (w.monsters i).fy (w.monsters i).fx = 0) ∧
    (∀ r, ((wipe_mon_list w).r_info.getD r {}).cur_num =
      (w.r_info.getD r {}).cur_num - (live_of_race w r : Nat)) := by
  have hmon : ∀ i, (wipe_mon_list w).monsters i =
      if 1 ≤ i ∧ i ≤ w.mon_max - 1 ∧ is_live w i = true then {} else w.monsters i :=
    fun i => wipe_loop_monsters (w.mon_max - 1) w i
  refine ⟨?_, ?_, rfl, rfl, rfl, rfl, rfl, ?_, ?_⟩
  · intro i
    rw [hmon]
    by_cases hl : is_live w i = true
    · obtain ⟨h1, h2, _⟩ := hgrid i hl
      rw [if_pos ⟨h1, by omega, hl⟩]
    · rw [if_neg (fun h => hl h.2.2)]
      unfold is_live at hl
      cases hr : (w.monsters i).race with
      | none => rfl
      | some r => rw [hr] at hl; exact absurd rfl hl
  · intro i hl
    obtain ⟨h1, h2, _⟩ := hgrid i hl
    rw [hmon, if_pos ⟨h1, by omega, hl⟩]
  · intro i hl
    obtain ⟨h1, h2, _⟩ := hgrid i hl
    exact wipe_loop_grid (w.mon_max - 1) w i h1 (by omega) hl
  · intro r
    exact wipe_loop_cur_num (w.mon_max - 1) w r hvalid

theorem demo_world_on_grid : slots_on_grid demo_world := by
  intro i hl
  by_cases hi : i = 1
  · subst hi; exact ⟨by decide, by decide, rfl, rfl⟩
  · have : is_live demo_world i = false := by
      unfold is_live demo_world
      simp [hi]
    rw [this] at hl; cases hl

theorem demo_world_valid : races_valid demo_world := by
  intro i r hr
  by_cases hi : i = 1
  · subst hi
    have : r = 3 := by
      have h3 : (demo_world.monsters 1).race = some 3 := rfl
      rw [h3] at hr; injection hr with hr; exact hr.symm
    subst this; decide
  · have : (demo_world.monsters i).race = none := by
      unfold demo_world
      simp [hi]
    rw [this] at hr; cases hr

theorem wipe_mon_list_spec_witness :
    slots_on_grid demo_world ∧ races_valid demo_world ∧
    (wipe_mon_list demo_world).mon_max = 1 ∧
    (wipe_mon_list demo_world).squares_mon 1 1 = 0 ∧
    ((wipe_mon_list demo_world).r_info.getD 3 {}).cur_num =
      (demo_world.r_info.getD 3 {}).cur_num - (live_of_race demo_world 3 : Nat) ∧
    live_of_race demo_world 3 = 1 :=
  ⟨demo_world_on_grid, demo_world_valid,
    (wipe_mon_list_spec demo_world demo_world_on_grid demo_world_valid).2.2.2.1,
    (wipe_mon_list_spec demo_world demo_world_on_grid demo_world_valid).2.2.2.2.2.2.2.1 1 rfl,
    (wipe_mon_list_spec demo_world demo_world_on_grid demo_world_valid).2.2.2.2.2.2.2.2 3,
    by decide⟩

theorem foldlM_fixed {σ α : Type} (f : σ → α → Except fault σ) (l : List α) (s : σ)
    (h : ∀ a ∈ l, f s a = .ok s) : l.foldlM f s = .ok s := by
  induction l with
  | nil => rfl
  | cons a l ih =>
    rw [List.foldlM_cons, h a (List.mem_cons_self _ _)]
    exact ih (fun b hb => h b (List.mem_cons_of_mem _ hb))

theorem compact_pass_no_live (iter : Int) (draws : Nat → Nat) (w : world) (c : Int)
    (h : ∀ i, 1 ≤ i → i < w.mon_max → (w.monsters i).race = none) :
    compact_pass iter draws w c = .ok (w, c) := by
  unfold compact_pass
  apply foldlM_fixed
  intro i hi
  rw [List.mem_range'_1] at hi
  unfold compact_visit
  simp only
  rw [h i hi.1 (by omega)]

theorem compact_passes_no_live (draws : Nat → Nat → Nat) (n : Int) (fuel iter : Nat)
    (w : world) (c : Int) (hc : c < n)
    (h : ∀ i, 1 ≤ i → i < w.mon_max → (w.monsters i).race = none) :
    compact_passes draws n fuel iter w c = none := by
  induction fuel generalizing iter with
  | zero => unfold compact_passes; rw [if_pos hc]
  | succ fuel ih =>
    unfold compact_passes
    rw [if_pos hc, compact_pass_no_live _ _ w c h]
    exact ih (iter + 1)

theorem compact_passes_done (draws : Nat → Nat → Nat) (n : Int) (fuel iter : Nat)
    (w : world) (c : Int) (hc : n ≤ c) :
    compact_passes draws n fuel iter w c = some (.ok (w, c)) := by
  cases fuel with
  | zero => unfold compact_passes; rw [if_neg (by omega)]
  | succ fuel => unfold compact_passes; rw [if_neg (by omega)]

theorem compact_passes_count (draws : Nat → Nat → Nat) (n : Int) (fuel iter : Nat)
    (w : world) (c : Int) (st : world × Int)
    (h : compact_passes draws n fuel iter w c = some (.ok st)) : n ≤ st.2 := by
  induction fuel generalizing iter w c with
  | zero =>
    unfold compact_passes at h
    by_cases hc : c < n
    · rw [if_pos hc] at h; cases h
    · rw [if_neg hc] at h
      injection h with h; injection h with h
      subst h; simp only; omega
  | succ fuel ih =>
    unfold compact_passes at h
    by_cases hc : c < n
    · rw [if_pos hc] at h
      cases hp : compact_pass iter (draws iter) w c with
      | error e => rw [hp] at h; cases h
      | ok st1 => rw [hp] at h; exact ih _ _ _ h
    · rw [if_neg hc] at h
      injection h with h; injection h with h
      subst h; simp only; omega

theorem compact_monsters_zero (fuel : Nat) (w : world) (n : Int) (hn : n ≤ 0)
    (draws : Nat → Nat → Nat) :
    compact_monsters fuel w n draws = some (.ok
      (excise_dead ((if n ≠ 0 then { w with msgs := w.msgs ++ ["Compacting monsters..."] }
          else w).mon_max - 1)
        (if n ≠ 0 then { w with msgs := w.msgs ++ ["Compacting monsters..."] } else w))) := by
  unfold compact_monsters
  rw [compact_passes_done draws n fuel 1 _ 0 hn]

/-- C14 (counterexample): on a chunk without any monster, the deletion passes
of `compact_monsters(1)` never end, whatever the number of passes allowed. -/
theorem compact_monsters_never_ends :
    ¬ ∃ fuel, (compact_monsters fuel {} 1 (fun _ _ => 0)).isSome = true := by
  rintro ⟨fuel, h⟩
  unfold compact_monsters at h
  rw [compact_passes_no_live _ 1 fuel 1 _ 0 (by decide) (fun i _ _ => rfl)] at h
  cases h

theorem compact_chance_eq (flags : List race_flag) (iter : Int) :
    compact_chance flags iter =
      if rf_has flags race_flag.UNIQUE = true then 99
      else if rf_has flags race_flag.QUESTOR = true ∧ iter < 1000 then 100 else 90 := by
  unfold compact_chance
  simp only

/-- C15: the saving throw of `compact_monsters` is 99 for every unique, quest
monster or not, because the test for UNIQUE comes after the test for QUESTOR
and overwrites its 100; it is 100 for a quest monster that is not a unique
(before pass 1000) and 90 otherwise. The monster of `demo_quest`, a quest
unique, is deleted by `compact_monsters(1)` in pass 1 when the draw is 99. -/
theorem compact_monsters_quest_unique :
    (∀ flags iter, compact_chance flags iter =
      if rf_has flags race_flag.UNIQUE = true then 99
      else if rf_has flags race_flag.QUESTOR = true ∧ iter < 1000 then 100 else 90) ∧
    (demo_quest.monsters 1).race = some 3 ∧
    rf_has (demo_quest.r_info.getD 3 {}).flags race_flag.QUESTOR = true ∧
    compact_chance (demo_quest.r_info.getD 3 {}).flags 1 = 99 ∧
    (compact_monsters 1 demo_quest 1 (fun _ _ => 99)).isSome = true ∧
    (demo_quest_after.monsters 1).race = none ∧
    demo_quest_after.mon_cnt = 0 ∧
    demo_quest_after.mon_max = 1 ∧
    demo_quest_after.squares_mon 1 1 = 0 :=
  ⟨compact_chance_eq, rfl, rfl, rfl, rfl, rfl, rfl, rfl, rfl⟩

/-- C19: when the monster list is full, `place_new_monster_one` returns FALSE
but the level feeling has already been raised: on `demo_full` (capacity 2,
one live monster) the call for race 1 (power 40) at the free cell `(0, 1)`
fails and leaves `mon_rating` at 2 instead of 0, the monsters, the grid and
the counters being unchanged. -/
theorem place_new_monster_one_full_rating :
    (mon_pop demo_full).1 = 0 ∧
    (place_new_monster_one demo_full 0 1 1 false 0 (fun _ => 0) 16 {}).toOption.map Prod.fst
      = some false ∧
    demo_full.mon_rating = 0 ∧
    demo_full_after.mon_rating = 2 ∧
    demo_full_after.mon_cnt = demo_full.mon_cnt ∧
    demo_full_after.mon_max = demo_full.mon_max :=
  ⟨rfl, rfl, rfl, rfl, rfl, rfl⟩

/-! ## Properties of placement -/

theorem try_carry_items (st st' : monster × (Nat → Bool) × Bool) (obj : object) (carry : Bool)
    (h : try_carry st obj carry = .ok st') : without_items st'.1 = without_items st.1 := by
  unfold try_carry at h
  by_cases hc : carry = true
  · rw [if_pos hc] at h
    injection h with h
    subst h; rfl
  · rw [if_neg hc] at h
    cases ha : obj.artifact with
    | none => rw [ha] at h; cases h
    | some a =>
      rw [ha] at h
      injection h with h
      subst h; rfl

theorem specified_drops_items (race : monster_race) (origin : Nat) (depth : Int)
    (drops : List monster_drop) (ds : List spec_draw) (st st' : monster × (Nat → Bool) × Bool)
    (h : specified_drops race origin depth drops ds st = .ok st') :
    without_items st'.1 = without_items st.1 := by
  induction drops generalizing ds st with
  | nil =>
    unfold specified_drops at h
    injection h with h
    subst h; rfl
  | cons drop next ih =>
    unfold specified_drops at h
    split at h
    · exact ih _ _ h
    · split at h
      · cases h
      · rename_i st1 hst1
        rw [ih _ _ h]
        have hc := try_carry_items _ _ _ _ hst1
        exact hc

theorem random_drops_items (race : monster_race) (origin : Nat) (depth : Int)
    (number : Nat) (ds : List rand_draw) (st st' : monster × (Nat → Bool) × Bool)
    (h : random_drops race origin depth number ds st = .ok st') :
    without_items st'.1 = without_items st.1 := by
  induction number generalizing ds st with
  | zero =>
    unfold random_drops at h
    injection h with h
    subst h; rfl
  | succ number ih =>
    unfold random_drops at h
    split at h
    · split at h
      · cases h
      · rename_i st1 hst1
        rw [ih _ _ h]
        exact try_carry_items _ _ _ _ hst1
    · split at h
      · exact ih _ _ h
      · split at h
        · cases h
        · rename_i st1 hst1
          rw [ih _ _ h]
          exact try_carry_items _ _ _ _ hst1

theorem mon_create_drop_shape (w : world) (m : Nat) (origin : Nat) (d : drop_draws)
    (res : Bool × world) (h : mon_create_drop w m origin d = .ok res) :
    ∃ mon' cr', res.2 = { w with monsters := slot_set w.monsters m mon', created := cr' } ∧
      without_items mon' = without_items (w.monsters m) := by
  unfold mon_create_drop at h
  cases hr : (w.monsters m).race with
  | none => rw [hr] at h; cases h
  | some r =>
    rw [hr] at h
    simp only at h
    split at h
    · cases h
    · rename_i st hst
      split at h
      · cases h
      · rename_i st1 hst1
        injection h with h
        subst h
        refine ⟨st1.1, st1.2.1, rfl, ?_⟩
        rw [random_drops_items _ _ _ _ _ _ _ hst1]
        exact specified_drops_items _ _ _ _ _ _ _ hst

theorem start_mimic_shape (w : world) (m_idx : Int) (d : place_draws) :
    ∃ mon', start_mimic w m_idx d = { w with monsters := slot_set w.monsters m_idx.toNat mon' } ∧
      without_items mon' = without_items (w.monsters m_idx.toNat) := by
  unfold start_mimic
  simp only
  by_cases hf : d.floor_carry = true
  · rw [if_pos hf]; exact ⟨_, rfl, rfl⟩
  · rw [if_neg hf]
    split
    · exact ⟨_, rfl, rfl⟩
    · exact ⟨_, rfl, rfl⟩

theorem slot_set_twice (f : Nat → monster) (i : Nat) (a b : monster) :
    slot_set (slot_set f i a) i b = slot_set f i b := by
  funext j
  unfold slot_set
  by_cases h : j = i
  · rw [if_pos h, if_pos h]
  · rw [if_neg h, if_neg h, if_neg h]

theorem slot_set_same (f : Nat → monster) (i : Nat) (a : monster) :
    slot_set f i a i = a := by
  unfold slot_set; rw [if_pos rfl]

theorem place_monster_shape (w w' : world) (y x : Int) (mon : monster) (origin : Nat)
    (d : place_draws) (m : Int)
    (h : place_monster w y x mon origin d = .ok (m, w')) (hm : m ≠ 0) :
    square_in_bounds w y x = true ∧ square_monster w y x = false ∧
    m = (mon_pop w).1 ∧
    ∃ r mon' cr', mon.race = some r ∧
      w' = { (mon_pop w).2 with
        monsters := slot_set (mon_pop w).2.monsters m.toNat mon'
        squares_mon := grid_set (mon_pop w).2.squares_mon y x m
        num_repro :=
          if rf_has (w.r_info.getD r {}).flags race_flag.MULTIPLY = true
          then s16b (w.num_repro + 1) else w.num_repro
        r_info := race_update w.r_info r
          (fun race => { race with cur_num := race.cur_num + 1 })
        created := cr' } ∧
      without_items mon' = without_items
        { mon with midx := m, fy := y, fx := x, cdis := d.cdis, visible := d.visible } := by
  unfold place_monster at h
  by_cases h1 : square_in_bounds w y x = false
  · rw [if_pos h1] at h; cases h
  rw [if_neg h1] at h
  by_cases h2 : square_monster w y x = true
  · rw [if_pos h2] at h; cases h
  rw [if_neg h2] at h
  by_cases h3 : (mon_pop w).1 = 0
  · rw [if_pos h3] at h
    injection h with h
    injection h with h _
    exact absurd h.symm hm
  rw [if_neg h3] at h
  refine ⟨by simpa using h1, by simpa using h2, ?_⟩
  cases hr : mon.race with
  | none => rw [hr] at h; cases h
  | some r =>
    rw [hr] at h
    simp only at h
    by_cases ho : origin = 0
    · rw [if_pos ho] at h
      injection h with h
      injection h with hm1 hw
      subst hm1
      exact ⟨rfl, r, _, (mon_pop w).2.created, rfl, hw.symm, rfl⟩
    · rw [if_neg ho] at h
      split at h
      · cases h
      · rename_i res hres
        obtain ⟨mon1, cr1, hres2, hcore⟩ := mon_create_drop_shape _ _ _ _ _ hres
        simp only [slot_set_twice, slot_set_same] at hres2 hcore
        split at h
        · injection h with h
          injection h with hm1 hw
          subst hm1
          refine ⟨rfl, r, mon1, cr1, rfl, ?_, hcore⟩
          rw [← hw, hres2]
        · injection h with h
          injection h with hm1 hw
          subst hm1
          obtain ⟨mon2, hsm, hcore2⟩ := start_mimic_shape res.2 (mon_pop w).1 d
          rw [hres2] at hcore2
          simp only [slot_set_same] at hcore2
          refine ⟨rfl, r, mon2, cr1, rfl, ?_, hcore2.trans hcore⟩
          rw [← hw, hsm, hres2]
          simp only [slot_set_twice]

theorem mon_pop_shape (w : world) :
    ∃ mm mc ms, (mon_pop w).2 = { w with mon_max := mm, mon_cnt := mc, msgs := ms } ∧
      ((mon_pop w).1 ≠ 0 → mc = w.mon_cnt + 1) ∧
      ((mon_pop w).1 = 0 → 1 ≤ w.mon_max → w.mon_max ≤ 32767 →
        mm = w.mon_max ∧ mc = w.mon_cnt) ∧
      ((mon_pop w).1 ≠ 0 → w.mon_max ≤ 32767 → (mon_pop w).1 > 0) := by
  unfold mon_pop
  by_cases h1 : w.mon_max < w.level_monster_max
  · rw [if_pos h1]
    refine ⟨_, _, w.msgs, rfl, fun _ => rfl, ?_, ?_⟩
    · intro h0 hlo hhi
      simp only at h0
      rw [s16b_id _ (by omega) (by omega)] at h0
      omega
    · intro h0 hhi
      simp only at h0 ⊢
      rw [s16b_id _ (by omega) (by omega)] at h0 ⊢
      omega
  · rw [if_neg h1]
    cases hf : (List.range' 1 (w.mon_max - 1)).find?
        (fun m_idx => (w.monsters m_idx).race.isNone) with
    | some i =>
      have hmem := List.mem_of_find?_eq_some hf
      rw [List.mem_range'_1] at hmem
      refine ⟨w.mon_max, _, w.msgs, rfl, fun _ => rfl, ?_, ?_⟩
      · intro h0 hlo hhi
        simp only at h0
        rw [s16b_id _ (by omega) (by omega)] at h0
        omega
      · intro h0 hhi
        simp only at h0 ⊢
        rw [s16b_id _ (by omega) (by omega)]
        omega
    | none =>
      simp only
      by_cases hc : w.character_dungeon = true
      · rw [if_pos hc]
        exact ⟨w.mon_max, w.mon_cnt, _, rfl, fun h => absurd rfl h,
          fun _ _ _ => ⟨rfl, rfl⟩, fun h => absurd rfl h⟩
      · rw [if_neg hc]
        exact ⟨w.mon_max, w.mon_cnt, w.msgs, rfl, fun h => absurd rfl h,
          fun _ _ _ => ⟨rfl, rfl⟩, fun h => absurd rfl h⟩

theorem place_monster_placed (w w' : world) (y x : Int) (mon : monster) (origin : Nat)
    (d : place_draws) (m : Int) (r : Nat)
    (hr : r < w.r_info.length)
    (hrepro : -32768 ≤ w.num_repro + 1 ∧ w.num_repro + 1 ≤ 32767)
    (hrace : mon.race = some r)
    (h : place_monster w y x mon origin d = .ok (m, w')) (hm : m ≠ 0) :
    placed w w' y x r m := by
  obtain ⟨_, _, hpop, r', mon', cr', hrace', hw, hcore⟩ :=
    place_monster_shape w w' y x mon origin d m h hm
  rw [hrace] at hrace'
  injection hrace' with hrr
  subst hrr
  obtain ⟨mm, mc, ms, hshape, hcnt, _, _⟩ := mon_pop_shape w
  rw [hshape] at hw
  have hmc : mc = w.mon_cnt + 1 := hcnt (by rw [← hpop]; exact hm)
  subst hw
  refine ⟨?_, ?_, ?_, ?_, ?_, ?_, hmc, ?_, ?_, ?_⟩
  · simp [grid_set]
  · have := congrArg monster.race hcore
    simp only [slot_set_same]
    exact this.trans hrace
  · have := congrArg monster.fy hcore
    simp only [slot_set_same]
    exact this
  · have := congrArg monster.fx hcore
    simp only [slot_set_same]
    exact this
  · have := congrArg monster.midx hcore
    simp only [slot_set_same]
    exact this
  · simp only
    rw [getD_race_update, if_pos ⟨rfl, hr⟩]
  · simp only
    by_cases hmul : rf_has (w.r_info.getD r {}).flags race_flag.MULTIPLY = true
    · rw [if_pos hmul, if_pos hmul, s16b_id _ hrepro.1 hrepro.2]
    · rw [if_neg hmul, if_neg hmul]
  · intro j hj
    simp only [slot_set, if_neg hj]
  · intro y' x' hyx
    simp only [grid_set, if_neg hyx]

theorem place_new_monster_one_true (w w' : world) (y x : Int) (r : Nat) (sleep : Bool)
    (origin : Nat) (turn_energy : Int → Int) (basic_colors : Int) (d : place_draws)
    (h : place_new_monster_one w y x r sleep origin turn_energy basic_colors d
      = .ok (true, w')) :
    ∃ m, m ≠ 0 ∧ place_monster
        (rated w r)
        y x (new_monster_body r (w.r_info.getD r {}) sleep turn_energy basic_colors d)
        origin d = .ok (m, w') := by
  unfold place_new_monster_one at h
  split at h
  · cases h
  split at h
  · injection h with h; injection h with hb _; cases hb
  split at h
  · injection h with h; injection h with hb _; cases hb
  split at h
  · injection h with h; injection h with hb _; cases hb
  split at h
  · injection h with h; injection h with hb _; cases hb
  split at h
  · injection h with h; injection h with hb _; cases hb
  split at h
  · injection h with h; injection h with hb _; cases hb
  split at h
  · cases h
  · rename_i res hres
    by_cases h0 : res.1 = 0
    · rw [if_pos h0] at h
      injection h with h; injection h with hb _; cases hb
    · rw [if_neg h0] at h
      injection h with h; injection h with _ hw
      refine ⟨res.1, h0, ?_⟩
      unfold rated
      rw [hres, ← hw]

/-- C17: a successful placement. If `place_monster` returns the index
`m > 0` for a monster of race `r` at `(y, x)`, then the grid cell `(y, x)`
holds `m`, slot `m` holds race `r` at position `(y, x)` with `midx = m`,
`cur_num` of the race and `mon_cnt` are one more, `num_repro` is one more if
the race has the MULTIPLY flag and unchanged otherwise, and all other slots
and all other grid cells are unchanged. The same holds, for some `m > 0`,
when `place_new_monster_one` returns TRUE. -/
theorem place_monster_spec (w : world) (y x : Int) (r : Nat) (origin : Nat) (d : place_draws)
    (hr : r < w.r_info.length)
    (hrepro : -32768 ≤ w.num_repro + 1 ∧ w.num_repro + 1 ≤ 32767) :
    (∀ mon m w', mon.race = some r → place_monster w y x mon origin d = .ok (m, w') →
      m > 0 → placed w w' y x r m) ∧
    (∀ sleep turn_energy basic_colors w', w.mon_max ≤ 32767 →
      place_new_monster_one w y x r sleep origin turn_energy basic_colors d = .ok (true, w') →
      ∃ m, m > 0 ∧ placed w w' y x r m) := by
  constructor
  · intro mon m w' hrace h hm
    exact place_monster_placed w w' y x mon origin d m r hr hrepro hrace h (by omega)
  · intro sleep turn_energy basic_colors w' hmax h
    obtain ⟨m, hm, hp⟩ := place_new_monster_one_true w w' y x r sleep origin turn_energy
      basic_colors d h
    obtain ⟨_, _, hpop, _⟩ := place_monster_shape _ w' y x _ origin d m hp hm
    obtain ⟨_, _, _, _, _, _, hpos⟩ := mon_pop_shape (rated w r)
    refine ⟨m, ?_, ?_⟩
    · rw [hpop]
      exact hpos (by rw [← hpop]; exact hm) hmax
    · have hpl : placed (rated w r) w' y x r m :=
        place_monster_placed (rated w r) w' y x _ origin d m r hr hrepro rfl hp hm
      exact hpl

theorem place_monster_spec_witness :
    place_monster demo_world 0 1 { race := some 1 } 0 {} = .ok (2, demo_world_placed) ∧
    placed demo_world demo_world_placed 0 1 1 2 :=
  ⟨rfl, (place_monster_spec demo_world 0 1 1 0 {} (by decide) ⟨by decide, by decide⟩).1
    { race := some 1 } 2 demo_world_placed rfl rfl (by decide)⟩

theorem mon_pop_rated (w : world) (r : Nat) : (mon_pop (rated w r)).1 = (mon_pop w).1 := by
  unfold mon_pop
  by_cases h1 : w.mon_max < w.level_monster_max
  · have h1' : (rated w r).mon_max < (rated w r).level_monster_max := h1
    rw [if_pos h1, if_pos h1']
    rfl
  · have h1' : ¬ (rated w r).mon_max < (rated w r).level_monster_max := h1
    rw [if_neg h1, if_neg h1']
    cases hf : (List.range' 1 (w.mon_max - 1)).find?
        (fun m_idx => (w.monsters m_idx).race.isNone) with
    | some i =>
      have hf' : (List.range' 1 ((rated w r).mon_max - 1)).find?
          (fun m_idx => (((rated w r).monsters m_idx).race.isNone)) = some i := hf
      rw [hf']
    | none =>
      have hf' : (List.range' 1 ((rated w r).mon_max - 1)).find?
          (fun m_idx => (((rated w r).monsters m_idx).race.isNone)) = none := hf
      rw [hf']

theorem place_monster_zero (w : world) (y x : Int) (mon : monster) (origin : Nat)
    (d : place_draws) (res : Int × world)
    (h : place_monster w y x mon origin d = .ok res) (h0 : res.1 = 0) :
    (mon_pop w).1 = 0 ∧ res.2 = (mon_pop w).2 := by
  unfold place_monster at h
  split at h
  · cases h
  split at h
  · cases h
  by_cases h3 : (mon_pop w).1 = 0
  · rw [if_pos h3] at h
    injection h with h
    subst h
    exact ⟨h3, rfl⟩
  · rw [if_neg h3] at h
    exfalso
    cases hr : mon.race with
    | none => rw [hr] at h; cases h
    | some r =>
      rw [hr] at h
      simp only at h
      split at h
      · injection h with h
        subst h
        exact h3 h0
      · split at h
        · cases h
        · split at h
          · injection h with h
            subst h
            exact h3 h0
          · injection h with h
            subst h
            exact h3 h0

/-- C18: a refused placement. If `place_new_monster_one` returns FALSE, then
the cell is occupied, or is the cell of the player, or is not walkable for
monsters, or is warded, or the race is a unique at its cap, or the race is
FORCE_DEPTH and deeper than the player, or `mon_pop` found no slot; and the
monster array, the monster reference of every grid cell, `mon_cnt`,
`mon_max`, the registry (hence every `cur_num`) and `num_repro` are
unchanged. -/
theorem place_new_monster_one_refused (w w' : world) (y x : Int) (r : Nat) (sleep : Bool)
    (origin : Nat) (turn_energy : Int → Int) (basic_colors : Int) (d : place_draws)
    (hlo : 1 ≤ w.mon_max) (hhi : w.mon_max ≤ 32767)
    (h : place_new_monster_one w y x r sleep origin turn_energy basic_colors d
      = .ok (false, w')) :
    (square_monster w y x = true ∨ (w.py = y ∧ w.px = x) ∨ w.walkable y x = false ∨
      w.warded y x = true ∨
      (rf_has (w.r_info.getD r {}).flags race_flag.UNIQUE = true ∧
        (w.r_info.getD r {}).cur_num ≥ (w.r_info.getD r {}).max_num) ∨
      (rf_has (w.r_info.getD r {}).flags race_flag.FORCE_DEPTH = true ∧
        w.depth < (w.r_info.getD r {}).level) ∨
      (mon_pop w).1 = 0) ∧
    w'.monsters = w.monsters ∧ w'.squares_mon = w.squares_mon ∧
    w'.mon_cnt = w.mon_cnt ∧ w'.mon_max = w.mon_max ∧
    w'.r_info = w.r_info ∧ w'.num_repro = w.num_repro := by
  unfold place_new_monster_one at h
  split at h
  · cases h
  by_cases c1 : square_monster w y x = true
  · rw [if_pos c1] at h
    injection h with h; injection h with _ hw; subst hw
    exact ⟨Or.inl c1, rfl, rfl, rfl, rfl, rfl, rfl⟩
  rw [if_neg c1] at h
  by_cases c2 : w.py = y ∧ w.px = x
  · rw [if_pos c2] at h
    injection h with h; injection h with _ hw; subst hw
    exact ⟨Or.inr (Or.inl c2), rfl, rfl, rfl, rfl, rfl, rfl⟩
  rw [if_neg c2] at h
  by_cases c3 : w.walkable y x = false
  · rw [if_pos c3] at h
    injection h with h; injection h with _ hw; subst hw
    exact ⟨Or.inr (Or.inr (Or.inl c3)), rfl, rfl, rfl, rfl, rfl, rfl⟩
  rw [if_neg c3] at h
  by_cases c4 : w.warded y x = true
  · rw [if_pos c4] at h
    injection h with h; injection h with _ hw; subst hw
    exact ⟨Or.inr (Or.inr (Or.inr (Or.inl c4))), rfl, rfl, rfl, rfl, rfl, rfl⟩
  rw [if_neg c4] at h
  by_cases c5 : rf_has (w.r_info.getD r {}).flags race_flag.UNIQUE = true ∧
      (w.r_info.getD r {}).cur_num ≥ (w.r_info.getD r {}).max_num
  · rw [if_pos c5] at h
    injection h with h; injection h with _ hw; subst hw
    exact ⟨Or.inr (Or.inr (Or.inr (Or.inr (Or.inl c5)))), rfl, rfl, rfl, rfl, rfl, rfl⟩
  rw [if_neg c5] at h
  by_cases c6 : rf_has (w.r_info.getD r {}).flags race_flag.FORCE_DEPTH = true ∧
      w.depth < (w.r_info.getD r {}).level
  · rw [if_pos c6] at h
    injection h with h; injection h with _ hw; subst hw
    exact ⟨Or.inr (Or.inr (Or.inr (Or.inr (Or.inr (Or.inl c6))))), rfl, rfl, rfl, rfl, rfl, rfl⟩
  rw [if_neg c6] at h
  split at h
  · cases h
  · rename_i res hres
    by_cases h0 : res.1 = 0
    · rw [if_pos h0] at h
      injection h with h; injection h with _ hw
      obtain ⟨hz, hres2⟩ := place_monster_zero (rated w r) _ _ _ _ _ _ hres h0
      obtain ⟨mm, mc, ms, hshape, _, hsame, _⟩ := mon_pop_shape (rated w r)
      have hz2 : (mon_pop w).1 = 0 := by rw [← mon_pop_rated w r]; exact hz
      obtain ⟨hmm, hmc⟩ := hsame hz hlo hhi
      rw [← hw, hres2, hshape]
      refine ⟨Or.inr (Or.inr (Or.inr (Or.inr (Or.inr (Or.inr hz2))))), rfl, rfl, hmc, hmm,
        rfl, rfl⟩
    · rw [if_neg h0] at h
      injection h with h; injection h with hb _; cases hb

theorem place_new_monster_one_refused_witness :
    place_new_monster_one demo_full 0 1 1 false 0 (fun _ => 0) 16 {}
      = .ok (false, demo_full_after) ∧
    (mon_pop demo_full).1 = 0 ∧
    demo_full_after.monsters = demo_full.monsters ∧
    demo_full_after.squares_mon = demo_full.squares_mon ∧
    demo_full_after.mon_cnt = demo_full.mon_cnt ∧
    demo_full_after.mon_max = demo_full.mon_max ∧
    demo_full_after.r_info = demo_full.r_info ∧
    demo_full_after.num_repro = demo_full.num_repro :=
  ⟨rfl, rfl, (place_new_monster_one_refused demo_full demo_full_after 0 1 1 false 0
      (fun _ => 0) 16 {} (by decide) (by decide) rfl).2⟩

/-! ## Properties of the reordering -/

theorem count_filterMap_eq {α β : Type} [DecidableEq β] (f : α → Option β) (l : List α)
    (v : β) : (l.filterMap f).count v = l.countP (fun i => decide (f i = some v)) := by
  induction l with
  | nil => rfl
  | cons a l ih =>
    cases hf : f a with
    | none =>
      rw [List.filterMap_cons_none hf, ih, List.countP_cons_of_neg]
      simp [hf]
    | some b =>
      rw [List.filterMap_cons_some hf, List.count_cons, ih, List.countP_cons]
      by_cases hbv : b = v
      · subst hbv; simp [hf]
      · simp [hf, hbv]

theorem countP_range_erase (p : Nat → Bool) (a N : Nat) (ha : a < N) :
    (List.range N).countP p =
      (List.range N).countP (fun i => decide (i ≠ a) && p i) +
        (if p a = true then 1 else 0) := by
  induction N with
  | zero => omega
  | succ N ih =>
    rw [List.range_succ, List.countP_append, List.countP_append]
    by_cases haN : a = N
    · subst haN
      have hc : (List.range a).countP (fun i => decide (i ≠ a) && p i) =
          (List.range a).countP p := by
        apply List.countP_congr
        intro i hi
        rw [List.mem_range] at hi
        have : i ≠ a := by omega
        simp [this]
      rw [hc]
      simp [List.countP_cons]
    · rw [ih (by omega)]
      have hNa : N ≠ a := fun h => haN h.symm
      simp only [List.countP_cons, List.countP_nil, ne_eq, hNa, not_false_eq_true,
        decide_True, Bool.true_and]
      omega

theorem countP_range_swap (p q : Nat → Bool) (a b N : Nat) (ha : a < N) (hb : b < N)
    (hpa : p a = false) (hqb : q b = false) (hsw : q a = p b)
    (hoth : ∀ i, i ≠ a → i ≠ b → q i = p i) :
    (List.range N).countP q = (List.range N).countP p := by
  rw [countP_range_erase q a N ha, countP_range_erase p b N hb,
    countP_range_erase (fun i => decide (i ≠ a) && q i) b N hb,
    countP_range_erase (fun i => decide (i ≠ b) && p i) a N ha]
  have hc : (List.range N).countP (fun i => decide (i ≠ b) && (decide (i ≠ a) && q i)) =
      (List.range N).countP (fun i => decide (i ≠ a) && (decide (i ≠ b) && p i)) := by
    apply List.countP_congr
    intro i _
    by_cases hia : i = a
    · simp [hia]
    · by_cases hib : i = b
      · simp [hib]
      · simp [hia, hib, hoth i hia hib]
  rw [hc, hsw]
  simp [hpa, hqb]

theorem live_upto_perm_of_swap (w w2 : world) (a b N : Nat) (ha : a < N) (hb : b < N)
    (hwa : live_slot w a = none) (hw2b : live_slot w2 b = none)
    (hsw : live_slot w2 a = live_slot w b)
    (hoth : ∀ i, i ≠ a → i ≠ b → live_slot w2 i = live_slot w i) :
    (live_upto w2 N).Perm (live_upto w N) := by
  rw [List.perm_iff_count]
  intro v
  unfold live_upto
  rw [count_filterMap_eq, count_filterMap_eq]
  apply countP_range_swap _ _ a b N ha hb
  · simp [hwa]
  · simp [hw2b]
  · rw [hsw]
  · intro i hia hib
    rw [hoth i hia hib]

theorem live_upto_extend (w : world) (m d : Nat)
    (h : ∀ i, m ≤ i → live_slot w i = none) : live_upto w (m + d) = live_upto w m := by
  induction d with
  | zero => rfl
  | succ d ih =>
    unfold live_upto at ih ⊢
    rw [← Nat.add_assoc, List.range_succ, List.filterMap_append, ih]
    simp [h (m + d) (by omega)]

theorem live_upto_length (w : world) (m : Nat)
    (h : ∀ i, i < m → ((live_slot w i).isSome = true ↔ 1 ≤ i)) :
    (live_upto w m).length = m - 1 := by
  induction m with
  | zero => rfl
  | succ m ih =>
    unfold live_upto at ih ⊢
    rw [List.range_succ, List.filterMap_append, List.length_append,
      ih (fun i hi => h i (by omega))]
    cases m with
    | zero =>
      have h0 := h 0 (by omega)
      cases hl : live_slot w 0 with
      | none => simp [hl]
      | some v => rw [hl] at h0; simp at h0
    | succ m =>
      have h1 := (h (m + 1) (by omega)).mpr (by omega)
      cases hl : live_slot w (m + 1) with
      | none => rw [hl] at h1; simp at h1
      | some v => simp [hl]

theorem live_slot_none (w : world) (i : Nat) :
    live_slot w i = none ↔ is_live w i = false := by
  unfold live_slot
  cases h : is_live w i <;> simp

theorem unindexed_moved (mon : monster) (i2 : Nat) :
    unindexed { mon with
      midx := i2
      held_obj := mon.held_obj.map (fun obj => { obj with held_m_idx := i2 })
      mimicked_obj := mon.mimicked_obj.map (fun obj => { obj with mimicking_m_idx := i2 }) }
      = unindexed mon := by
  unfold unindexed
  simp only [List.map_map, Option.map_map]
  rfl

theorem excise_slot_live (w : world) (a : Nat) (h : is_live w a = true) :
    excise_slot w a = w := by
  unfold excise_slot
  unfold is_live at h
  rw [if_pos h]

theorem excise_slot_last (w : world) (a : Nat) (h : is_live w a = false)
    (ha : a = w.mon_max - 1) : excise_slot w a = { w with mon_max := w.mon_max - 1 } := by
  unfold excise_slot
  unfold is_live at h
  rw [if_neg (by rw [h]; exact Bool.false_ne_true)]
  unfold compact_monsters_aux
  rw [if_pos ha.symm]

theorem excise_slot_move (w : world) (a : Nat) (h : is_live w a = false)
    (ha : a ≠ w.mon_max - 1) :
    excise_slot w a = { w with
      squares_mon := grid_set w.squares_mon (w.monsters (w.mon_max - 1)).fy
        (w.monsters (w.mon_max - 1)).fx a
      target := if w.target = some (w.mon_max - 1) then some a else w.target
      health_who := if w.health_who = some (w.mon_max - 1) then some a else w.health_who
      monsters := fun j =>
        if j = w.mon_max - 1 then {}
        else if j = a then
          { w.monsters (w.mon_max - 1) with
            midx := a
            held_obj := (w.monsters (w.mon_max - 1)).held_obj.map
              (fun obj => { obj with held_m_idx := a })
            mimicked_obj := (w.monsters (w.mon_max - 1)).mimicked_obj.map
              (fun obj => { obj with mimicking_m_idx := a }) }
        else w.monsters j
      mon_max := w.mon_max - 1 } := by
  unfold excise_slot
  unfold is_live at h
  rw [if_neg (by rw [h]; exact Bool.false_ne_true)]
  unfold compact_monsters_aux
  rw [if_neg (fun hh => ha hh.symm)]
  rfl

theorem excise_slot_spec (w : world) (a N : Nat) (hgrid : slots_on_grid w) (ha1 : 1 ≤ a)
    (ha : a < w.mon_max) (hN : w.mon_max ≤ N)
    (hlive : ∀ i, a < i → i < w.mon_max → is_live w i = true) :
    slots_on_grid (excise_slot w a) ∧
    a ≤ (excise_slot w a).mon_max ∧
    (excise_slot w a).mon_max ≤ N ∧
    (∀ i, a ≤ i → i < (excise_slot w a).mon_max → is_live (excise_slot w a) i = true) ∧
    (live_upto (excise_slot w a) N).Perm (live_upto w N) ∧
    (excise_slot w a).mon_cnt = w.mon_cnt ∧
    (excise_slot w a).r_info = w.r_info ∧
    (excise_slot w a).created = w.created := by
  by_cases hl : is_live w a = true
  · rw [excise_slot_live w a hl]
    refine ⟨hgrid, by omega, hN, ?_, List.Perm.refl _, rfl, rfl, rfl⟩
    intro i hi1 hi2
    by_cases hia : i = a
    · subst hia; exact hl
    · exact hlive i (by omega) hi2
  have hd : is_live w a = false := by simpa using hl
  by_cases hlast : a = w.mon_max - 1
  · rw [excise_slot_last w a hd hlast]
    refine ⟨?_, ?_, ?_, ?_, List.Perm.refl _, rfl, rfl, rfl⟩
    · intro i hi
      have hi' : is_live w i = true := hi
      obtain ⟨h1, h2, h3, h4⟩ := hgrid i hi'
      have hne : i ≠ a := by
        intro hia
        rw [hia, hd] at hi'
        cases hi'
      exact ⟨h1, by simp only; omega, h3, h4⟩
    · simp only; omega
    · simp only; omega
    · intro i hi1 hi2
      simp only at hi2
      omega
  · have hlt : a < w.mon_max - 1 := by omega
    have hlastlive : is_live w (w.mon_max - 1) = true := hlive _ hlt (by omega)
    obtain ⟨_, _, _, hglast⟩ := hgrid _ hlastlive
    rw [excise_slot_move w a hd hlast]
    have hne : a ≠ w.mon_max - 1 := hlast
    refine ⟨?_, ?_, ?_, ?_, ?_, rfl, rfl, rfl⟩
    · intro i hi
      unfold is_live at hi
      simp only at hi ⊢
      by_cases hil : i = w.mon_max - 1
      · rw [if_pos hil] at hi; cases hi
      · rw [if_neg hil] at hi ⊢
        by_cases hia : i = a
        · rw [if_pos hia] at hi ⊢
          simp only
          refine ⟨by omega, by omega, by rw [hia], ?_⟩
          simp only [grid_set, and_self, if_true]
          rw [hia]
        · rw [if_neg hia] at hi ⊢
          obtain ⟨h1, h2, h3, h4⟩ := hgrid i hi
          refine ⟨h1, by omega, h3, ?_⟩
          simp only [grid_set]
          rw [if_neg]
          · exact h4
          · rintro ⟨hy, hx⟩
            rw [hy, hx, hglast] at h4
            have : (w.mon_max - 1 : Nat) = i := by exact_mod_cast h4
            exact hil this.symm
    · simp only; omega
    · simp only; omega
    · intro i hi1 hi2
      simp only at hi2
      unfold is_live
      simp only
      rw [if_neg (by omega)]
      by_cases hia : i = a
      · rw [if_pos hia]
        exact hlastlive
      · rw [if_neg hia]
        exact hlive i (by omega) (by omega)
    · apply live_upto_perm_of_swap w _ a (w.mon_max - 1) N (by omega) (by omega)
      · exact (live_slot_none w a).mpr hd
      · unfold live_slot is_live
        simp
      · unfold live_slot is_live
        simp only [if_neg hne, if_true]
        have hr : is_live w (w.mon_max - 1) = true := hlastlive
        unfold is_live at hr
        rw [if_pos hr, if_pos hr, unindexed_moved]
      · intro i hia hil
        unfold live_slot is_live
        simp only
        rw [if_neg hil, if_neg hia]

theorem excise_dead_spec (N k : Nat) (w : world) (hgrid : slots_on_grid w)
    (hk : k < w.mon_max ∨ k = 0) (hN : w.mon_max ≤ N)
    (hlive : ∀ i, k < i → i < w.mon_max → is_live w i = true) :
    slots_on_grid (excise_dead k w) ∧
    (excise_dead k w).mon_max ≤ N ∧
    (∀ i, 1 ≤ i → i < (excise_dead k w).mon_max → is_live (excise_dead k w) i = true) ∧
    (live_upto (excise_dead k w) N).Perm (live_upto w N) ∧
    (excise_dead k w).mon_cnt = w.mon_cnt ∧
    (excise_dead k w).r_info = w.r_info ∧
    (excise_dead k w).created = w.created := by
  induction k generalizing w with
  | zero =>
    unfold excise_dead
    exact ⟨hgrid, hN, fun i h1 h2 => hlive i (by omega) h2, List.Perm.refl _, rfl, rfl, rfl⟩
  | succ k ih =>
    unfold excise_dead
    have hk' : k + 1 < w.mon_max := by omega
    obtain ⟨s1, s2, s3, s4, s5, s6, s7, s8⟩ :=
      excise_slot_spec w (k + 1) N hgrid (by omega) hk' hN hlive
    obtain ⟨t1, t2, t3, t4, t5, t6, t7⟩ :=
      ih (excise_slot w (k + 1)) s1 (Or.inl (by omega)) s3
        (fun i h1 h2 => s4 i (by omega) h2)
    exact ⟨t1, t2, t3, t4.trans s5, t5.trans s6, t6.trans s7, t7.trans s8⟩

/-- C13: for every monster list that agrees with the grid, possibly with
dead holes, `compact_monsters(0)` returns without running a deletion pass,
whatever the draws offered (the result does not depend on them). It deletes
no monster: the live monsters, compared without their slot references, are
the same collection before and after, and `mon_cnt`, the registry and the
artifact markers are unchanged. Afterwards every slot in `[1, mon_max)` is
live, `mon_max - 1` is the number of live monsters, every slot at or above
`mon_max` is empty, and every live slot `i` has `midx = i` and the grid cell
at its position holds `i`. -/
theorem compact_monsters_reorder (w : world) (fuel : Nat) (draws : Nat → Nat → Nat)
    (hgrid : slots_on_grid w) :
    ∃ w', compact_monsters fuel w 0 draws = some (.ok w') ∧
      (∀ fuel' draws', compact_monsters fuel' w 0 draws' = some (.ok w')) ∧
      (live_monsters w').Perm (live_monsters w) ∧
      w'.mon_cnt = w.mon_cnt ∧ w'.r_info = w.r_info ∧ w'.created = w.created ∧
      (∀ i, 1 ≤ i → i < w'.mon_max → is_live w' i = true) ∧
      w'.mon_max - 1 = (live_monsters w).length ∧
      (∀ i, w'.mon_max ≤ i → (w'.monsters i).race = none) ∧
      (∀ i, is_live w' i = true →
        (w'.monsters i).midx = i ∧
        w'.squares_mon (w'.monsters i).fy (w'.monsters i).fx = i) := by
  have hrun : ∀ fuel' draws',
      compact_monsters fuel' w 0 draws' = some (.ok (excise_dead (w.mon_max - 1) w)) := by
    intro fuel' draws'
    rw [compact_monsters_zero fuel' w 0 (le_refl _) draws']
    simp
  obtain ⟨t1, t2, t3, t4, t5, t6, t7⟩ :=
    excise_dead_spec w.mon_max (w.mon_max - 1) w hgrid (by omega) (le_refl _)
      (fun i h1 h2 => by omega)
  have hdead : ∀ i, (excise_dead (w.mon_max - 1) w).mon_max ≤ i →
      is_live (excise_dead (w.mon_max - 1) w) i = false := by
    intro i hi
    cases hl : is_live (excise_dead (w.mon_max - 1) w) i with
    | false => rfl
    | true =>
      obtain ⟨_, h2, _⟩ := t1 i hl
      omega
  have hext : live_upto (excise_dead (w.mon_max - 1) w) w.mon_max =
      live_monsters (excise_dead (w.mon_max - 1) w) := by
    have h := live_upto_extend (excise_dead (w.mon_max - 1) w)
      (excise_dead (w.mon_max - 1) w).mon_max
      (w.mon_max - (excise_dead (w.mon_max - 1) w).mon_max)
      (fun i hi => (live_slot_none _ i).mpr (hdead i hi))
    have hsplit : (excise_dead (w.mon_max - 1) w).mon_max +
        (w.mon_max - (excise_dead (w.mon_max - 1) w).mon_max) = w.mon_max := by omega
    rw [hsplit] at h
    exact h
  have hperm : (live_monsters (excise_dead (w.mon_max - 1) w)).Perm (live_monsters w) := by
    rw [← hext]
    exact t4
  have hlen : (live_monsters (excise_dead (w.mon_max - 1) w)).length =
      (excise_dead (w.mon_max - 1) w).mon_max - 1 := by
    apply live_upto_length
    intro i hi
    constructor
    · intro hs
      cases hl : is_live (excise_dead (w.mon_max - 1) w) i with
      | false =>
        rw [(live_slot_none _ i).mpr hl] at hs
        cases hs
      | true => exact (t1 i hl).1
    · intro h1
      have hl := t3 i h1 hi
      unfold live_slot
      rw [if_pos hl]
      rfl
  refine ⟨_, hrun fuel draws, hrun, hperm, t5, t6, t7, t3, ?_, ?_, ?_⟩
  · rw [← hlen]
    exact hperm.length_eq
  · intro i hi
    have := hdead i hi
    unfold is_live at this
    cases hr : ((excise_dead (w.mon_max - 1) w).monsters i).race with
    | none => rfl
    | some r => rw [hr] at this; cases this
  · intro i hl
    obtain ⟨_, _, h3, h4⟩ := t1 i hl
    exact ⟨h3, h4⟩

theorem demo_holes_on_grid : slots_on_grid demo_holes := by
  intro i hl
  by_cases h2 : i = 2
  · subst h2; exact ⟨by decide, by decide, rfl, rfl⟩
  · by_cases h3 : i = 3
    · subst h3; exact ⟨by decide, by decide, rfl, rfl⟩
    · have : is_live demo_holes i = false := by
        unfold is_live demo_holes
        simp [h2, h3]
      rw [this] at hl; cases hl

theorem compact_monsters_reorder_witness :
    slots_on_grid demo_holes ∧ (live_monsters demo_holes).length = 2 ∧
    ∃ w', compact_monsters 0 demo_holes 0 (fun _ _ => 0) = some (.ok w') ∧
      (live_monsters w').Perm (live_monsters demo_holes) ∧
      w'.mon_max - 1 = (live_monsters demo_holes).length := by
  refine ⟨demo_holes_on_grid, by decide, ?_⟩
  obtain ⟨w', h1, _, h3, _, _, _, _, h8, _⟩ :=
    compact_monsters_reorder demo_holes 0 (fun _ _ => 0) demo_holes_on_grid
  exact ⟨w', h1, h3, h8⟩

/-! ## Properties of group placement -/

theorem specified_drops_ok (race : monster_race) (origin : Nat) (depth : Int)
    (drops : List monster_drop) (ds : List spec_draw) (st : monster × (Nat → Bool) × Bool)
    (hc : ∀ s ∈ ds, s.carry = true) :
    ∃ st', specified_drops race origin depth drops ds st = .ok st' := by
  induction drops generalizing ds st with
  | nil => exact ⟨st, by unfold specified_drops; rfl⟩
  | cons drop next ih =>
    have htail : ∀ s ∈ ds.tail, s.carry = true :=
      fun s hs => hc s (List.mem_of_mem_tail hs)
    have hhead : (ds.headD {}).carry = true := by
      cases ds with
      | nil => rfl
      | cons s rest => exact hc s (List.mem_cons_self _ _)
    unfold specified_drops
    split
    · exact ih _ _ htail
    · rw [hhead]
      unfold try_carry
      rw [if_pos rfl]
      exact ih _ _ htail

theorem random_drops_ok (race : monster_race) (origin : Nat) (depth : Int)
    (number : Nat) (ds : List rand_draw) (st : monster × (Nat → Bool) × Bool)
    (hc : ∀ s ∈ ds, s.carry = true) :
    ∃ st', random_drops race origin depth number ds st = .ok st' := by
  induction number generalizing ds st with
  | zero => exact ⟨st, by unfold random_drops; rfl⟩
  | succ number ih =>
    have htail : ∀ s ∈ ds.tail, s.carry = true :=
      fun s hs => hc s (List.mem_of_mem_tail hs)
    have hhead : (ds.headD {}).carry = true := by
      cases ds with
      | nil => rfl
      | cons s rest => exact hc s (List.mem_cons_self _ _)
    unfold random_drops
    split
    · rw [hhead]
      unfold try_carry
      rw [if_pos rfl]
      exact ih _ _ htail
    · split
      · exact ih _ _ htail
      · rw [hhead]
        unfold try_carry
        rw [if_pos rfl]
        exact ih _ _ htail

theorem mon_create_drop_ok (w : world) (m : Nat) (origin : Nat) (d : drop_draws) (r : Nat)
    (hr : (w.monsters m).race = some r)
    (hs : ∀ s ∈ d.specified, s.carry = true) (hd : ∀ s ∈ d.random, s.carry = true) :
    ∃ res, mon_create_drop w m origin d = .ok res := by
  unfold mon_create_drop
  rw [hr]
  simp only
  obtain ⟨st1, h1⟩ := specified_drops_ok (w.r_info.getD r {}) origin w.depth
    (w.r_info.getD r {}).drops d.specified (w.monsters m, w.created, false) hs
  rw [h1]
  simp only
  obtain ⟨st2, h2⟩ := random_drops_ok (w.r_info.getD r {}) origin w.depth
    (mon_create_drop_count (w.r_info.getD r {}) false d.count).toNat d.random st1 hd
  rw [h2]
  exact ⟨_, rfl⟩

theorem mon_create_drop_no_error (w : world) (m : Nat) (origin : Nat) (d : drop_draws)
    (r : Nat) (e : fault) (hr : (w.monsters m).race = some r)
    (hs : ∀ s ∈ d.specified, s.carry = true) (hd : ∀ s ∈ d.random, s.carry = true)
    (h : mon_create_drop w m origin d = .error e) : False := by
  obtain ⟨res, hres⟩ := mon_create_drop_ok w m origin d r hr hs hd
  rw [hres] at h
  cases h

theorem place_monster_ok (w : world) (y x : Int) (mon : monster) (origin : Nat)
    (d : place_draws) (r : Nat)
    (hb : square_in_bounds w y x = true) (hm : w.squares_mon y x = 0)
    (hr : mon.race = some r) (hc : carries d) :
    ∃ res, place_monster w y x mon origin d = .ok res := by
  unfold place_monster
  rw [if_neg (by rw [hb]; decide)]
  rw [if_neg (by unfold square_monster; rw [hm]; decide)]
  by_cases h0 : (mon_pop w).1 = 0
  · rw [if_pos h0]; exact ⟨_, rfl⟩
  · rw [if_neg h0]
    split
    · rename_i hnone
      rw [hr] at hnone
      cases hnone
    · rename_i r' hsome
      simp only
      by_cases ho : origin = 0
      · rw [if_pos ho]; exact ⟨_, rfl⟩
      · rw [if_neg ho]
        split
        · rename_i e heq
          exact (mon_create_drop_no_error _ _ _ _ r' _
            (by simp only [slot_set_same]; exact hsome) hc.1 hc.2 heq).elim
        · split
          · exact ⟨_, rfl⟩
          · exact ⟨_, rfl⟩

theorem place_new_monster_one_free (w : world) (y x : Int) (r : Nat) (sleep : Bool)
    (origin : Nat) (turn_energy : Int → Int) (basic_colors : Int) (d : place_draws)
    (hcell : cell_free w y x) (hrace : race_free w r) :
    place_new_monster_one w y x r sleep origin turn_energy basic_colors d =
      match place_monster (rated w r) y x
          (new_monster_body r (w.r_info.getD r {}) sleep turn_energy basic_colors d)
          origin d with
      | .error e => .error e
      | .ok res => if res.1 = 0 then .ok (false, res.2) else .ok (true, res.2) := by
  obtain ⟨hb, _, hm, hp, hw, hwd⟩ := hcell
  obtain ⟨hu, hf⟩ := hrace
  unfold place_new_monster_one rated
  rw [if_neg (by rw [hb]; decide), if_neg (by unfold square_monster; rw [hm]; decide),
    if_neg hp, if_neg (by rw [hw]; decide), if_neg (by rw [hwd]; decide),
    if_neg (by rw [hu]; simp), if_neg hf]

theorem mon_pop_normal (w : world) (h : w.mon_max < w.level_monster_max)
    (h2 : w.mon_max ≤ 32767) :
    mon_pop w = ((w.mon_max : Int),
      { w with mon_max := w.mon_max + 1, mon_cnt := w.mon_cnt + 1 }) := by
  unfold mon_pop
  rw [if_pos h, s16b_id _ (by omega) (by omega)]

theorem place_new_monster_one_grows (w : world) (y x : Int) (r : Nat) (sleep : Bool)
    (origin : Nat) (turn_energy : Int → Int) (basic_colors : Int) (d : place_draws)
    (hcell : cell_free w y x) (hrace : race_free w r)
    (hslot : w.mon_max < w.level_monster_max) (h1 : 1 ≤ w.mon_max) (h2 : w.mon_max ≤ 32767)
    (hc : carries d) :
    ∃ w', place_new_monster_one w y x r sleep origin turn_energy basic_colors d
        = .ok (true, w') ∧ grown w w' y x r := by
  rw [place_new_monster_one_free w y x r sleep origin turn_energy basic_colors d hcell hrace]
  obtain ⟨res, hres⟩ := place_monster_ok (rated w r) y x
    (new_monster_body r (w.r_info.getD r {}) sleep turn_energy basic_colors d) origin d r
    hcell.1 hcell.2.2.1 rfl hc
  have hpop : mon_pop (rated w r) = ((w.mon_max : Int),
      { rated w r with mon_max := w.mon_max + 1, mon_cnt := w.mon_cnt + 1 }) :=
    mon_pop_normal (rated w r) hslot h2
  have hne : res.1 ≠ 0 := by
    intro h0
    have hz := (place_monster_zero (rated w r) _ _ _ _ _ res hres h0).1
    rw [hpop] at hz
    simp only at hz
    omega
  rw [hres]
  simp only
  rw [if_neg hne]
  refine ⟨res.2, rfl, ?_⟩
  obtain ⟨_, _, hidx, r', mon', cr', hr', hw', hcore⟩ :=
    place_monster_shape (rated w r) res.2 y x _ origin d res.1 hres hne
  have hrr : r' = r := by
    have : some r = some r' := hr'
    injection this with this
    exact this.symm
  subst hrr
  rw [hpop] at hidx hw'
  simp only at hidx hw'
  rw [hidx] at hw' hcore
  simp only [Int.toNat_ofNat] at hw'
  rw [hw']
  refine ⟨rfl, rfl, rfl, ?_, ?_, ?_, ?_, rfl, rfl, rfl, rfl, rfl, rfl, rfl, rfl, rfl, ?_, ?_⟩
  · intro j hj
    simp only [slot_set, if_neg hj]
    rfl
  · simp only [slot_set_same]
    exact congrArg monster.race hcore
  · simp only [slot_set_same]
    exact congrArg monster.fy hcore
  · simp only [slot_set_same]
    exact congrArg monster.fx hcore
  · simp only
    rw [getD_race_update]
    split
    · rfl
    · rfl
  · simp only
    rw [getD_race_update]
    split
    · rfl
    · rfl

theorem grown_cell_free (w w' : world) (y x : Int) (r : Nat) (y' x' : Int)
    (hg : grown w w' y x r) (hc : cell_free w y' x') (hne : ¬ (y' = y ∧ x' = x)) :
    cell_free w' y' x' := by
  obtain ⟨g1, _, _, _, _, _, _, _, g9, g10, g11, g12, _, g14, g15, g16, _, _⟩ := hg
  obtain ⟨c1, c2, c3, c4, c5, c6⟩ := hc
  refine ⟨?_, ?_, ?_, ?_, ?_, ?_⟩
  · unfold square_in_bounds at c1 ⊢
    rw [g9, g10]; exact c1
  · rw [g16]; exact c2
  · rw [g1]
    simp only [grid_set, if_neg hne]
    exact c3
  · rw [g11, g12]; exact c4
  · rw [g14]; exact c5
  · rw [g15]; exact c6

theorem grown_race_free (w w' : world) (y x : Int) (r : Nat)
    (hg : grown w w' y x r) (hr : race_free w r) : race_free w' r := by
  obtain ⟨_, _, _, _, _, _, _, _, _, _, _, _, g13, _, _, _, g17, g18⟩ := hg
  unfold race_free at hr ⊢
  rw [g17, g18, g13]
  exact hr

theorem grown_grid_self (w w' : world) (y x : Int) (r : Nat) (hg : grown w w' y x r) :
    w'.squares_mon y x = w.mon_max := by
  rw [hg.1]
  simp [grid_set]

theorem grown_grid_other (w w' : world) (y x : Int) (r : Nat) (y' x' : Int)
    (hg : grown w w' y x r) (hne : ¬ (y' = y ∧ x' = x)) :
    w'.squares_mon y' x' = w.squares_mon y' x' := by
  rw [hg.1]
  simp only [grid_set, if_neg hne]

theorem byte_id (v : Int) (h0 : 0 ≤ v) (h1 : v < 256) : byte v = v := by
  unfold byte; omega

theorem foldlM_cons_ok {σ α : Type} (f : σ → α → Except fault σ) (a : α) (l : List α)
    (s s1 : σ) (h : f s a = .ok s1) : (a :: l).foldlM f s = l.foldlM f s1 := by
  rw [List.foldlM_cons, h]
  rfl

theorem group_try_places (r : Nat) (sleep : Bool) (origin : Nat) (turn_energy : Int → Int)
    (basic_colors : Int) (total : Int) (hy hx : Int) (draws : Nat → place_draws)
    (w : world) (cs : List (Int × Int)) (i : Nat)
    (hlen : (cs.length : Int) < total) (hcap : cs.length < 25)
    (hcell : cell_free w (hy + ddy_ddd.getD i 0) (hx + ddx_ddd.getD i 0))
    (hrace : race_free w r)
    (hslot : w.mon_max < w.level_monster_max) (h1 : 1 ≤ w.mon_max) (h2 : w.mon_max ≤ 32767)
    (hc : carries (draws i)) :
    ∃ w', group_try r sleep origin turn_energy basic_colors total hy hx draws (w, cs) i =
        .ok (w', cs ++ [stored hy hx i]) ∧
      grown w w' (hy + ddy_ddd.getD i 0) (hx + ddx_ddd.getD i 0) r := by
  obtain ⟨w', hrun, hg⟩ := place_new_monster_one_grows w (hy + ddy_ddd.getD i 0)
    (hx + ddx_ddd.getD i 0) r sleep origin turn_energy basic_colors (draws i) hcell hrace
    hslot h1 h2 hc
  refine ⟨w', ?_, hg⟩
  unfold group_try stored
  simp only
  rw [if_neg (by omega)]
  have hempty : square_isempty w (hy + ddy_ddd.getD i 0) (hx + ddx_ddd.getD i 0) = true := by
    unfold square_isempty
    rw [hcell.2.1, hcell.2.2.1]
    rfl
  rw [if_neg (by rw [hempty]; decide), hrun]
  simp only
  rw [if_neg (by decide), if_neg (by omega)]

theorem group_try_full (r : Nat) (sleep : Bool) (origin : Nat) (turn_energy : Int → Int)
    (basic_colors : Int) (total : Int) (hy hx : Int) (draws : Nat → place_draws)
    (st : world × List (Int × Int)) (i : Nat) (hlen : ¬ (st.2.length : Int) < total) :
    group_try r sleep origin turn_energy basic_colors total hy hx draws st i = .ok st := by
  unfold group_try
  rw [if_pos hlen]

theorem group_loop_succ (r : Nat) (sleep : Bool) (origin : Nat) (turn_energy : Int → Int)
    (basic_colors : Int) (total : Int) (draws : Nat → Nat → place_draws) (fuel n : Nat)
    (st : world × List (Int × Int)) :
    group_loop r sleep origin turn_energy basic_colors total draws (fuel + 1) n st =
      if n < st.2.length ∧ (st.2.length : Int) < total then
        match (List.range 8).foldlM (group_try r sleep origin turn_energy basic_colors total
            (st.2.getD n (0, 0)).1 (st.2.getD n (0, 0)).2 (draws n)) st with
        | .error e => .error e
        | .ok st' =>
          group_loop r sleep origin turn_energy basic_colors total draws fuel (n + 1) st'
      else .ok st := by
  rfl

/-- C20 (counterexample): with size 5, seeded at the centre `(2, 2)` of the
open chunk `demo_open` (no monster anywhere, every cell walkable, 1023 free
slots), `place_new_monster_group` returns TRUE after placing 4 monsters, on
the cells below, above, right and left of the seed; the seed cell itself and
the four corners of the 3x3 area stay empty. -/
theorem place_new_monster_group_places_four :
    (place_new_monster_group demo_open 2 2 1 false 5 0 (fun _ => 0) 16
      (fun _ _ => {})).toOption.map Prod.fst = some true ∧
    demo_open.mon_cnt = 0 ∧ demo_open.level_monster_max = 1024 ∧
    (∀ y x, demo_open.squares_mon y x = 0) ∧
    demo_open_after.mon_cnt = 4 ∧
    demo_open_after.mon_max = 5 ∧
    demo_open_after.squares_mon 3 2 = 1 ∧
    demo_open_after.squares_mon 1 2 = 2 ∧
    demo_open_after.squares_mon 2 3 = 3 ∧
    demo_open_after.squares_mon 2 1 = 4 ∧
    demo_open_after.squares_mon 2 2 = 0 ∧
    demo_open_after.squares_mon 1 1 = 0 ∧
    demo_open_after.squares_mon 1 3 = 0 ∧
    demo_open_after.squares_mon 3 1 = 0 ∧
    demo_open_after.squares_mon 3 3 = 0 ∧
    (demo_open_after.monsters 5).race = none :=
  ⟨rfl, rfl, rfl, fun _ _ => rfl, rfl, rfl, rfl, rfl, rfl, rfl, rfl, rfl, rfl, rfl, rfl, rfl⟩

theorem group_four_chain (w : world) (y x : Int) (r : Nat) (sleep : Bool) (origin : Nat)
    (turn_energy : Int → Int) (basic_colors : Int) (draws : Nat → place_draws)
    (hcells : ∀ i, i < 4 → cell_free w (y + ddy_ddd.getD i 0) (x + ddx_ddd.getD i 0))
    (hrace : race_free w r)
    (hs1 : 1 ≤ w.mon_max) (hs2 : w.mon_max + 4 ≤ w.level_monster_max)
    (hs3 : w.mon_max + 3 ≤ 32767)
    (hc : ∀ i, i < 4 → carries (draws i)) :
    ∃ w1 w2 w3 w4 cs,
      (List.range 8).foldlM
        (group_try r sleep origin turn_energy basic_colors 5 y x draws) (w, [(y, x)])
        = .ok (w4, cs) ∧ cs.length = 5 ∧
      grown w w1 (y + ddy_ddd.getD 0 0) (x + ddx_ddd.getD 0 0) r ∧
      grown w1 w2 (y + ddy_ddd.getD 1 0) (x + ddx_ddd.getD 1 0) r ∧
      grown w2 w3 (y + ddy_ddd.getD 2 0) (x + ddx_ddd.getD 2 0) r ∧
      grown w3 w4 (y + ddy_ddd.getD 3 0) (x + ddx_ddd.getD 3 0) r := by
  have d10 : ¬ (y + ddy_ddd.getD 1 0 = y + ddy_ddd.getD 0 0 ∧
      x + ddx_ddd.getD 1 0 = x + ddx_ddd.getD 0 0) := by
    show ¬ (y + (-1) = y + 1 ∧ x + 0 = x + 0); omega
  have d20 : ¬ (y + ddy_ddd.getD 2 0 = y + ddy_ddd.getD 0 0 ∧
      x + ddx_ddd.getD 2 0 = x + ddx_ddd.getD 0 0) := by
    show ¬ (y + 0 = y + 1 ∧ x + 1 = x + 0); omega
  have d21 : ¬ (y + ddy_ddd.getD 2 0 = y + ddy_ddd.getD 1 0 ∧
      x + ddx_ddd.getD 2 0 = x + ddx_ddd.getD 1 0) := by
    show ¬ (y + 0 = y + (-1) ∧ x + 1 = x + 0); omega
  have d30 : ¬ (y + ddy_ddd.getD 3 0 = y + ddy_ddd.getD 0 0 ∧
      x + ddx_ddd.getD 3 0 = x + ddx_ddd.getD 0 0) := by
    show ¬ (y + 0 = y + 1 ∧ x + (-1) = x + 0); omega
  have d31 : ¬ (y + ddy_ddd.getD 3 0 = y + ddy_ddd.getD 1 0 ∧
      x + ddx_ddd.getD 3 0 = x + ddx_ddd.getD 1 0) := by
    show ¬ (y + 0 = y + (-1) ∧ x + (-1) = x + 0); omega
  have d32 : ¬ (y + ddy_ddd.getD 3 0 = y + ddy_ddd.getD 2 0 ∧
      x + ddx_ddd.getD 3 0 = x + ddx_ddd.getD 2 0) := by
    show ¬ (y + 0 = y + 0 ∧ x + (-1) = x + 1); omega
  obtain ⟨w1, r0, g0⟩ := group_try_places r sleep origin turn_energy basic_colors 5 y x draws
    w [(y, x)] 0 (by simp) (by simp) (hcells 0 (by omega)) hrace (by omega) hs1 (by omega)
    (hc 0 (by omega))
  have m1 : w1.mon_max = w.mon_max + 1 := g0.2.1
  have l1 : w1.level_monster_max = w.level_monster_max := g0.2.2.2.2.2.2.2.1
  obtain ⟨w2, r1, g1⟩ := group_try_places r sleep origin turn_energy basic_colors 5 y x draws
    w1 ([(y, x)] ++ [stored y x 0]) 1 (by simp) (by simp)
    (grown_cell_free w w1 _ _ r _ _ g0 (hcells 1 (by omega)) d10)
    (grown_race_free w w1 _ _ r g0 hrace) (by omega) (by omega) (by omega) (hc 1 (by omega))
  have m2 : w2.mon_max = w1.mon_max + 1 := g1.2.1
  have l2 : w2.level_monster_max = w1.level_monster_max := g1.2.2.2.2.2.2.2.1
  obtain ⟨w3, r2, g2⟩ := group_try_places r sleep origin turn_energy basic_colors 5 y x draws
    w2 ([(y, x)] ++ [stored y x 0] ++ [stored y x 1]) 2 (by simp) (by simp)
    (grown_cell_free w1 w2 _ _ r _ _ g1
      (grown_cell_free w w1 _ _ r _ _ g0 (hcells 2 (by omega)) d20) d21)
    (grown_race_free w1 w2 _ _ r g1 (grown_race_free w w1 _ _ r g0 hrace))
    (by omega) (by omega) (by omega) (hc 2 (by omega))
  have m3 : w3.mon_max = w2.mon_max + 1 := g2.2.1
  have l3 : w3.level_monster_max = w2.level_monster_max := g2.2.2.2.2.2.2.2.1
  obtain ⟨w4, r3, g3⟩ := group_try_places r sleep origin turn_energy basic_colors 5 y x draws
    w3 ([(y, x)] ++ [stored y x 0] ++ [stored y x 1] ++ [stored y x 2]) 3
    (by simp) (by simp)
    (grown_cell_free w2 w3 _ _ r _ _ g2
      (grown_cell_free w1 w2 _ _ r _ _ g1
        (grown_cell_free w w1 _ _ r _ _ g0 (hcells 3 (by omega)) d30) d31) d32)
    (grown_race_free w2 w3 _ _ r g2
      (grown_race_free w1 w2 _ _ r g1 (grown_race_free w w1 _ _ r g0 hrace)))
    (by omega) (by omega) (by omega) (hc 3 (by omega))
  refine ⟨w1, w2, w3, w4,
    [(y, x)] ++ [stored y x 0] ++ [stored y x 1] ++ [stored y x 2] ++ [stored y x 3],
    ?_, ?_, g0, g1, g2, g3⟩
  · have hr8 : List.range 8 = [0, 1, 2, 3, 4, 5, 6, 7] := rfl
    rw [hr8, foldlM_cons_ok _ _ _ _ _ r0, foldlM_cons_ok _ _ _ _ _ r1,
      foldlM_cons_ok _ _ _ _ _ r2, foldlM_cons_ok _ _ _ _ _ r3,
      foldlM_cons_ok _ _ _ _ _ (group_try_full _ _ _ _ _ _ _ _ _ _ 4 (by simp)),
      foldlM_cons_ok _ _ _ _ _ (group_try_full _ _ _ _ _ _ _ _ _ _ 5 (by simp)),
      foldlM_cons_ok _ _ _ _ _ (group_try_full _ _ _ _ _ _ _ _ _ _ 6 (by simp)),
      foldlM_cons_ok _ _ _ _ _ (group_try_full _ _ _ _ _ _ _ _ _ _ 7 (by simp))]
    rfl
  · simp

/-- C20 (amended): called with size 5 at a seed `(y, x)` with
`0 ≤ y, x < 256` (the coordinates are kept in `byte` arrays) whose four
orthogonal neighbours are open (inside the grid, empty, walkable, not warded,
without monster or player), for a race that is neither a unique nor a
FORCE_DEPTH race deeper than the player, with four free slots at the end of
the list
(`1 ≤ mon_max`, `mon_max + 4 ≤ level_monster_max`, `mon_max + 3 ≤ 32767`) and
every `monster_carry` of the four placements succeeding,
`place_new_monster_group` returns TRUE after placing exactly 4 monsters, not
5: one on each of the cells below, above, right and left of the seed, in the
slots `mon_max`, ..., `mon_max + 3`. Every other grid cell (the seed and the
corners among them) and every other slot is unchanged. -/
theorem place_new_monster_group_five (w : world) (y x : Int) (r : Nat) (sleep : Bool)
    (origin : Nat) (turn_energy : Int → Int) (basic_colors : Int)
    (draws : Nat → Nat → place_draws)
    (hy : 0 ≤ y ∧ y < 256) (hx : 0 ≤ x ∧ x < 256)
    (hcells : ∀ i, i < 4 → cell_free w (y + ddy_ddd.getD i 0) (x + ddx_ddd.getD i 0))
    (hrace : race_free w r)
    (hslots : 1 ≤ w.mon_max ∧ w.mon_max + 4 ≤ w.level_monster_max ∧ w.mon_max + 3 ≤ 32767)
    (hc : ∀ i, i < 4 → carries (draws 0 i)) :
    ∃ w', place_new_monster_group w y x r sleep 5 origin turn_energy basic_colors draws
        = .ok (true, w') ∧
      w'.mon_cnt = w.mon_cnt + 4 ∧ w'.mon_max = w.mon_max + 4 ∧
      (∀ i, i < 4 →
        w'.squares_mon (y + ddy_ddd.getD i 0) (x + ddx_ddd.getD i 0)
          = ((w.mon_max + i : Nat) : Int) ∧
        (w'.monsters (w.mon_max + i)).race = some r ∧
        (w'.monsters (w.mon_max + i)).fy = y + ddy_ddd.getD i 0 ∧
        (w'.monsters (w.mon_max + i)).fx = x + ddx_ddd.getD i 0) ∧
      (∀ y' x', (∀ i, i < 4 → ¬ (y' = y + ddy_ddd.getD i 0 ∧ x' = x + ddx_ddd.getD i 0)) →
        w'.squares_mon y' x' = w.squares_mon y' x') ∧
      (∀ j, j < w.mon_max ∨ w.mon_max + 4 ≤ j → w'.monsters j = w.monsters j) := by
  obtain ⟨w1, w2, w3, w4, cs, hfold, hlen, g0, g1, g2, g3⟩ :=
    group_four_chain w y x r sleep origin turn_energy basic_colors (draws 0) hcells hrace
      hslots.1 hslots.2.1 hslots.2.2 hc
  have hloop : group_loop r sleep origin turn_energy basic_colors 5 draws 5 0 (w, [(y, x)])
      = .ok (w4, cs) := by
    rw [show (5 : Nat) = 3 + 1 + 1 from rfl, group_loop_succ, if_pos ⟨by simp, by simp⟩]
    have hf : (List.range 8).foldlM (group_try r sleep origin turn_energy basic_colors 5
          (([(y, x)] : List (Int × Int)).getD 0 (0, 0)).1
          (([(y, x)] : List (Int × Int)).getD 0 (0, 0)).2 (draws 0)) (w, [(y, x)])
        = .ok (w4, cs) := hfold
    simp only at hf ⊢
    rw [hf]
    simp only
    rw [group_loop_succ, if_neg (by simp [hlen])]
  have m1 : w1.mon_max = w.mon_max + 1 := g0.2.1
  have m2 : w2.mon_max = w1.mon_max + 1 := g1.2.1
  have m3 : w3.mon_max = w2.mon_max + 1 := g2.2.1
  have m4 : w4.mon_max = w3.mon_max + 1 := g3.2.1
  have e0 : w.mon_max + 0 = w.mon_max := rfl
  have e1 : w.mon_max + 1 = w1.mon_max := m1.symm
  have e2 : w.mon_max + 2 = w2.mon_max := by omega
  have e3 : w.mon_max + 3 = w3.mon_max := by omega
  have d10 : ¬ (y + ddy_ddd.getD 1 0 = y + ddy_ddd.getD 0 0 ∧
      x + ddx_ddd.getD 1 0 = x + ddx_ddd.getD 0 0) := by
    show ¬ (y + (-1) = y + 1 ∧ x + 0 = x + 0); omega
  have d20 : ¬ (y + ddy_ddd.getD 2 0 = y + ddy_ddd.getD 0 0 ∧
      x + ddx_ddd.getD 2 0 = x + ddx_ddd.getD 0 0) := by
    show ¬ (y + 0 = y + 1 ∧ x + 1 = x + 0); omega
  have d21 : ¬ (y + ddy_ddd.getD 2 0 = y + ddy_ddd.getD 1 0 ∧
      x + ddx_ddd.getD 2 0 = x + ddx_ddd.getD 1 0) := by
    show ¬ (y + 0 = y + (-1) ∧ x + 1 = x + 0); omega
  have d30 : ¬ (y + ddy_ddd.getD 3 0 = y + ddy_ddd.getD 0 0 ∧
      x + ddx_ddd.getD 3 0 = x + ddx_ddd.getD 0 0) := by
    show ¬ (y + 0 = y + 1 ∧ x + (-1) = x + 0); omega
  have d31 : ¬ (y + ddy_ddd.getD 3 0 = y + ddy_ddd.getD 1 0 ∧
      x + ddx_ddd.getD 3 0 = x + ddx_ddd.getD 1 0) := by
    show ¬ (y + 0 = y + (-1) ∧ x + (-1) = x + 0); omega
  have d32 : ¬ (y + ddy_ddd.getD 3 0 = y + ddy_ddd.getD 2 0 ∧
      x + ddx_ddd.getD 3 0 = x + ddx_ddd.getD 2 0) := by
    show ¬ (y + 0 = y + 0 ∧ x + (-1) = x + 1); omega
  have sym : ∀ {a b c d : Int}, ¬ (a = b ∧ c = d) → ¬ (b = a ∧ d = c) :=
    fun h h' => h ⟨h'.1.symm, h'.2.symm⟩
  refine ⟨w4, ?_, ?_, by omega, ?_, ?_, ?_⟩
  · unfold place_new_monster_group
    rw [byte_id y hy.1 hy.2, byte_id x hx.1 hx.2]
    have h5 : (5 : Int).toNat = 5 := rfl
    rw [h5, hloop]
  · rw [g3.2.2.1, g2.2.2.1, g1.2.2.1, g0.2.2.1]
    omega
  · intro i hi
    have hcases : i = 0 ∨ i = 1 ∨ i = 2 ∨ i = 3 := by omega
    rcases hcases with rfl | rfl | rfl | rfl
    · rw [e0]
      refine ⟨?_, ?_, ?_, ?_⟩
      · rw [grown_grid_other _ _ _ _ r _ _ g3 (sym d30),
          grown_grid_other _ _ _ _ r _ _ g2 (sym d20),
          grown_grid_other _ _ _ _ r _ _ g1 (sym d10), grown_grid_self _ _ _ _ r g0]
      · rw [g3.2.2.2.1 _ (by omega), g2.2.2.2.1 _ (by omega), g1.2.2.2.1 _ (by omega)]
        exact g0.2.2.2.2.1
      · rw [g3.2.2.2.1 _ (by omega), g2.2.2.2.1 _ (by omega), g1.2.2.2.1 _ (by omega)]
        exact g0.2.2.2.2.2.1
      · rw [g3.2.2.2.1 _ (by omega), g2.2.2.2.1 _ (by omega), g1.2.2.2.1 _ (by omega)]
        exact g0.2.2.2.2.2.2.1
    · rw [e1]
      refine ⟨?_, ?_, ?_, ?_⟩
      · rw [grown_grid_other _ _ _ _ r _ _ g3 (sym d31),
          grown_grid_other _ _ _ _ r _ _ g2 (sym d21), grown_grid_self _ _ _ _ r g1]
      · rw [g3.2.2.2.1 _ (by omega), g2.2.2.2.1 _ (by omega)]
        exact g1.2.2.2.2.1
      · rw [g3.2.2.2.1 _ (by omega), g2.2.2.2.1 _ (by omega)]
        exact g1.2.2.2.2.2.1
      · rw [g3.2.2.2.1 _ (by omega), g2.2.2.2.1 _ (by omega)]
        exact g1.2.2.2.2.2.2.1
    · rw [e2]
      refine ⟨?_, ?_, ?_, ?_⟩
      · rw [grown_grid_other _ _ _ _ r _ _ g3 (sym d32), grown_grid_self _ _ _ _ r g2]
      · rw [g3.2.2.2.1 _ (by omega)]
        exact g2.2.2.2.2.1
      · rw [g3.2.2.2.1 _ (by omega)]
        exact g2.2.2.2.2.2.1
      · rw [g3.2.2.2.1 _ (by omega)]
        exact g2.2.2.2.2.2.2.1
    · rw [e3]
      exact ⟨grown_grid_self _ _ _ _ r g3, g3.2.2.2.2.1, g3.2.2.2.2.2.1, g3.2.2.2.2.2.2.1⟩
  · intro y' x' hne
    rw [grown_grid_other _ _ _ _ r _ _ g3 (hne 3 (by omega)),
      grown_grid_other _ _ _ _ r _ _ g2 (hne 2 (by omega)),
      grown_grid_other _ _ _ _ r _ _ g1 (hne 1 (by omega)),
      grown_grid_other _ _ _ _ r _ _ g0 (hne 0 (by omega))]
  · intro j hj
    rw [g3.2.2.2.1 _ (by omega), g2.2.2.2.1 _ (by omega), g1.2.2.2.1 _ (by omega),
      g0.2.2.2.1 _ (by omega)]

theorem place_new_monster_group_five_witness :
    race_free demo_open 1 ∧
    ∃ w', place_new_monster_group demo_open 2 2 1 false 5 0 (fun _ => 0) 16 (fun _ _ => {})
        = .ok (true, w') ∧
      w'.mon_cnt = demo_open.mon_cnt + 4 ∧ w'.squares_mon 2 2 = demo_open.squares_mon 2 2 := by
  have hrace : race_free demo_open 1 := ⟨rfl, by decide⟩
  have hcells : ∀ i, i < 4 →
      cell_free demo_open (2 + ddy_ddd.getD i 0) (2 + ddx_ddd.getD i 0) := by
    intro i hi
    have hcases : i = 0 ∨ i = 1 ∨ i = 2 ∨ i = 3 := by omega
    rcases hcases with rfl | rfl | rfl | rfl
    · exact ⟨rfl, rfl, rfl, by decide, rfl, rfl⟩
    · exact ⟨rfl, rfl, rfl, by decide, rfl, rfl⟩
    · exact ⟨rfl, rfl, rfl, by decide, rfl, rfl⟩
    · exact ⟨rfl, rfl, rfl, by decide, rfl, rfl⟩
  obtain ⟨w', h1, h2, _, _, h5, _⟩ :=
    place_new_monster_group_five demo_open 2 2 1 false 0 (fun _ => 0) 16 (fun _ _ => {})
      ⟨by decide, by decide⟩ ⟨by decide, by decide⟩ hcells hrace
      ⟨by decide, by decide, by decide⟩
      (fun _ _ => ⟨fun s hs => absurd hs (List.not_mem_nil s),
        fun s hs => absurd hs (List.not_mem_nil s)⟩)
  refine ⟨hrace, w', h1, h2, h5 2 2 ?_⟩
  intro i hi
  have hcases : i = 0 ∨ i = 1 ∨ i = 2 ∨ i = 3 := by omega
  rcases hcases with rfl | rfl | rfl | rfl <;> decide


/-! ## Properties of the drop count and the drop level -/

theorem add7_le (a1 a2 a3 a4 a5 a6 a7 b1 b2 b3 b4 b5 b6 b7 : Int)
    (h1 : a1 ≤ b1) (h2 : a2 ≤ b2) (h3 : a3 ≤ b3) (h4 : a4 ≤ b4) (h5 : a5 ≤ b5)
    (h6 : a6 ≤ b6) (h7 : a7 ≤ b7) :
    a1 + a2 + a3 + a4 + a5 + a6 + a7 ≤ b1 + b2 + b3 + b4 + b5 + b6 + b7 := by
  omega

theorem rand_range_bounds (raw : Nat) (a b : Int) (h : a ≤ b) :
    a ≤ rand_range raw a b ∧ rand_range raw a b ≤ b := by
  unfold rand_range randint0
  have h0 := Int.emod_nonneg (raw : Int) (show (1 + b - a) ≠ 0 by omega)
  have h1 := Int.emod_lt_of_pos (raw : Int) (show 0 < 1 + b - a by omega)
  omega

theorem mon_create_drop_count_max (race : monster_race) (d : count_draws) :
    mon_create_drop_count race true d =
      flag_bit race race_flag.DROP_20 + flag_bit race race_flag.DROP_40 +
      flag_bit race race_flag.DROP_60 + 6 * flag_bit race race_flag.DROP_4 +
      4 * flag_bit race race_flag.DROP_3 + 3 * flag_bit race race_flag.DROP_2 +
      flag_bit race race_flag.DROP_1 := by
  unfold mon_create_drop_count flag_bit
  rw [if_pos rfl]
  have e4 : (if rf_has race.flags race_flag.DROP_4 = true then (6 : Int) else 0) =
      6 * (if rf_has race.flags race_flag.DROP_4 = true then 1 else 0) := by
    split <;> rfl
  have e3 : (if rf_has race.flags race_flag.DROP_3 = true then (4 : Int) else 0) =
      4 * (if rf_has race.flags race_flag.DROP_3 = true then 1 else 0) := by
    split <;> rfl
  have e2 : (if rf_has race.flags race_flag.DROP_2 = true then (3 : Int) else 0) =
      3 * (if rf_has race.flags race_flag.DROP_2 = true then 1 else 0) := by
    split <;> rfl
  rw [e4, e3, e2]

/-- C25: for every race and every outcome of the draws, the random drop
count is at most the maximal one; the maximal count is
`[DROP_20] + [DROP_40] + [DROP_60] + 6 [DROP_4] + 4 [DROP_3] + 3 [DROP_2] +
[DROP_1]`, at most 17 and the same for all draws; the random count is at
least `2 [DROP_4] + 2 [DROP_3] + [DROP_2] + [DROP_1]`; a race with none of the
seven flags has count 0 in both modes. -/
theorem mon_create_drop_count_bounds (race : monster_race) (d : count_draws) :
    mon_create_drop_count race false d ≤ mon_create_drop_count race true d ∧
    mon_create_drop_count race true d =
      flag_bit race race_flag.DROP_20 + flag_bit race race_flag.DROP_40 +
      flag_bit race race_flag.DROP_60 + 6 * flag_bit race race_flag.DROP_4 +
      4 * flag_bit race race_flag.DROP_3 + 3 * flag_bit race race_flag.DROP_2 +
      flag_bit race race_flag.DROP_1 ∧
    mon_create_drop_count race true d ≤ 17 ∧
    2 * flag_bit race race_flag.DROP_4 + 2 * flag_bit race race_flag.DROP_3 +
      flag_bit race race_flag.DROP_2 + flag_bit race race_flag.DROP_1
      ≤ mon_create_drop_count race false d ∧
    ((∀ f ∈ [race_flag.DROP_20, race_flag.DROP_40, race_flag.DROP_60, race_flag.DROP_4,
        race_flag.DROP_3, race_flag.DROP_2, race_flag.DROP_1], rf_has race.flags f = false) →
      mon_create_drop_count race false d = 0 ∧ mon_create_drop_count race true d = 0) := by
  have r4 := rand_range_bounds d.d4 2 6 (by decide)
  have r3 := rand_range_bounds d.d3 2 4 (by decide)
  have r2 := rand_range_bounds d.d2 1 3 (by decide)
  refine ⟨?_, mon_create_drop_count_max race d, ?_, ?_, ?_⟩
  · unfold mon_create_drop_count
    rw [if_neg (by decide), if_pos rfl]
    apply add7_le
    · split <;> split <;> simp_all
    · split <;> split <;> simp_all
    · split <;> split <;> simp_all
    · split
      · exact r4.2
      · exact le_refl _
    · split
      · exact r3.2
      · exact le_refl _
    · split
      · exact r2.2
      · exact le_refl _
    · exact le_refl _
  · rw [mon_create_drop_count_max]
    unfold flag_bit
    show _ ≤ (1 : Int) + 1 + 1 + 6 + 4 + 3 + 1
    apply add7_le <;> split <;> decide
  · unfold mon_create_drop_count flag_bit
    rw [if_neg (show ¬ (false = true) by decide)]
    have h := add7_le 0 0 0
      (2 * (if rf_has race.flags race_flag.DROP_4 = true then (1 : Int) else 0))
      (2 * (if rf_has race.flags race_flag.DROP_3 = true then (1 : Int) else 0))
      (if rf_has race.flags race_flag.DROP_2 = true then (1 : Int) else 0)
      (if rf_has race.flags race_flag.DROP_1 = true then (1 : Int) else 0)
      (if rf_has race.flags race_flag.DROP_20 = true ∧ randint0 d.d20 100 < 20 then 1 else 0)
      (if rf_has race.flags race_flag.DROP_40 = true ∧ randint0 d.d40 100 < 40 then 1 else 0)
      (if rf_has race.flags race_flag.DROP_60 = true ∧ randint0 d.d60 100 < 60 then 1 else 0)
      (if rf_has race.flags race_flag.DROP_4 = true then rand_range d.d4 2 6 else 0)
      (if rf_has race.flags race_flag.DROP_3 = true then rand_range d.d3 2 4 else 0)
      (if rf_has race.flags race_flag.DROP_2 = true then rand_range d.d2 1 3 else 0)
      (if rf_has race.flags race_flag.DROP_1 = true then 1 else 0)
      (by split <;> decide) (by split <;> decide) (by split <;> decide)
      (by split
          · omega
          · decide)
      (by split
          · omega
          · decide)
      (by split
          · omega
          · decide)
      (le_refl _)
    simp only [zero_add] at h
    exact h
  · intro hnone
    have h20 := hnone race_flag.DROP_20 (by simp)
    have h40 := hnone race_flag.DROP_40 (by simp)
    have h60 := hnone race_flag.DROP_60 (by simp)
    have h4 := hnone race_flag.DROP_4 (by simp)
    have h3 := hnone race_flag.DROP_3 (by simp)
    have h2 := hnone race_flag.DROP_2 (by simp)
    have h1 := hnone race_flag.DROP_1 (by simp)
    unfold mon_create_drop_count
    simp [h20, h40, h60, h4, h3, h2, h1]

theorem mon_create_drop_count_bounds_witness :
    mon_create_drop_count {} false {} = 0 ∧ mon_create_drop_count {} true {} = 0 :=
  (mon_create_drop_count_bounds {} {}).2.2.2.2 (by decide)

/-- C26 (counterexample): for a unique of level 20 with the player at depth
20 the level used by `mon_create_drop` is 35, while
`min(100, max(floor((20 + 20) / 2), 20))` is 20. -/
theorem drop_level_unique_boost :
    drop_level { level := 20, flags := [race_flag.UNIQUE] } 20 = 35 ∧
    min 100 (max ((20 + 20) / 2) 20) = (20 : Int) := by
  decide

theorem tdiv_two (a : Int) (h : 0 ≤ a) : Int.tdiv a 2 = a / 2 := by
  rw [Int.tdiv_eq_ediv h (by decide)]

/-- C26 (amended): the level used by `mon_create_drop` is
`min(100, max(floor((m + d) / 2), m))` where `m` is the race level `r` for a
race that is not a unique and `min(r + 15, 2 r)` for a unique (levels and
depth not negative). It is never above 100 and never below `min(100, r)`. -/
theorem drop_level_spec (race : monster_race) (depth : Int)
    (hl : 0 ≤ race.level) (hd : 0 ≤ depth) :
    drop_level race depth =
      min 100 (max ((bonus_level race + depth) / 2) (bonus_level race)) ∧
    (rf_has race.flags race_flag.UNIQUE = false → bonus_level race = race.level) ∧
    (rf_has race.flags race_flag.UNIQUE = true →
      bonus_level race = min (race.level + 15) (race.level * 2)) ∧
    drop_level race depth ≤ 100 ∧
    min 100 race.level ≤ drop_level race depth := by
  have hb : race.level ≤ bonus_level race := by
    unfold bonus_level
    split
    · omega
    · exact le_refl _
  have he : drop_level race depth =
      min 100 (max ((bonus_level race + depth) / 2) (bonus_level race)) := by
    unfold drop_level
    simp only
    rw [show (if rf_has race.flags race_flag.UNIQUE = true
        then min (race.level + 15) (race.level * 2) else race.level) = bonus_level race
      from rfl, tdiv_two _ (by omega), min_comm]
  refine ⟨he, ?_, ?_, ?_, ?_⟩
  · intro hu
    unfold bonus_level
    rw [if_neg (by rw [hu]; decide)]
  · intro hu
    unfold bonus_level
    rw [if_pos hu]
  · rw [he]; exact min_le_left _ _
  · rw [he]
    omega

theorem drop_level_spec_witness :
    drop_level { level := 20 } 30 = 25 ∧ drop_level { level := 20 } 30 ≤ 100 := by
  have h := drop_level_spec { level := 20 } 30 (by decide) (by decide)
  exact ⟨by rw [h.1]; decide, h.2.2.2.1⟩

/-- C27: in `mon_create_drop` the rollback after a failed `monster_carry`
runs `obj->artifact->created = FALSE` whatever the object is. For an artifact
the marker is reverted, the monster and the flag `any` are unchanged and the
generation goes on; for an object that is not an artifact (`obj->artifact` is
`NULL`: gold, an ordinary object) the statement dereferences `NULL`. On
`demo_dropper`, whose monster makes one gold drop, a failed carry ends the
call in this fault. -/
theorem mon_create_drop_rollback :
    (∀ st obj, obj.artifact = none → try_carry st obj false = .error fault.null_deref) ∧
    (∀ st obj a, obj.artifact = some a →
      try_carry st obj false = .ok (st.1, created_set st.2.1 a false, st.2.2)) ∧
    (demo_dropper.monsters 1).race = some 3 ∧
    mon_create_drop_count (demo_dropper.r_info.getD 3 {}) false {} = 1 ∧
    mon_create_drop demo_dropper 1 1 { random := [{ carry := false }] }
      = .error fault.null_deref := by
  refine ⟨?_, ?_, rfl, rfl, rfl⟩
  · intro st obj h
    unfold try_carry
    rw [if_neg (by decide), h]
  · intro st obj a h
    unfold try_carry
    rw [if_neg (by decide), h]

/-! ## Properties of the cumulative-weight search -/

theorem cum_weight_zero (table : List alloc_entry) : cum_weight table 0 = 0 := by
  unfold cum_weight; simp

theorem cum_weight_cons (a : alloc_entry) (l : List alloc_entry) (k : Nat) :
    cum_weight (a :: l) (k + 1) = a.prob3 + cum_weight l k := by
  unfold cum_weight; simp

theorem race_aux_scan_first (table : List alloc_entry) (value : Int) (k : Nat)
    (h0 : 0 ≤ value) (hlt : value < cum_weight table k) :
    race_aux_scan table value < k ∧
    race_aux_scan table value < table.length ∧
    cum_weight table (race_aux_scan table value) ≤ value ∧
    value < cum_weight table (race_aux_scan table value + 1) ∧
    (∀ j, j < race_aux_scan table value → cum_weight table (j + 1) ≤ value) := by
  induction table generalizing value k with
  | nil =>
    unfold cum_weight at hlt
    simp at hlt
    omega
  | cons a l ih =>
    cases k with
    | zero => rw [cum_weight_zero] at hlt; omega
    | succ k =>
      rw [cum_weight_cons] at hlt
      unfold race_aux_scan
      by_cases hv : value < a.prob3
      · rw [if_pos hv]
        refine ⟨by omega, by simp, ?_, ?_, fun j hj => by omega⟩
        · rw [cum_weight_zero]; exact h0
        · rw [cum_weight_cons, cum_weight_zero]; omega
      · rw [if_neg hv]
        obtain ⟨i1, i2, i3, i4, i5⟩ := ih (value - a.prob3) k (by omega) (by omega)
        refine ⟨by omega, by simp; omega, ?_, ?_, ?_⟩
        · rw [cum_weight_cons]; omega
        · rw [cum_weight_cons]; omega
        · intro j hj
          cases j with
          | zero => rw [cum_weight_cons, cum_weight_zero]; omega
          | succ j =>
            have := i5 j (by omega)
            rw [cum_weight_cons]; omega

/-- C28: for every table whose first `k` entries have effective weights
(`prob3`) summing to `total > 0`, and every raw draw, the value
`v = randint0(total)` lies in `[0, total)` and `get_mon_race_aux` returns the
race of the entry `i` with `cum(i) ≤ v < cum(i + 1)`, the first entry whose
cumulative weight exceeds `v`; `i` is below `k`, so within the table, and the
entry has a positive weight. No assumption on the sign of the weights is
needed. -/
theorem get_mon_race_aux_first (table : List alloc_entry) (total : Int) (raw : Nat) (k : Nat)
    (hsum : cum_weight table k = total) (hpos : 0 < total) :
    0 ≤ randint0 raw total ∧ randint0 raw total < total ∧
    ∃ i e, i < k ∧ table[i]? = some e ∧
      get_mon_race_aux total table raw = .ok e.index ∧
      cum_weight table i ≤ randint0 raw total ∧
      randint0 raw total < cum_weight table (i + 1) ∧
      (∀ j, j < i → cum_weight table (j + 1) ≤ randint0 raw total) ∧
      0 < e.prob3 := by
  have hv0 : 0 ≤ randint0 raw total := Int.emod_nonneg (raw : Int) (ne_of_gt hpos)
  have hv1 : randint0 raw total < total := Int.emod_lt_of_pos (raw : Int) hpos
  refine ⟨hv0, hv1, ?_⟩
  obtain ⟨i1, i2, i3, i4, i5⟩ := race_aux_scan_first table (randint0 raw total) k hv0
    (by rw [hsum]; exact hv1)
  have hget : table[race_aux_scan table (randint0 raw total)]? =
      some (table[race_aux_scan table (randint0 raw total)]) := List.getElem?_eq_getElem i2
  refine ⟨race_aux_scan table (randint0 raw total), _, i1, hget, ?_, i3, i4, i5, ?_⟩
  · unfold get_mon_race_aux
    rw [hget]
  · have hstep : cum_weight table (race_aux_scan table (randint0 raw total) + 1) =
        cum_weight table (race_aux_scan table (randint0 raw total)) +
          (table[race_aux_scan table (randint0 raw total)]).prob3 := by
      unfold cum_weight
      rw [List.take_succ, List.map_append, List.sum_append, hget]
      simp
    omega

theorem get_mon_race_aux_first_witness :
    cum_weight demo_scored 4 = 18 ∧
    ∃ i e, i < 4 ∧ demo_scored[i]? = some e ∧
      get_mon_race_aux 18 demo_scored 15 = .ok e.index ∧ 0 < e.prob3 := by
  obtain ⟨_, _, i, e, h1, h2, h3, _, _, _, h7⟩ :=
    get_mon_race_aux_first demo_scored 18 15 4 (by decide) (by decide)
  exact ⟨by decide, i, e, h1, h2, h3, h7⟩

theorem keep_deepest_level (r_info : List monster_race) (a b : Nat) :
    (r_info.getD (keep_deepest r_info a b) {}).level =
      max (r_info.getD a {}).level (r_info.getD b {}).level ∧
    ((r_info.getD a {}).level ≤ (r_info.getD b {}).level → keep_deepest r_info a b = b) ∧
    ((r_info.getD b {}).level < (r_info.getD a {}).level → keep_deepest r_info a b = a) := by
  unfold keep_deepest
  by_cases h : (r_info.getD b {}).level < (r_info.getD a {}).level
  · rw [if_pos h]
    exact ⟨by omega, fun h' => by omega, fun _ => rfl⟩
  · rw [if_neg h]
    exact ⟨by omega, fun _ => rfl, fun h' => absurd h' h⟩

theorem get_mon_num_candidates (env : selector_env) (table : List alloc_entry) (level : Int)
    (d : mon_num_draws)
    (h : 0 < (prob_scan env (boosted_level level d.ood env.ood_monster_amount) table 0).2) :
    ∃ c1 c2 c3,
      get_mon_race_aux
        (prob_scan env (boosted_level level d.ood env.ood_monster_amount) table 0).2
        (prob_scan env (boosted_level level d.ood env.ood_monster_amount) table 0).1 d.pick1
        = .ok c1 ∧
      get_mon_race_aux
        (prob_scan env (boosted_level level d.ood env.ood_monster_amount) table 0).2
        (prob_scan env (boosted_level level d.ood env.ood_monster_amount) table 0).1 d.pick2
        = .ok c2 ∧
      get_mon_race_aux
        (prob_scan env (boosted_level level d.ood env.ood_monster_amount) table 0).2
        (prob_scan env (boosted_level level d.ood env.ood_monster_amount) table 0).1 d.pick3
        = .ok c3 ∧
      get_mon_num env table level d = .ok
        (some (reroll_keep env.r_info (randint0 d.reroll 100) c1 c2 c3),
         (prob_scan env (boosted_level level d.ood env.ood_monster_amount) table 0).1) := by
  obtain ⟨c1, h1, _⟩ := get_mon_race_aux_spec env _ table d.pick1 h
  obtain ⟨c2, h2, _⟩ := get_mon_race_aux_spec env _ table d.pick2 h
  obtain ⟨c3, h3, _⟩ := get_mon_race_aux_spec env _ table d.pick3 h
  refine ⟨c1, c2, c3, h1, h2, h3, ?_⟩
  unfold get_mon_num reroll_keep
  simp only [not_le.mpr h, if_false, h1, h2, h3, bind, Except.bind]
  by_cases hp60 : randint0 d.reroll 100 < 60
  · by_cases hp10 : randint0 d.reroll 100 < 10
    · simp only [hp60, hp10, if_true, pure, Except.pure]
    · simp only [hp60, hp10, if_true, if_false, pure, Except.pure]
  · have hp10 : ¬ randint0 d.reroll 100 < 10 := by omega
    simp only [hp60, hp10, if_false, pure, Except.pure]

/-- C29: when the scan of `get_mon_num` finds a positive total, the reroll
value `p = randint0(100)` lies in `[0, 100)` and the call returns the race
kept among the candidates `c1`, `c2`, `c3` drawn by `get_mon_race_aux`: `c1`
alone when `p ≥ 60` (the result does not depend on the other two draws),
the deeper of `c1` and `c2` when `10 ≤ p < 60` (the result does not depend on
the third draw), and the deepest of the three when `p < 10`. "Keep the
deepest" keeps the later draw when the levels tie, the level of the result is
the maximum of the levels of the candidates drawn, and it is never below the
level of the first candidate. -/
theorem get_mon_num_rerolls (env : selector_env) (table : List alloc_entry) (level : Int)
    (d : mon_num_draws)
    (h : 0 < (prob_scan env (boosted_level level d.ood env.ood_monster_amount) table 0).2) :
    0 ≤ randint0 d.reroll 100 ∧ randint0 d.reroll 100 < 100 ∧
    ∃ c1 c2 c3 r,
      get_mon_race_aux
        (prob_scan env (boosted_level level d.ood env.ood_monster_amount) table 0).2
        (prob_scan env (boosted_level level d.ood env.ood_monster_amount) table 0).1 d.pick1
        = .ok c1 ∧
      get_mon_race_aux
        (prob_scan env (boosted_level level d.ood env.ood_monster_amount) table 0).2
        (prob_scan env (boosted_level level d.ood env.ood_monster_amount) table 0).1 d.pick2
        = .ok c2 ∧
      get_mon_race_aux
        (prob_scan env (boosted_level level d.ood env.ood_monster_amount) table 0).2
        (prob_scan env (boosted_level level d.ood env.ood_monster_amount) table 0).1 d.pick3
        = .ok c3 ∧
      get_mon_num env table level d = .ok (some r,
        (prob_scan env (boosted_level level d.ood env.ood_monster_amount) table 0).1) ∧
      (60 ≤ randint0 d.reroll 100 → r = c1 ∧
        ∀ d', d'.ood = d.ood → d'.pick1 = d.pick1 → d'.reroll = d.reroll →
          get_mon_num env table level d' = get_mon_num env table level d) ∧
      (10 ≤ randint0 d.reroll 100 → randint0 d.reroll 100 < 60 →
        r = keep_deepest env.r_info c1 c2 ∧
        (env.r_info.getD r {}).level =
          max (env.r_info.getD c1 {}).level (env.r_info.getD c2 {}).level ∧
        ∀ d', d'.ood = d.ood → d'.pick1 = d.pick1 → d'.pick2 = d.pick2 →
          d'.reroll = d.reroll →
          get_mon_num env table level d' = get_mon_num env table level d) ∧
      (randint0 d.reroll 100 < 10 →
        r = keep_deepest env.r_info (keep_deepest env.r_info c1 c2) c3 ∧
        (env.r_info.getD r {}).level =
          max (max (env.r_info.getD c1 {}).level (env.r_info.getD c2 {}).level)
            (env.r_info.getD c3 {}).level) ∧
      (∀ a b, (env.r_info.getD a {}).level ≤ (env.r_info.getD b {}).level →
        keep_deepest env.r_info a b = b) ∧
      (env.r_info.getD c1 {}).level ≤ (env.r_info.getD r {}).level := by
  have hp0 : 0 ≤ randint0 d.reroll 100 := Int.emod_nonneg _ (by decide)
  have hp1 : randint0 d.reroll 100 < 100 := Int.emod_lt_of_pos _ (by decide)
  refine ⟨hp0, hp1, ?_⟩
  obtain ⟨c1, c2, c3, h1, h2, h3, hrun⟩ := get_mon_num_candidates env table level d h
  have k12 := keep_deepest_level env.r_info c1 c2
  have k123 := keep_deepest_level env.r_info (keep_deepest env.r_info c1 c2) c3
  refine ⟨c1, c2, c3, _, h1, h2, h3, hrun, ?_, ?_, ?_,
    fun a b hab => (keep_deepest_level env.r_info a b).2.1 hab, ?_⟩
  · intro hp
    have hr : reroll_keep env.r_info (randint0 d.reroll 100) c1 c2 c3 = c1 := by
      unfold reroll_keep
      rw [if_neg (by omega), if_neg (by omega)]
    refine ⟨hr, ?_⟩
    intro d' e1 e2 e3
    have h' : 0 < (prob_scan env (boosted_level level d'.ood env.ood_monster_amount)
        table 0).2 := by rw [e1]; exact h
    obtain ⟨c1', c2', c3', h1', _, _, hrun'⟩ := get_mon_num_candidates env table level d' h'
    rw [e1, e2, h1] at h1'
    injection h1' with h1'
    rw [hrun, hrun', e1, e3, hr, ← h1']
    unfold reroll_keep
    rw [if_neg (by omega), if_neg (by omega)]
  · intro hp10 hp60
    have hr : reroll_keep env.r_info (randint0 d.reroll 100) c1 c2 c3 =
        keep_deepest env.r_info c1 c2 := by
      unfold reroll_keep
      rw [if_neg (by omega), if_pos hp60]
    refine ⟨hr, by rw [hr]; exact k12.1, ?_⟩
    intro d' e1 e2 e2' e3
    have h' : 0 < (prob_scan env (boosted_level level d'.ood env.ood_monster_amount)
        table 0).2 := by rw [e1]; exact h
    obtain ⟨c1', c2', c3', h1', h2', _, hrun'⟩ := get_mon_num_candidates env table level d' h'
    rw [e1, e2, h1] at h1'
    rw [e1, e2', h2] at h2'
    injection h1' with h1'
    injection h2' with h2'
    rw [hrun, hrun', e1, e3, hr, ← h1', ← h2']
    unfold reroll_keep
    rw [if_neg (by omega), if_pos hp60]
  · intro hp10
    have hr : reroll_keep env.r_info (randint0 d.reroll 100) c1 c2 c3 =
        keep_deepest env.r_info (keep_deepest env.r_info c1 c2) c3 := by
      unfold reroll_keep
      rw [if_pos hp10]
    refine ⟨hr, ?_⟩
    rw [hr, k123.1, k12.1]
  · unfold reroll_keep
    by_cases hp10 : randint0 d.reroll 100 < 10
    · rw [if_pos hp10, k123.1, k12.1]
      omega
    · rw [if_neg hp10]
      by_cases hp60 : randint0 d.reroll 100 < 60
      · rw [if_pos hp60, k12.1]
        omega
      · rw [if_neg hp60]

theorem get_mon_num_rerolls_witness :
    0 < (prob_scan demo_env (boosted_level 3 false demo_env.ood_monster_amount)
      demo_table 0).2 ∧
    randint0 7 100 < 10 ∧
    get_mon_num demo_env demo_table 3 { pick1 := 3, pick2 := 15, pick3 := 0, reroll := 7 }
      = .ok (some 1, demo_scored) ∧
    ∃ c1 c2 c3 r,
      get_mon_num demo_env demo_table 3 { pick1 := 3, pick2 := 15, pick3 := 0, reroll := 7 }
        = .ok (some r, demo_scored) ∧
      r = keep_deepest demo_env.r_info (keep_deepest demo_env.r_info c1 c2) c3 := by
  refine ⟨by decide, by decide, by decide, ?_⟩
  obtain ⟨_, _, c1, c2, c3, r, _, _, _, hrun, _, _, h3, _⟩ :=
    get_mon_num_rerolls demo_env demo_table 3
      { pick1 := 3, pick2 := 15, pick3 := 0, reroll := 7 } (by decide)
  exact ⟨c1, c2, c3, r, hrun, (h3 (by decide)).1⟩

/-! ## Properties of damage and death -/

theorem s32b_id (x : Int) (h1 : -2147483648 ≤ x) (h2 : x ≤ 2147483647) : s32b x = x := by
  unfold s32b; omega

theorem kill_exp_spec (mexp level L F : Int) (hL : 1 ≤ L) (hF0 : 0 ≤ F) (hF1 : F < 65536)
    (hp : 0 ≤ mexp * level) (hfit : mexp * level / L < 2147483647) :
    (kill_exp mexp level L F).1 * 65536 + (kill_exp mexp level L F).2 =
      (mexp * level / L) * 65536 + (mexp * level % L) * 65536 / L + F ∧
    0 ≤ (kill_exp mexp level L F).2 ∧ (kill_exp mexp level L F).2 < 65536 ∧
    ((kill_exp mexp level L F).1 = mexp * level / L ∨
      (kill_exp mexp level L F).1 = mexp * level / L + 1) ∧
    ((kill_exp mexp level L F).1 = mexp * level / L + 1 ↔
      65536 ≤ (mexp * level % L) * 65536 / L + F) := by
  have hq0 : 0 ≤ mexp * level / L := Int.ediv_nonneg hp (by omega)
  have hr0 : 0 ≤ mexp * level % L := Int.emod_nonneg _ (by omega)
  have hr1 : mexp * level % L < L := Int.emod_lt_of_pos _ (by omega)
  have ht0 : 0 ≤ (mexp * level % L) * 65536 / L :=
    Int.ediv_nonneg (by positivity) (by omega)
  have ht1 : (mexp * level % L) * 65536 / L < 65536 := by
    apply Int.ediv_lt_of_lt_mul (by omega)
    nlinarith
  have e1 : Int.tdiv (mexp * level) L = mexp * level / L :=
    Int.tdiv_eq_ediv hp (by omega)
  have e2 : Int.tmod (mexp * level) L = mexp * level % L :=
    Int.tmod_eq_emod hp (by omega)
  have e3 : Int.tdiv (mexp * level % L * 65536) L = (mexp * level % L) * 65536 / L :=
    Int.tdiv_eq_ediv (by positivity) (by omega)
  unfold kill_exp
  simp only [e1, e2, e3]
  rw [s32b_id (mexp * level / L) (by omega) (by omega),
    s32b_id ((mexp * level % L) * 65536 / L + F) (by omega) (by omega)]
  by_cases hroll : (mexp * level % L) * 65536 / L + F ≥ 65536
  · rw [if_pos hroll]
    simp only
    rw [s32b_id _ (by omega) (by omega)]
    unfold u16b
    refine ⟨by omega, by omega, by omega, Or.inr rfl, ?_⟩
    constructor
    · intro _; omega
    · intro _; rfl
  · rw [if_neg hroll]
    simp only
    unfold u16b
    refine ⟨by omega, by omega, by omega, Or.inl trivial, ?_⟩
    constructor
    · intro h; omega
    · intro h; omega

theorem mon_take_hit_lethal (w : world) (m : Nat) (dam : Int) (fear : Bool) (d : hit_draws)
    (r : Nat) (hrace : (w.monsters m).race = some r)
    (hdead : (w.monsters m).hp - dam < 0) (hlev : w.lev ≠ 0) :
    mon_take_hit w m dam fear d =
      match delete_monster_idx (slain w m r dam) ((slain w m r dam).monsters m).midx with
      | .error e => .error e
      | .ok w6 => .ok (true, false, w6) := by
  unfold mon_take_hit
  split
  · rename_i hnone
    rw [hrace] at hnone
    cases hnone
  · rename_i r' hsome
    have hrr : r' = r := by
      rw [hrace] at hsome
      injection hsome with hsome
      exact hsome.symm
    subst hrr
    simp only
    rw [if_pos hdead, if_neg hlev]
    rfl

theorem slain_monster (w : world) (m : Nat) (r : Nat) (dam : Int) :
    (slain w m r dam).monsters m =
      { w.monsters m with sleep := 0, unaware := false, hp := (w.monsters m).hp - dam,
                          held_obj := [], mimicked_obj := none } := by
  unfold slain monster_death
  by_cases hu : rf_has (w.r_info.getD r {}).flags race_flag.UNIQUE = true
  · simp only [if_pos hu, slot_set_same]
  · simp only [if_neg hu, slot_set_same]

theorem slain_fields (w : world) (m : Nat) (r : Nat) (dam : Int) :
    (slain w m r dam).exp =
      w.exp + (kill_exp (w.r_info.getD r {}).mexp (w.r_info.getD r {}).level w.lev
        w.exp_frac).1 ∧
    (slain w m r dam).exp_frac =
      (kill_exp (w.r_info.getD r {}).mexp (w.r_info.getD r {}).level w.lev w.exp_frac).2 ∧
    (slain w m r dam).r_info =
      (if rf_has (w.r_info.getD r {}).flags race_flag.UNIQUE = true then
        race_update w.r_info r (fun race => { race with max_num := 0 })
      else w.r_info) ∧
    (slain w m r dam).height = w.height ∧ (slain w m r dam).width = w.width ∧
    (slain w m r dam).squares_mon = w.squares_mon ∧
    (slain w m r dam).mon_max = w.mon_max ∧
    (∀ j, j ≠ m → (slain w m r dam).monsters j = w.monsters j) := by
  unfold slain monster_death
  by_cases hu : rf_has (w.r_info.getD r {}).flags race_flag.UNIQUE = true
  · simp only [if_pos hu]
    refine ⟨?_, ?_, ?_, ?_, ?_, ?_, ?_, ?_⟩ <;> first | rfl | trivial | skip
    intro j hj
    simp only [slot_set, if_neg hj]
  · simp only [if_neg hu]
    refine ⟨?_, ?_, ?_, ?_, ?_, ?_, ?_, ?_⟩ <;> first | rfl | trivial | skip
    intro j hj
    simp only [slot_set, if_neg hj]

theorem mon_take_hit_kills (w : world) (m : Nat) (dam : Int) (fear : Bool) (d : hit_draws)
    (r : Nat) (hrace : (w.monsters m).race = some r)
    (hdead : (w.monsters m).hp - dam < 0) (hlev : w.lev ≠ 0)
    (hm : 1 ≤ m) (hmidx : (w.monsters m).midx = (m : Int))
    (hin : square_in_bounds w (w.monsters m).fy (w.monsters m).fx = true) :
    ∃ w', mon_take_hit w m dam fear d = .ok (true, false, w') ∧
      w'.exp = w.exp + (kill_exp (w.r_info.getD r {}).mexp (w.r_info.getD r {}).level w.lev
        w.exp_frac).1 ∧
      w'.exp_frac =
        (kill_exp (w.r_info.getD r {}).mexp (w.r_info.getD r {}).level w.lev w.exp_frac).2 ∧
      w'.monsters m = {} ∧
      (∀ j, j ≠ m → w'.monsters j = w.monsters j) ∧
      w'.r_info = race_update
        (if rf_has (w.r_info.getD r {}).flags race_flag.UNIQUE = true then
          race_update w.r_info r (fun race => { race with max_num := 0 })
        else w.r_info) r (fun race => { race with cur_num := race.cur_num - 1 }) ∧
      w'.squares_mon = grid_set w.squares_mon (w.monsters m).fy (w.monsters m).fx 0 ∧
      w'.mon_max = w.mon_max := by
  have hmon := slain_monster w m r dam
  obtain ⟨f1, f2, f3, f4, f5, f6, f7, f8⟩ := slain_fields w m r dam
  have hidx : ((slain w m r dam).monsters m).midx = (m : Int) := by
    rw [hmon]; exact hmidx
  have hdel := delete_monster_idx_ok (slain w m r dam) (m : Int) r (by omega)
    (by simp only [Int.toNat_ofNat]; rw [hmon]; exact hrace)
    (by
      simp only [Int.toNat_ofNat]
      rw [hmon]
      unfold square_in_bounds at hin ⊢
      rw [f4, f5]
      exact hin)
  rw [mon_take_hit_lethal w m dam fear d r hrace hdead hlev, hidx, hdel]
  simp only [Int.toNat_ofNat]
  refine ⟨_, rfl, f1, f2, ?_, ?_, ?_, ?_, f7⟩
  · simp only [slot_set_same]
  · intro j hj
    simp only [slot_set, if_neg hj]
    exact f8 j hj
  · simp only
    rw [f3]
  · simp only
    rw [f6, hmon]

theorem hit_fear_ok (mon : monster) (race : monster_race) (dam : Int) (fear : Bool)
    (d : hit_draws) (hmax : mon.maxhp ≠ 0) :
    ∃ s, hit_fear mon race dam fear d = .ok s ∧ s.2.race = mon.race ∧ s.2.hp = mon.hp ∧
      s.2.fy = mon.fy ∧ s.2.fx = mon.fx ∧ s.2.midx = mon.midx := by
  unfold hit_fear
  generalize hs1 : (if fear = false ∧ mon.fear ≠ 0 ∧ dam > 0 then
      if randint1 d.pain dam < mon.fear then
        (fear, { mon with fear := mon.fear - randint1 d.pain dam })
      else (false, { mon with fear := 0 })
    else (fear, mon) : Bool × monster) = s1
  have hf : s1.2.maxhp = mon.maxhp ∧ s1.2.race = mon.race ∧ s1.2.hp = mon.hp ∧
      s1.2.fy = mon.fy ∧ s1.2.fx = mon.fx ∧ s1.2.midx = mon.midx := by
    rw [← hs1]
    split
    · split
      · exact ⟨rfl, rfl, rfl, rfl, rfl, rfl⟩
      · exact ⟨rfl, rfl, rfl, rfl, rfl, rfl⟩
    · exact ⟨rfl, rfl, rfl, rfl, rfl, rfl⟩
  obtain ⟨g1, g2, g3, g4, g5, g6⟩ := hf
  simp only
  split
  · rw [if_neg (by rw [g1]; exact hmax)]
    split
    · exact ⟨_, rfl, g2, g3, g4, g5, g6⟩
    · exact ⟨_, rfl, g2, g3, g4, g5, g6⟩
  · exact ⟨_, rfl, g2, g3, g4, g5, g6⟩

theorem mon_take_hit_survives (w : world) (m : Nat) (dam : Int) (fear : Bool) (d : hit_draws)
    (r : Nat) (hrace : (w.monsters m).race = some r)
    (halive : ¬ (w.monsters m).hp - dam < 0) (hmax : (w.monsters m).maxhp ≠ 0) :
    ∃ fear' w', mon_take_hit w m dam fear d = .ok (false, fear', w') ∧
      (w'.monsters m).race = some r ∧
      (w'.monsters m).hp = (w.monsters m).hp - dam ∧
      (w'.monsters m).fy = (w.monsters m).fy ∧ (w'.monsters m).fx = (w.monsters m).fx ∧
      (w'.monsters m).midx = (w.monsters m).midx ∧
      (∀ j, j ≠ m → w'.monsters j = w.monsters j) ∧
      w'.r_info = w.r_info ∧ w'.squares_mon = w.squares_mon ∧ w'.mon_max = w.mon_max ∧
      w'.exp = w.exp ∧ w'.exp_frac = w.exp_frac := by
  obtain ⟨s, hs, g2, g3, g4, g5, g6⟩ := hit_fear_ok
    { w.monsters m with sleep := 0, unaware := false, hp := (w.monsters m).hp - dam }
    (w.r_info.getD r {}) dam fear d hmax
  unfold mon_take_hit
  split
  · rename_i hnone
    rw [hrace] at hnone
    cases hnone
  · rename_i r' hsome
    have hrr : r' = r := by
      rw [hrace] at hsome
      injection hsome with hsome
      exact hsome.symm
    subst hrr
    simp only
    rw [if_neg halive, hs]
    refine ⟨s.1, _, rfl, ?_, ?_, ?_, ?_, ?_, ?_, rfl, rfl, rfl, rfl, rfl⟩
    · simp only [slot_set_same]; rw [g2]; exact hrace
    · simp only [slot_set_same]; rw [g3]
    · simp only [slot_set_same]; rw [g4]
    · simp only [slot_set_same]; rw [g5]
    · simp only [slot_set_same]; rw [g6]
    · intro j hj
      simp only [slot_set, if_neg hj]

/-- C21: when `mon_take_hit` kills the monster in slot `m` (damage at least
`hp + 1`) with the player at level `L ≥ 1` and the accumulator `exp_frac = F`
in `[0, 65536)`, the call returns TRUE and the experience granted
`G = exp' - exp` and the new accumulator `F'` satisfy
`G * 65536 + F' = floor(mexp * level / L) * 65536 +
floor(((mexp * level) mod L) * 65536 / L) + F` with `0 ≤ F' < 65536`; `G` is
`floor(mexp * level / L)` or that value plus 1, the latter exactly when the
fractional sum reaches 65536. -/
theorem mon_take_hit_exp (w : world) (m : Nat) (dam : Int) (fear : Bool) (d : hit_draws)
    (r : Nat) (hrace : (w.monsters m).race = some r)
    (hdead : dam ≥ (w.monsters m).hp + 1)
    (hm : 1 ≤ m) (hmidx : (w.monsters m).midx = (m : Int))
    (hin : square_in_bounds w (w.monsters m).fy (w.monsters m).fx = true)
    (hL : 1 ≤ w.lev) (hF : 0 ≤ w.exp_frac ∧ w.exp_frac < 65536)
    (hnn : 0 ≤ (w.r_info.getD r {}).mexp ∧ 0 ≤ (w.r_info.getD r {}).level)
    (hfit : (w.r_info.getD r {}).mexp * (w.r_info.getD r {}).level / w.lev < 2147483647) :
    ∃ w', mon_take_hit w m dam fear d = .ok (true, false, w') ∧
      (w'.exp - w.exp) * 65536 + w'.exp_frac =
        ((w.r_info.getD r {}).mexp * (w.r_info.getD r {}).level / w.lev) * 65536 +
        ((w.r_info.getD r {}).mexp * (w.r_info.getD r {}).level % w.lev) * 65536 / w.lev +
        w.exp_frac ∧
      0 ≤ w'.exp_frac ∧ w'.exp_frac < 65536 ∧
      (w'.exp - w.exp = (w.r_info.getD r {}).mexp * (w.r_info.getD r {}).level / w.lev ∨
        w'.exp - w.exp =
          (w.r_info.getD r {}).mexp * (w.r_info.getD r {}).level / w.lev + 1) ∧
      (w'.exp - w.exp =
          (w.r_info.getD r {}).mexp * (w.r_info.getD r {}).level / w.lev + 1 ↔
        65536 ≤ ((w.r_info.getD r {}).mexp * (w.r_info.getD r {}).level % w.lev) * 65536
          / w.lev + w.exp_frac) := by
  obtain ⟨w', hrun, hexp, hfrac, _⟩ := mon_take_hit_kills w m dam fear d r hrace (by omega)
    (by omega) hm hmidx hin
  obtain ⟨k1, k2, k3, k4, k5⟩ := kill_exp_spec (w.r_info.getD r {}).mexp
    (w.r_info.getD r {}).level w.lev w.exp_frac hL hF.1 hF.2
    (Int.mul_nonneg hnn.1 hnn.2) hfit
  have hG : w'.exp - w.exp = (kill_exp (w.r_info.getD r {}).mexp (w.r_info.getD r {}).level
      w.lev w.exp_frac).1 := by rw [hexp]; omega
  refine ⟨w', hrun, ?_, ?_, ?_, ?_, ?_⟩
  · rw [hG, hfrac]; exact k1
  · rw [hfrac]; exact k2
  · rw [hfrac]; exact k3
  · rw [hG]; exact k4
  · rw [hG]; exact k5

theorem mon_take_hit_exp_witness :
    mon_take_hit demo_world 1 10 false {} = .ok (true, false, demo_world_after) ∧
    demo_world_after.exp - demo_world.exp = 38 ∧ demo_world_after.exp_frac = 37449 ∧
    ∃ w', mon_take_hit demo_world 1 10 false {} = .ok (true, false, w') ∧
      (w'.exp - demo_world.exp) * 65536 + w'.exp_frac =
        ((demo_world.r_info.getD 3 {}).mexp * (demo_world.r_info.getD 3 {}).level
          / demo_world.lev) * 65536 +
        ((demo_world.r_info.getD 3 {}).mexp * (demo_world.r_info.getD 3 {}).level
          % demo_world.lev) * 65536 / demo_world.lev +
        demo_world.exp_frac := by
  refine ⟨rfl, rfl, rfl, ?_⟩
  obtain ⟨w', h1, h2, _⟩ := mon_take_hit_exp demo_world 1 10 false {} 3 rfl (by decide)
    (by decide) rfl rfl (by decide) ⟨by decide, by decide⟩ ⟨by decide, by decide⟩ (by decide)
  exact ⟨w', h1, h2⟩

/-- C22: for a live monster in slot `m` that agrees with the grid (its `midx`
is `m`, its position is inside the grid), a player of level at least 1 and a
monster with `maxhp` not 0, `mon_take_hit` returns, and returns TRUE if and
only if the hit points after the damage are below zero, that is
`dam ≥ hp + 1`; damage equal to the hit points leaves the monster alive with
0 hit points. When it returns TRUE the fear flag is FALSE, the slot is zeroed
and `cur_num` of the race is one less; when it returns FALSE the monster is
still in its slot with `hp` reduced by `dam`, and the registry is
unchanged. -/
theorem mon_take_hit_spec (w : world) (m : Nat) (dam : Int) (fear : Bool) (d : hit_draws)
    (r : Nat) (hrace : (w.monsters m).race = some r)
    (hm : 1 ≤ m) (hmidx : (w.monsters m).midx = (m : Int))
    (hin : square_in_bounds w (w.monsters m).fy (w.monsters m).fx = true)
    (hr : r < w.r_info.length) (hlev : w.lev ≠ 0) (hmax : (w.monsters m).maxhp ≠ 0) :
    ∃ killed fear' w', mon_take_hit w m dam fear d = .ok (killed, fear', w') ∧
      (killed = true ↔ (w.monsters m).hp - dam < 0) ∧
      (killed = true ↔ dam ≥ (w.monsters m).hp + 1) ∧
      (dam = (w.monsters m).hp → killed = false ∧ (w'.monsters m).hp = 0) ∧
      (killed = true →
        fear' = false ∧ (w'.monsters m).race = none ∧ w'.monsters m = {} ∧
        (w'.r_info.getD r {}).cur_num = (w.r_info.getD r {}).cur_num - 1) ∧
      (killed = false →
        (w'.monsters m).race = some r ∧
        (w'.monsters m).hp = (w.monsters m).hp - dam ∧
        w'.r_info = w.r_info) := by
  by_cases hdead : (w.monsters m).hp - dam < 0
  · obtain ⟨w', hrun, _, _, hslot, _, hri, _⟩ :=
      mon_take_hit_kills w m dam fear d r hrace hdead hlev hm hmidx hin
    refine ⟨true, false, w', hrun, ⟨fun _ => hdead, fun _ => rfl⟩,
      ⟨fun _ => (by omega), fun _ => rfl⟩, fun h => (by omega), ?_, fun h => (by cases h)⟩
    intro _
    refine ⟨rfl, by rw [hslot], hslot, ?_⟩
    rw [hri, getD_race_update]
    by_cases hu : rf_has (w.r_info.getD r {}).flags race_flag.UNIQUE = true
    · rw [if_pos hu, if_pos ⟨rfl, by rw [race_update_length]; exact hr⟩, getD_race_update,
        if_pos ⟨rfl, hr⟩]
    · rw [if_neg hu, if_pos ⟨rfl, hr⟩]
  · obtain ⟨fear', w', hrun, h1, h2, _, _, _, _, h7, _⟩ :=
      mon_take_hit_survives w m dam fear d r hrace hdead hmax
    refine ⟨false, fear', w', hrun, ⟨fun h => (by cases h), fun h => absurd h hdead⟩,
      ⟨fun h => (by cases h), fun h => (by omega)⟩, fun h => ⟨rfl, (by rw [h2]; omega)⟩,
      fun h => (by cases h), fun _ => ⟨h1, h2, h7⟩⟩

theorem mon_take_hit_spec_witness :
    (demo_world.monsters 1).hp = 5 ∧
    ∃ killed fear' w', mon_take_hit demo_world 1 5 false {} = .ok (killed, fear', w') ∧
      killed = false ∧ (w'.monsters 1).hp = 0 := by
  refine ⟨rfl, ?_⟩
  obtain ⟨killed, fear', w', h1, _, _, h4, _⟩ :=
    mon_take_hit_spec demo_world 1 5 false {} 3 rfl (by decide) rfl rfl (by decide)
      (by decide) (by decide)
  exact ⟨killed, fear', w', h1, (h4 rfl).1, (h4 rfl).2⟩

/-! ## Properties of the population cap -/

/-- A cap above 1 would not be kept by a kill: in `demo_twins`, where the
unique race 3 is given `cur_num = 2 ≤ max_num = 2`, a lethal hit on one of
its two members returns TRUE and leaves `cur_num = 1 > max_num = 0`. -/
theorem unique_cap_broken_by_kill :
    rf_has (demo_twins.r_info.getD 3 {}).flags race_flag.UNIQUE = true ∧
    (demo_twins.r_info.getD 3 {}).cur_num = 2 ∧
    (demo_twins.r_info.getD 3 {}).max_num = 2 ∧
    (demo_twins.monsters 1).race = some 3 ∧
    mon_take_hit demo_twins 1 10 false {} = .ok (true, false, demo_twins_after) ∧
    (demo_twins_after.r_info.getD 3 {}).cur_num = 1 ∧
    (demo_twins_after.r_info.getD 3 {}).max_num = 0 :=
  ⟨rfl, rfl, rfl, rfl, rfl, rfl, rfl⟩

theorem capped_of_fields (w w' : world) (k : Nat) (h : capped w k)
    (hf : (w'.r_info.getD k {}).flags = (w.r_info.getD k {}).flags)
    (hc : (w'.r_info.getD k {}).cur_num ≤ (w.r_info.getD k {}).cur_num)
    (hm : (w'.r_info.getD k {}).max_num = (w.r_info.getD k {}).max_num) : capped w' k := by
  unfold capped at h ⊢
  rw [hf, hm]
  exact ⟨h.1, le_trans hc h.2⟩

theorem race_update_dec (r_info : List monster_race) (r k : Nat) :
    ((race_update r_info r (fun race => { race with cur_num := race.cur_num - 1 })).getD k
        {}).flags = (r_info.getD k {}).flags ∧
    ((race_update r_info r (fun race => { race with cur_num := race.cur_num - 1 })).getD k
        {}).cur_num ≤ (r_info.getD k {}).cur_num ∧
    ((race_update r_info r (fun race => { race with cur_num := race.cur_num - 1 })).getD k
        {}).max_num = (r_info.getD k {}).max_num := by
  rw [getD_race_update]
  split
  · rename_i h
    rw [h.1]
    exact ⟨rfl, by simp only; omega, rfl⟩
  · exact ⟨rfl, le_refl _, rfl⟩

theorem wipe_slot_fields (w : world) (m k : Nat) :
    ((wipe_slot w m).r_info.getD k {}).flags = (w.r_info.getD k {}).flags ∧
    ((wipe_slot w m).r_info.getD k {}).cur_num ≤ (w.r_info.getD k {}).cur_num ∧
    ((wipe_slot w m).r_info.getD k {}).max_num = (w.r_info.getD k {}).max_num := by
  cases hm : (w.monsters m).race with
  | none => rw [wipe_slot_dead w m hm]; exact ⟨rfl, le_refl _, rfl⟩
  | some r =>
    rw [wipe_slot_live w m r hm]
    exact race_update_dec w.r_info r k

theorem wipe_loop_fields (n : Nat) (w : world) (k : Nat) :
    ((wipe_loop n w).r_info.getD k {}).flags = (w.r_info.getD k {}).flags ∧
    ((wipe_loop n w).r_info.getD k {}).cur_num ≤ (w.r_info.getD k {}).cur_num ∧
    ((wipe_loop n w).r_info.getD k {}).max_num = (w.r_info.getD k {}).max_num := by
  induction n generalizing w with
  | zero => exact ⟨rfl, le_refl _, rfl⟩
  | succ n ih =>
    unfold wipe_loop
    obtain ⟨a1, a2, a3⟩ := ih (wipe_slot w (n + 1))
    obtain ⟨b1, b2, b3⟩ := wipe_slot_fields w (n + 1) k
    exact ⟨a1.trans b1, le_trans a2 b2, a3.trans b3⟩

theorem delete_monster_idx_race (w w' : world) (m_idx : Int)
    (h : delete_monster_idx w m_idx = .ok w') :
    m_idx > 0 ∧
    square_in_bounds w (w.monsters m_idx.toNat).fy (w.monsters m_idx.toNat).fx = true ∧
    ∃ r, (w.monsters m_idx.toNat).race = some r ∧
      delete_monster_idx w m_idx = .ok { w with
        r_info := race_update w.r_info r (fun race => { race with cur_num := race.cur_num - 1 })
        num_repro :=
          if rf_has (w.r_info.getD r {}).flags race_flag.MULTIPLY = true
          then s16b (w.num_repro - 1) else w.num_repro
        target := if w.target = some m_idx.toNat then none else w.target
        health_who := if w.health_who = some m_idx.toNat then none else w.health_who
        squares_mon :=
          grid_set w.squares_mon (w.monsters m_idx.toNat).fy (w.monsters m_idx.toNat).fx 0
        created := release_held w.created (w.monsters m_idx.toNat).held_obj
        monsters := slot_set w.monsters m_idx.toNat {}
        mon_cnt := w.mon_cnt - 1 } := by
  have h1 : m_idx > 0 := by
    by_contra hc
    unfold delete_monster_idx at h
    rw [if_pos hc] at h
    cases h
  have h2 : square_in_bounds w (w.monsters m_idx.toNat).fy (w.monsters m_idx.toNat).fx
      = true := by
    cases hb : square_in_bounds w (w.monsters m_idx.toNat).fy (w.monsters m_idx.toNat).fx with
    | true => rfl
    | false =>
      unfold delete_monster_idx at h
      rw [if_neg (by omega), if_pos hb] at h
      cases h
  refine ⟨h1, h2, ?_⟩
  cases hr : (w.monsters m_idx.toNat).race with
  | none =>
    unfold delete_monster_idx at h
    rw [if_neg (by omega), if_neg (by rw [h2]; decide), hr] at h
    cases h
  | some r => exact ⟨r, rfl, delete_monster_idx_ok w m_idx r h1 hr h2⟩

theorem place_new_monster_one_r_info (w w' : world) (y x : Int) (r : Nat) (sleep : Bool)
    (origin : Nat) (turn_energy : Int → Int) (basic_colors : Int) (d : place_draws) (b : Bool)
    (h : place_new_monster_one w y x r sleep origin turn_energy basic_colors d = .ok (b, w')) :
    w'.r_info = w.r_info ∨
    (¬ (rf_has (w.r_info.getD r {}).flags race_flag.UNIQUE = true ∧
        (w.r_info.getD r {}).cur_num ≥ (w.r_info.getD r {}).max_num) ∧
      w'.r_info = race_update w.r_info r
        (fun race => { race with cur_num := race.cur_num + 1 })) := by
  unfold place_new_monster_one at h
  split at h
  · cases h
  by_cases c1 : square_monster w y x = true
  · rw [if_pos c1] at h
    injection h with h; injection h with _ hw; subst hw
    exact Or.inl rfl
  rw [if_neg c1] at h
  by_cases c2 : w.py = y ∧ w.px = x
  · rw [if_pos c2] at h
    injection h with h; injection h with _ hw; subst hw
    exact Or.inl rfl
  rw [if_neg c2] at h
  by_cases c3 : w.walkable y x = false
  · rw [if_pos c3] at h
    injection h with h; injection h with _ hw; subst hw
    exact Or.inl rfl
  rw [if_neg c3] at h
  by_cases c4 : w.warded y x = true
  · rw [if_pos c4] at h
    injection h with h; injection h with _ hw; subst hw
    exact Or.inl rfl
  rw [if_neg c4] at h
  by_cases c5 : rf_has (w.r_info.getD r {}).flags race_flag.UNIQUE = true ∧
      (w.r_info.getD r {}).cur_num ≥ (w.r_info.getD r {}).max_num
  · rw [if_pos c5] at h
    injection h with h; injection h with _ hw; subst hw
    exact Or.inl rfl
  rw [if_neg c5] at h
  by_cases c6 : rf_has (w.r_info.getD r {}).flags race_flag.FORCE_DEPTH = true ∧
      w.depth < (w.r_info.getD r {}).level
  · rw [if_pos c6] at h
    injection h with h; injection h with _ hw; subst hw
    exact Or.inl rfl
  rw [if_neg c6] at h
  split at h
  · cases h
  · rename_i res hres
    by_cases h0 : res.1 = 0
    · rw [if_pos h0] at h
      injection h with h; injection h with _ hw
      obtain ⟨_, hres2⟩ := place_monster_zero (rated w r) _ _ _ _ _ _ hres h0
      obtain ⟨mm, mc, ms, hshape, _⟩ := mon_pop_shape (rated w r)
      left
      rw [← hw, hres2, hshape]
      rfl
    · rw [if_neg h0] at h
      injection h with h; injection h with _ hw
      have hres' : place_monster (rated w r) y x
          (new_monster_body r (w.r_info.getD r {}) sleep turn_energy basic_colors d)
          origin d = .ok (res.1, res.2) := hres
      obtain ⟨_, _, _, r', mon', cr', hr', hw', _⟩ :=
        place_monster_shape (rated w r) res.2 y x _ origin d res.1 hres' h0
      have hrr : r' = r := by
        have : some r = some r' := hr'
        injection this with this
        exact this.symm
      subst hrr
      right
      refine ⟨c5, ?_⟩
      rw [← hw, hw']
      rfl

theorem mon_take_hit_run (w w' : world) (m : Nat) (dam : Int) (fear fear' : Bool)
    (d : hit_draws) (b : Bool) (h : mon_take_hit w m dam fear d = .ok (b, fear', w')) :
    ∃ r, (w.monsters m).race = some r ∧
      ((b = false ∧ w'.r_info = w.r_info) ∨
       (b = true ∧
        delete_monster_idx (slain w m r dam) ((slain w m r dam).monsters m).midx = .ok w')) := by
  cases hrace : (w.monsters m).race with
  | none =>
    unfold mon_take_hit at h
    split at h
    · cases h
    · rename_i r' hsome
      rw [hrace] at hsome
      cases hsome
  | some r =>
    refine ⟨r, rfl, ?_⟩
    by_cases hdead : (w.monsters m).hp - dam < 0
    · by_cases hlev : w.lev = 0
      · exfalso
        unfold mon_take_hit at h
        split at h
        · cases h
        · simp only at h
          rw [if_pos hdead, if_pos hlev] at h
          cases h
      · rw [mon_take_hit_lethal w m dam fear d r hrace hdead hlev] at h
        right
        split at h
        · cases h
        · rename_i w6 hdel
          injection h with h
          injection h with hb h
          injection h with _ hw
          subst hw
          exact ⟨hb.symm, hdel⟩
    · left
      unfold mon_take_hit at h
      split at h
      · cases h
      · simp only at h
        rw [if_neg hdead] at h
        split at h
        · cases h
        · injection h with h
          injection h with hb h
          injection h with _ hw
          subst hw
          exact ⟨hb.symm, rfl⟩

theorem capped_kept (w : world) (k : Nat) (hcap : capped w k) :
    (∀ y x r sleep origin turn_energy basic_colors d b w',
      place_new_monster_one w y x r sleep origin turn_energy basic_colors d = .ok (b, w') →
      capped w' k) ∧
    (∀ m_idx w', delete_monster_idx w m_idx = .ok w' → capped w' k) ∧
    capped (wipe_mon_list w) k ∧
    (∀ m dam fear d fear' w',
      mon_take_hit w m dam fear d = .ok (false, fear', w') → capped w' k) ∧
    (∀ m dam fear d fear' w',
      mon_take_hit w m dam fear d = .ok (true, fear', w') →
      (w.monsters m).midx = (m : Int) →
      ((w.monsters m).race ≠ some k ∨ (w.r_info.getD k {}).cur_num ≤ 1) →
      capped w' k) := by
  refine ⟨?_, ?_, ?_, ?_, ?_⟩
  · intro y x r sleep origin turn_energy basic_colors d b w' h
    rcases place_new_monster_one_r_info w w' y x r sleep origin turn_energy basic_colors d b h
      with hsame | ⟨hok, hup⟩
    · unfold capped at hcap ⊢
      rw [hsame]; exact hcap
    · unfold capped at hcap ⊢
      rw [hup, getD_race_update]
      split
      · rename_i hk
        obtain ⟨hk1, _⟩ := hk
        subst hk1
        refine ⟨hcap.1, ?_⟩
        have : ¬ (w.r_info.getD k {}).cur_num ≥ (w.r_info.getD k {}).max_num :=
          fun hge => hok ⟨hcap.1, hge⟩
        simp only
        omega
      · exact hcap
  · intro m_idx w' h
    obtain ⟨_, _, r, _, hrun⟩ := delete_monster_idx_race w w' m_idx h
    rw [hrun] at h
    injection h with h
    obtain ⟨a1, a2, a3⟩ := race_update_dec w.r_info r k
    exact capped_of_fields w w' k hcap (by rw [← h]; exact a1) (by rw [← h]; exact a2)
      (by rw [← h]; exact a3)
  · obtain ⟨a1, a2, a3⟩ := wipe_loop_fields (w.mon_max - 1) w k
    exact capped_of_fields w (wipe_mon_list w) k hcap a1 a2 a3
  · intro m dam fear d fear' w' h
    obtain ⟨r, _, hcase⟩ := mon_take_hit_run w w' m dam fear fear' d false h
    rcases hcase with ⟨_, hsame⟩ | ⟨hb, _⟩
    · unfold capped at hcap ⊢
      rw [hsame]; exact hcap
    · cases hb
  · intro m dam fear d fear' w' h hmidx hone
    obtain ⟨r, hrace, hcase⟩ := mon_take_hit_run w w' m dam fear fear' d true h
    rcases hcase with ⟨hb, _⟩ | ⟨_, hdel⟩
    · cases hb
    · have hmon := slain_monster w m r dam
      obtain ⟨_, _, f3, _⟩ := slain_fields w m r dam
      have hidx : ((slain w m r dam).monsters m).midx = (m : Int) := by
        rw [hmon]; exact hmidx
      rw [hidx] at hdel
      obtain ⟨_, _, r', hr', hrun⟩ := delete_monster_idx_race _ w' _ hdel
      simp only [Int.toNat_ofNat] at hr'
      rw [hmon] at hr'
      have hrr : r' = r := by
        have : some r = some r' := by rw [← hrace]; exact hr'
        injection this with this
        exact this.symm
      subst hrr
      rw [hrun] at hdel
      injection hdel with hdel
      unfold capped at hcap ⊢
      rw [← hdel]
      simp only
      rw [f3]
      by_cases hkr : k = r'
      · subst hkr
        have hcur : (w.r_info.getD k {}).cur_num ≤ 1 := by
          rcases hone with hne | hle
          · exact absurd hrace hne
          · exact hle
        have hlen : k < w.r_info.length := by
          by_contra hc
          have := hcap.1
          rw [List.getD_eq_default _ _ (by omega)] at this
          simp [rf_has] at this
        rw [if_pos hcap.1, getD_race_update,
          if_pos ⟨rfl, by rw [race_update_length]; exact hlen⟩, getD_race_update,
          if_pos ⟨rfl, hlen⟩]
        exact ⟨hcap.1, by simp only; omega⟩
      · rw [getD_race_update, if_neg (fun hh => hkr hh.1)]
        split
        · rw [getD_race_update, if_neg (fun hh => hkr hh.1)]
          exact hcap
        · exact hcap

/-! ## Properties of the coordinate list of a group -/

theorem try_carry_fault (st : monster × (Nat → Bool) × Bool) (obj : object) (carry : Bool)
    (e : fault) (h : try_carry st obj carry = .error e) : e ≠ fault.oob := by
  unfold try_carry at h
  split at h
  · cases h
  · split at h
    · injection h with h
      rw [← h]
      decide
    · cases h

theorem specified_drops_fault (race : monster_race) (origin : Nat) (depth : Int)
    (drops : List monster_drop) (ds : List spec_draw) (st : monster × (Nat → Bool) × Bool)
    (e : fault) (h : specified_drops race origin depth drops ds st = .error e) :
    e ≠ fault.oob := by
  induction drops generalizing ds st with
  | nil =>
    unfold specified_drops at h
    cases h
  | cons drop next ih =>
    unfold specified_drops at h
    split at h
    · exact ih _ _ h
    · split at h
      · rename_i e' hc
        injection h with h
        rw [← h]
        exact try_carry_fault _ _ _ _ hc
      · exact ih _ _ h

theorem random_drops_fault (race : monster_race) (origin : Nat) (depth : Int)
    (number : Nat) (ds : List rand_draw) (st : monster × (Nat → Bool) × Bool)
    (e : fault) (h : random_drops race origin depth number ds st = .error e) :
    e ≠ fault.oob := by
  induction number generalizing ds st with
  | zero =>
    unfold random_drops at h
    cases h
  | succ number ih =>
    unfold random_drops at h
    split at h
    · split at h
      · rename_i e' hc
        injection h with h
        rw [← h]
        exact try_carry_fault _ _ _ _ hc
      · exact ih _ _ h
    · split at h
      · exact ih _ _ h
      · split at h
        · rename_i e' hc
          injection h with h
          rw [← h]
          exact try_carry_fault _ _ _ _ hc
        · exact ih _ _ h

theorem mon_create_drop_fault (w : world) (m : Nat) (origin : Nat) (d : drop_draws)
    (e : fault) (h : mon_create_drop w m origin d = .error e) : e ≠ fault.oob := by
  unfold mon_create_drop at h
  split at h
  · injection h with h
    rw [← h]
    decide
  · split at h
    · rename_i e' hs
      injection h with h
      rw [← h]
      exact specified_drops_fault _ _ _ _ _ _ _ hs
    · split at h
      · rename_i e' hs
        injection h with h
        rw [← h]
        exact random_drops_fault _ _ _ _ _ _ _ hs
      · cases h

theorem place_monster_fault (w : world) (y x : Int) (mon : monster) (origin : Nat)
    (d : place_draws) (e : fault) (h : place_monster w y x mon origin d = .error e) :
    e ≠ fault.oob := by
  unfold place_monster at h
  split at h
  · injection h with h
    rw [← h]
    decide
  · split at h
    · injection h with h
      rw [← h]
      decide
    · split at h
      · cases h
      · split at h
        · injection h with h
          rw [← h]
          decide
        · simp only at h
          split at h
          · cases h
          · split at h
            · rename_i e' hs
              injection h with h
              rw [← h]
              exact mon_create_drop_fault _ _ _ _ _ hs
            · split at h
              · cases h
              · cases h

theorem place_new_monster_one_fault (w : world) (y x : Int) (r : Nat) (sleep : Bool)
    (origin : Nat) (turn_energy : Int → Int) (basic_colors : Int) (d : place_draws)
    (e : fault)
    (h : place_new_monster_one w y x r sleep origin turn_energy basic_colors d = .error e) :
    e ≠ fault.oob := by
  unfold place_new_monster_one at h
  split at h
  · injection h with h
    rw [← h]
    decide
  split at h
  · cases h
  split at h
  · cases h
  split at h
  · cases h
  split at h
  · cases h
  split at h
  · cases h
  split at h
  · cases h
  split at h
  · rename_i e' hs
    injection h with h
    rw [← h]
    exact place_monster_fault _ _ _ _ _ _ _ hs
  · split at h
    · cases h
    · cases h

theorem group_try_bounded (r : Nat) (sleep : Bool) (origin : Nat) (turn_energy : Int → Int)
    (basic_colors : Int) (total : Int) (hy hx : Int) (draws : Nat → place_draws)
    (st : world × List (Int × Int)) (i : Nat) (htot : total ≤ 25) (e : fault)
    (h : group_try r sleep origin turn_energy basic_colors total hy hx draws st i = .error e) :
    e ≠ fault.oob := by
  unfold group_try at h
  split at h
  · cases h
  · rename_i hlt
    split at h
    · cases h
    · split at h
      · rename_i e' hs
        injection h with h
        rw [← h]
        exact place_new_monster_one_fault _ _ _ _ _ _ _ _ _ _ hs
      · split at h
        · cases h
        · split at h
          · rename_i hge
            exfalso
            have h1 : (st.2.length : Int) < total := by
              by_contra hc
              exact hlt hc
            omega
          · cases h

theorem foldlM_fault {σ α : Type} (f : σ → α → Except fault σ)
    (hf : ∀ s a e, f s a = .error e → e ≠ fault.oob) (l : List α) (s : σ) (e : fault)
    (h : l.foldlM f s = .error e) : e ≠ fault.oob := by
  induction l generalizing s with
  | nil =>
    have h' : (Except.ok s : Except fault σ) = .error e := h
    cases h'
  | cons a l ih =>
    rw [List.foldlM_cons] at h
    cases hfa : f s a with
    | error e' =>
      rw [hfa] at h
      have h' : (Except.error e' : Except fault σ) = .error e := h
      injection h' with h'
      rw [← h']
      exact hf s a e' hfa
    | ok s1 =>
      rw [hfa] at h
      exact ih s1 h

theorem group_loop_fault (r : Nat) (sleep : Bool) (origin : Nat) (turn_energy : Int → Int)
    (basic_colors : Int) (total : Int) (draws : Nat → Nat → place_draws) (fuel n : Nat)
    (st : world × List (Int × Int)) (htot : total ≤ 25) (e : fault)
    (h : group_loop r sleep origin turn_energy basic_colors total draws fuel n st = .error e) :
    e ≠ fault.oob := by
  induction fuel generalizing n st with
  | zero =>
    unfold group_loop at h
    cases h
  | succ fuel ih =>
    rw [group_loop_succ] at h
    split at h
    · split at h
      · rename_i e' hs
        injection h with h
        rw [← h]
        exact foldlM_fault _
          (fun s a e1 h1 => group_try_bounded r sleep origin turn_energy basic_colors total
            _ _ (draws n) s a htot e1 h1) _ _ _ hs
      · exact ih _ _ h
    · cases h

/-- C30: nothing in `place_new_monster_group` compares `hack_n` with
`GROUP_MAX`. With size 26, seeded at the centre `(4, 4)` of the open 9x9
chunk `demo_field`, it places 24 monsters, filling the indices 1 to 24 of
`hack_y` and `hack_x`, and after placing the 25th it writes its coordinates
at index 25, outside the arrays of 25 entries: the run ends in `fault.oob`.
With size 25 the same call returns TRUE, and for every size of at most 25,
every chunk and all draws no run ends in `fault.oob`. -/
theorem place_new_monster_group_overflow :
    place_new_monster_group demo_field 4 4 1 false 26 0 (fun _ => 0) 16 (fun _ _ => {})
      = .error fault.oob ∧
    (place_new_monster_group demo_field 4 4 1 false 25 0 (fun _ => 0) 16
      (fun _ _ => {})).toOption.map Prod.fst = some true ∧
    (∀ w y x r sleep total origin turn_energy basic_colors draws, total ≤ 25 →
      place_new_monster_group w y x r sleep total origin turn_energy basic_colors draws
        ≠ .error fault.oob) := by
  refine ⟨rfl, rfl, ?_⟩
  intro w y x r sleep total origin turn_energy basic_colors draws htot h
  unfold place_new_monster_group at h
  split at h
  · rename_i e' hs
    injection h with h
    exact group_loop_fault r sleep origin turn_energy basic_colors total draws _ _ _ htot e' hs h
  · cases h

/-! ## Properties of grid/slot agreement -/

theorem is_live_false_of_ge (w : world) (h : grid_agrees w) (i : Nat) (hi : w.mon_max ≤ i) :
    is_live w i = false := by
  cases hl : is_live w i with
  | false => rfl
  | true =>
    obtain ⟨_, h2, _⟩ := h.1 i hl
    omega

theorem mon_pop_slot (w : world) (hmax : w.mon_max ≤ 32767)
    (hdead : ∀ i, w.mon_max ≤ i → is_live w i = false) :
    w.mon_max ≤ (mon_pop w).2.mon_max ∧
    (mon_pop w).2.monsters = w.monsters ∧
    (mon_pop w).2.squares_mon = w.squares_mon ∧
    ((mon_pop w).1 ≠ 0 →
      ∃ k : Nat, (mon_pop w).1 = (k : Int) ∧ 1 ≤ k ∧ k < (mon_pop w).2.mon_max ∧
        is_live w k = false) := by
  unfold mon_pop
  by_cases h1 : w.mon_max < w.level_monster_max
  · rw [if_pos h1, s16b_id _ (by omega) (by omega)]
    refine ⟨by simp only; omega, rfl, rfl, ?_⟩
    intro hne
    simp only at hne
    exact ⟨w.mon_max, rfl, by omega, by simp only; omega, hdead _ (le_refl _)⟩
  · rw [if_neg h1]
    cases hf : (List.range' 1 (w.mon_max - 1)).find?
        (fun m_idx => (w.monsters m_idx).race.isNone) with
    | some i =>
      have hmem := List.mem_of_find?_eq_some hf
      have hp := List.find?_some hf
      rw [List.mem_range'_1] at hmem
      simp only
      rw [s16b_id _ (by omega) (by omega)]
      refine ⟨le_refl _, trivial, trivial, fun _ => ⟨i, rfl, hmem.1, by omega, ?_⟩⟩
      unfold is_live
      cases hr : (w.monsters i).race with
      | none => rfl
      | some r => rw [hr] at hp; simp at hp
    | none =>
      simp only
      refine ⟨?_, ?_, ?_, fun hne => absurd rfl hne⟩
      · split <;> exact le_refl _
      · split <;> rfl
      · split <;> rfl

theorem place_monster_agrees (w w' : world) (y x : Int) (mon : monster) (origin : Nat)
    (d : place_draws) (m : Int) (h : grid_agrees w) (hmax : w.mon_max ≤ 32767)
    (hrun : place_monster w y x mon origin d = .ok (m, w')) : grid_agrees w' := by
  obtain ⟨p1, p2, p3, p4⟩ := mon_pop_slot w hmax (is_live_false_of_ge w h)
  by_cases hm : m = 0
  · obtain ⟨_, hw⟩ := place_monster_zero w y x mon origin d (m, w') hrun hm
    have hw' : w' = (mon_pop w).2 := hw
    subst hw'
    constructor
    · intro i hi
      have hi' : is_live w i = true := by
        unfold is_live at hi ⊢
        rw [p2] at hi; exact hi
      obtain ⟨a1, a2, a3⟩ := h.1 i hi'
      rw [p2, p3]
      exact ⟨a1, by omega, a3⟩
    · intro y' x' hne
      rw [p3] at hne ⊢
      obtain ⟨i, b1, b2, b3, b4⟩ := h.2 y' x' hne
      refine ⟨i, b1, ?_, ?_, ?_⟩
      · unfold is_live at b2 ⊢
        rw [p2]; exact b2
      · rw [p2]; exact b3
      · rw [p2]; exact b4
  · obtain ⟨_, hfree, hidx, r, mon', cr', hr, hw, hcore⟩ :=
      place_monster_shape w w' y x mon origin d m hrun hm
    obtain ⟨k, hk, k1, k2, k3⟩ := p4 (by rw [← hidx]; exact hm)
    have hmk : m = (k : Int) := by rw [hidx]; exact hk
    have hmon : w'.monsters = slot_set w.monsters k mon' := by
      rw [hw]
      simp only
      rw [p2, hmk, Int.toNat_ofNat]
    have hgrid : w'.squares_mon = grid_set w.squares_mon y x (k : Int) := by
      rw [hw]
      simp only
      rw [p3, hmk]
    have hmm : w'.mon_max = (mon_pop w).2.mon_max := by rw [hw]
    have hrace' : mon'.race = some r := by
      have := congrArg monster.race hcore
      exact this.trans hr
    have hfy : mon'.fy = y := congrArg monster.fy hcore
    have hfx : mon'.fx = x := congrArg monster.fx hcore
    have hcell : ¬ w.squares_mon y x > 0 := by
      unfold square_monster at hfree
      simpa using hfree
    constructor
    · intro i hi
      unfold is_live at hi
      rw [hmon] at hi ⊢
      rw [hgrid, hmm]
      by_cases hik : i = k
      · subst hik
        simp only [slot_set_same]
        rw [hfy, hfx]
        refine ⟨k1, k2, ?_⟩
        simp [grid_set]
      · simp only [slot_set, if_neg hik] at hi ⊢
        obtain ⟨a1, a2, a3⟩ := h.1 i hi
        refine ⟨a1, by omega, ?_⟩
        simp only [grid_set]
        rw [if_neg]
        · exact a3
        · rintro ⟨e1, e2⟩
          rw [e1, e2] at a3
          omega
    · intro y' x' hne
      rw [hgrid] at hne ⊢
      rw [hmon]
      by_cases hyx : y' = y ∧ x' = x
      · refine ⟨k, ?_, ?_, ?_, ?_⟩
        · simp only [grid_set, if_pos hyx]
        · unfold is_live
          rw [hmon]
          simp only [slot_set_same]
          rw [hrace']; rfl
        · simp only [slot_set_same]; rw [hfy]; exact hyx.1.symm
        · simp only [slot_set_same]; rw [hfx]; exact hyx.2.symm
      · simp only [grid_set, if_neg hyx] at hne ⊢
        obtain ⟨i, b1, b2, b3, b4⟩ := h.2 y' x' hne
        have hik : i ≠ k := by
          intro hik
          rw [hik, k3] at b2
          cases b2
        refine ⟨i, b1, ?_, ?_, ?_⟩
        · unfold is_live at b2 ⊢
          rw [hmon]
          simp only [slot_set, if_neg hik]; exact b2
        · simp only [slot_set, if_neg hik]; exact b3
        · simp only [slot_set, if_neg hik]; exact b4

theorem delete_monster_idx_agrees (w w' : world) (m_idx : Int) (h : grid_agrees w)
    (hrun : delete_monster_idx w m_idx = .ok w') :
    grid_agrees w' ∧ w'.mon_max = w.mon_max := by
  obtain ⟨hpos, _, r, hr, heq⟩ := delete_monster_idx_race w w' m_idx hrun
  rw [heq] at hrun
  injection hrun with hw
  have hm : ((m_idx.toNat : Nat) : Int) = m_idx := Int.toNat_of_nonneg (by omega)
  have hlive : is_live w m_idx.toNat = true := by
    unfold is_live; rw [hr]; rfl
  obtain ⟨_, _, hgm⟩ := h.1 _ hlive
  have hmon : w'.monsters = slot_set w.monsters m_idx.toNat {} := by rw [← hw]
  have hgrid : w'.squares_mon = grid_set w.squares_mon (w.monsters m_idx.toNat).fy
      (w.monsters m_idx.toNat).fx 0 := by rw [← hw]
  have hmm : w'.mon_max = w.mon_max := by rw [← hw]
  refine ⟨⟨?_, ?_⟩, hmm⟩
  · intro i hi
    unfold is_live at hi
    rw [hmon] at hi ⊢
    rw [hgrid, hmm]
    by_cases him : i = m_idx.toNat
    · rw [him] at hi
      simp only [slot_set_same] at hi
      cases hi
    · simp only [slot_set, if_neg him] at hi ⊢
      obtain ⟨a1, a2, a3⟩ := h.1 i hi
      refine ⟨a1, a2, ?_⟩
      simp only [grid_set]
      rw [if_neg]
      · exact a3
      · rintro ⟨e1, e2⟩
        rw [e1, e2, hgm] at a3
        exact him (by exact_mod_cast a3.symm)
  · intro y x hne
    rw [hgrid] at hne ⊢
    rw [hmon]
    by_cases hyx : y = (w.monsters m_idx.toNat).fy ∧ x = (w.monsters m_idx.toNat).fx
    · simp only [grid_set, if_pos hyx] at hne
      exact absurd rfl hne
    · simp only [grid_set, if_neg hyx] at hne ⊢
      obtain ⟨i, b1, b2, b3, b4⟩ := h.2 y x hne
      have him : i ≠ m_idx.toNat := by
        intro him
        rw [him] at b3 b4
        exact hyx ⟨b3.symm, b4.symm⟩
      refine ⟨i, b1, ?_, ?_, ?_⟩
      · unfold is_live at b2 ⊢
        rw [hmon]
        simp only [slot_set, if_neg him]; exact b2
      · simp only [slot_set, if_neg him]; exact b3
      · simp only [slot_set, if_neg him]; exact b4

theorem wipe_mon_list_agrees (w : world) (h : grid_agrees w) :
    grid_agrees (wipe_mon_list w) := by
  have hmon : ∀ i, (wipe_mon_list w).monsters i =
      if 1 ≤ i ∧ i ≤ w.mon_max - 1 ∧ is_live w i = true then {} else w.monsters i :=
    fun i => wipe_loop_monsters (w.mon_max - 1) w i
  have hnone : ∀ i, is_live (wipe_mon_list w) i = false := by
    intro i
    unfold is_live
    rw [hmon]
    by_cases hl : is_live w i = true
    · obtain ⟨a1, a2, _⟩ := h.1 i hl
      rw [if_pos ⟨a1, by omega, hl⟩]
      rfl
    · rw [if_neg (fun hc => hl hc.2.2)]
      unfold is_live at hl
      simpa using hl
  constructor
  · intro i hi
    rw [hnone i] at hi
    cases hi
  · intro y x hne
    exfalso
    apply hne
    by_cases h0 : w.squares_mon y x = 0
    · exact wipe_loop_grid_zero (w.mon_max - 1) w y x h0
    · obtain ⟨i, _, b2, b3, b4⟩ := h.2 y x h0
      obtain ⟨a1, a2, _⟩ := h.1 i b2
      have := wipe_loop_grid (w.mon_max - 1) w i a1 (by omega) b2
      rw [b3, b4] at this
      exact this

theorem foldlM_preserves {σ α : Type} (P : σ → Prop) (f : σ → α → Except fault σ)
    (hf : ∀ s a s', P s → f s a = .ok s' → P s') (l : List α) (s s' : σ) (hs : P s)
    (h : l.foldlM f s = .ok s') : P s' := by
  induction l generalizing s with
  | nil =>
    have : s = s' := by
      have h' : (Except.ok s : Except fault σ) = .ok s' := h
      injection h'
    rw [← this]; exact hs
  | cons a l ih =>
    rw [List.foldlM_cons] at h
    cases hfa : f s a with
    | error e =>
      rw [hfa] at h
      cases h
    | ok s1 =>
      rw [hfa] at h
      exact ih s1 (hf s a s1 hs hfa) h

theorem delete_monster_agrees (w w' : world) (y x : Int) (h : grid_agrees w)
    (hrun : delete_monster w y x = .ok w') : grid_agrees w' ∧ w'.mon_max = w.mon_max := by
  unfold delete_monster at hrun
  split at hrun
  · cases hrun
  · split at hrun
    · exact delete_monster_idx_agrees w w' _ h hrun
    · injection hrun with hw
      rw [← hw]
      exact ⟨h, rfl⟩

theorem compact_visit_agrees (iter : Int) (draw : Nat) (st st' : world × Int) (m_idx : Nat)
    (h : grid_agrees st.1) (hrun : compact_visit iter draw st m_idx = .ok st') :
    grid_agrees st'.1 ∧ st'.1.mon_max = st.1.mon_max := by
  unfold compact_visit at hrun
  split at hrun
  · injection hrun with hs
    rw [← hs]; exact ⟨h, rfl⟩
  · split at hrun
    · injection hrun with hs
      rw [← hs]; exact ⟨h, rfl⟩
    · split at hrun
      · injection hrun with hs
        rw [← hs]; exact ⟨h, rfl⟩
      · split at hrun
        · injection hrun with hs
          rw [← hs]; exact ⟨h, rfl⟩
        · split at hrun
          · cases hrun
          · rename_i w1 hdel
            injection hrun with hs
            rw [← hs]
            exact delete_monster_agrees st.1 w1 _ _ h hdel

theorem compact_pass_agrees (iter : Int) (draws : Nat → Nat) (w : world) (c : Int)
    (st : world × Int) (h : grid_agrees w) (hrun : compact_pass iter draws w c = .ok st) :
    grid_agrees st.1 := by
  unfold compact_pass at hrun
  exact foldlM_preserves (fun s : world × Int => grid_agrees s.1)
    (fun s m_idx => compact_visit iter (draws m_idx) s m_idx)
    (fun s a s' hs hf => (compact_visit_agrees iter (draws a) s s' a hs hf).1)
    _ (w, c) st h hrun

theorem compact_passes_agrees (draws : Nat → Nat → Nat) (n : Int) (fuel iter : Nat) (w : world)
    (c : Int) (st : world × Int) (h : grid_agrees w)
    (hrun : compact_passes draws n fuel iter w c = some (.ok st)) : grid_agrees st.1 := by
  induction fuel generalizing iter w c with
  | zero =>
    unfold compact_passes at hrun
    split at hrun
    · cases hrun
    · injection hrun with hrun
      injection hrun with hrun
      rw [← hrun]; exact h
  | succ fuel ih =>
    unfold compact_passes at hrun
    split at hrun
    · split at hrun
      · cases hrun
      · rename_i st1 hpass
        exact ih _ _ _ (compact_pass_agrees _ _ w c st1 h hpass) hrun
    · injection hrun with hrun
      injection hrun with hrun
      rw [← hrun]; exact h

theorem excise_slot_agrees (w : world) (a : Nat) (h : grid_agrees w) (ha1 : 1 ≤ a)
    (ha : a < w.mon_max)
    (hlive : ∀ i, a < i → i < w.mon_max → is_live w i = true) :
    grid_agrees (excise_slot w a) ∧
    a ≤ (excise_slot w a).mon_max ∧
    (∀ i, a ≤ i → i < (excise_slot w a).mon_max → is_live (excise_slot w a) i = true) := by
  by_cases hl : is_live w a = true
  · rw [excise_slot_live w a hl]
    refine ⟨h, by omega, ?_⟩
    intro i hi1 hi2
    by_cases hia : i = a
    · subst hia; exact hl
    · exact hlive i (by omega) hi2
  have hd : is_live w a = false := by simpa using hl
  by_cases hlast : a = w.mon_max - 1
  · rw [excise_slot_last w a hd hlast]
    refine ⟨⟨?_, ?_⟩, by simp only; omega, ?_⟩
    · intro i hi
      have hi' : is_live w i = true := hi
      obtain ⟨a1, a2, a3⟩ := h.1 i hi'
      have hne : i ≠ a := by
        intro hia
        rw [hia, hd] at hi'
        cases hi'
      exact ⟨a1, by simp only; omega, a3⟩
    · intro y x hne
      exact h.2 y x hne
    · intro i hi1 hi2
      simp only at hi2
      omega
  · have hlt : a < w.mon_max - 1 := by omega
    have hlastlive : is_live w (w.mon_max - 1) = true := hlive _ hlt (by omega)
    obtain ⟨_, _, hglast⟩ := h.1 _ hlastlive
    rw [excise_slot_move w a hd hlast]
    have hr : (w.monsters (w.mon_max - 1)).race.isSome = true := hlastlive
    refine ⟨⟨?_, ?_⟩, by simp only; omega, ?_⟩
    · intro i hi
      unfold is_live at hi
      simp only at hi ⊢
      by_cases hil : i = w.mon_max - 1
      · rw [if_pos hil] at hi; cases hi
      · rw [if_neg hil] at hi ⊢
        by_cases hia : i = a
        · rw [if_pos hia]
          simp only
          refine ⟨by omega, by omega, ?_⟩
          simp only [grid_set, and_self, if_true]
          rw [hia]
        · rw [if_neg hia] at hi ⊢
          obtain ⟨a1, a2, a3⟩ := h.1 i hi
          refine ⟨a1, by omega, ?_⟩
          simp only [grid_set]
          rw [if_neg]
          · exact a3
          · rintro ⟨hy, hx⟩
            rw [hy, hx, hglast] at a3
            have : (w.mon_max - 1 : Nat) = i := by exact_mod_cast a3
            exact hil this.symm
    · intro y x hne
      simp only at hne ⊢
      by_cases hyx : y = (w.monsters (w.mon_max - 1)).fy ∧ x = (w.monsters (w.mon_max - 1)).fx
      · refine ⟨a, ?_, ?_, ?_, ?_⟩
        · simp only [grid_set, if_pos hyx]
        · unfold is_live
          simp only [if_neg hlast, if_true]
          exact hr
        · simp only [if_neg hlast, if_true]
          exact hyx.1.symm
        · simp only [if_neg hlast, if_true]
          exact hyx.2.symm
      · simp only [grid_set, if_neg hyx] at hne ⊢
        obtain ⟨i, b1, b2, b3, b4⟩ := h.2 y x hne
        have hil : i ≠ w.mon_max - 1 := by
          intro hil
          rw [hil] at b3 b4
          exact hyx ⟨b3.symm, b4.symm⟩
        have hia : i ≠ a := by
          intro hia
          rw [hia, hd] at b2
          cases b2
        refine ⟨i, b1, ?_, ?_, ?_⟩
        · unfold is_live at b2 ⊢
          simp only [if_neg hil, if_neg hia]; exact b2
        · simp only [if_neg hil, if_neg hia]; exact b3
        · simp only [if_neg hil, if_neg hia]; exact b4
    · intro i hi1 hi2
      simp only at hi2
      unfold is_live
      simp only
      rw [if_neg (by omega)]
      by_cases hia : i = a
      · rw [if_pos hia]
        exact hlastlive
      · rw [if_neg hia]
        exact hlive i (by omega) (by omega)

theorem excise_dead_agrees (k : Nat) (w : world) (h : grid_agrees w)
    (hk : k < w.mon_max ∨ k = 0)
    (hlive : ∀ i, k < i → i < w.mon_max → is_live w i = true) :
    grid_agrees (excise_dead k w) := by
  induction k generalizing w with
  | zero => unfold excise_dead; exact h
  | succ k ih =>
    unfold excise_dead
    have hk' : k + 1 < w.mon_max := by omega
    obtain ⟨s1, s2, s3⟩ := excise_slot_agrees w (k + 1) h (by omega) hk' hlive
    exact ih (excise_slot w (k + 1)) s1 (Or.inl (by omega)) (fun i h1 h2 => s3 i (by omega) h2)

theorem compact_monsters_agrees (fuel : Nat) (w w' : world) (n : Int)
    (draws : Nat → Nat → Nat) (h : grid_agrees w)
    (hrun : compact_monsters fuel w n draws = some (.ok w')) : grid_agrees w' := by
  unfold compact_monsters at hrun
  have h0 : grid_agrees
      (if n ≠ 0 then { w with msgs := w.msgs ++ ["Compacting monsters..."] } else w) := by
    split
    · exact h
    · exact h
  split at hrun
  · cases hrun
  · cases hrun
  · rename_i st hpass
    injection hrun with hrun
    injection hrun with hrun
    rw [← hrun]
    have hst := compact_passes_agrees draws n fuel 1 _ 0 st h0 hpass
    exact excise_dead_agrees (st.1.mon_max - 1) st.1 hst (by omega) (fun i h1 h2 => by omega)

/-- C23: grid/slot agreement is preserved. If every live monster sits in a
slot of `[1, mon_max)` whose index the grid cell at its position holds, and
every nonzero grid cell holds the index of a live monster standing on it,
then the same is true after `place_monster` (which asserts an unoccupied cell
inside the grid; `mon_max ≤ 32767` for the `s16b` index), after
`delete_monster_idx`, after `compact_monsters` and after `wipe_mon_list`.
The calls do return: `place_monster` on an empty cell inside the grid when
every `monster_carry` succeeds, `delete_monster_idx` on a live slot whose
monster is inside the grid, `compact_monsters(0)` always, and `wipe_mon_list`
is total. -/
theorem grid_agreement_invariant (w : world) (h : grid_agrees w) :
    (∀ y x mon origin d m w', w.mon_max ≤ 32767 →
      place_monster w y x mon origin d = .ok (m, w') → grid_agrees w') ∧
    (∀ m_idx w', delete_monster_idx w m_idx = .ok w' → grid_agrees w') ∧
    (∀ fuel n draws w', compact_monsters fuel w n draws = some (.ok w') → grid_agrees w') ∧
    grid_agrees (wipe_mon_list w) ∧
    (∀ y x mon origin d r, square_in_bounds w y x = true → w.squares_mon y x = 0 →
      mon.race = some r → carries d → ∃ res, place_monster w y x mon origin d = .ok res) ∧
    (∀ i, is_live w i = true →
      square_in_bounds w (w.monsters i).fy (w.monsters i).fx = true →
      ∃ w', delete_monster_idx w (i : Int) = .ok w') ∧
    (∀ fuel draws, ∃ w', compact_monsters fuel w 0 draws = some (.ok w')) := by
  refine ⟨?_, ?_, ?_, wipe_mon_list_agrees w h, ?_, ?_, ?_⟩
  · intro y x mon origin d m w' hmax hrun
    exact place_monster_agrees w w' y x mon origin d m h hmax hrun
  · intro m_idx w' hrun
    exact (delete_monster_idx_agrees w w' m_idx h hrun).1
  · intro fuel n draws w' hrun
    exact compact_monsters_agrees fuel w w' n draws h hrun
  · intro y x mon origin d r hb hm hr hc
    exact place_monster_ok w y x mon origin d r hb hm hr hc
  · intro i hl hb
    obtain ⟨a1, _, _⟩ := h.1 i hl
    unfold is_live at hl
    cases hr : (w.monsters i).race with
    | none => rw [hr] at hl; cases hl
    | some r =>
      exact ⟨_, delete_monster_idx_ok w (i : Int) r (by omega)
        (by simp only [Int.toNat_ofNat]; exact hr)
        (by simp only [Int.toNat_ofNat]; exact hb)⟩
  · intro fuel draws
    exact ⟨_, compact_monsters_zero fuel w 0 (le_refl _) draws⟩

theorem demo_world_agrees : grid_agrees demo_world := by
  constructor
  · intro i hl
    by_cases hi : i = 1
    · subst hi; exact ⟨by decide, by decide, rfl⟩
    · have : is_live demo_world i = false := by
        unfold is_live demo_world
        simp [hi]
      rw [this] at hl; cases hl
  · intro y x hne
    have hyx : y = 1 ∧ x = 1 := by
      by_contra hc
      apply hne
      show (if y = 1 ∧ x = 1 then (1 : Int) else 0) = 0
      rw [if_neg hc]
    obtain ⟨rfl, rfl⟩ := hyx
    exact ⟨1, rfl, rfl, rfl, rfl⟩

theorem grid_agreement_invariant_witness :
    grid_agrees demo_world ∧
    place_monster demo_world 0 1 { race := some 1 } 0 {} = .ok (2, demo_world_placed) ∧
    grid_agrees demo_world_placed ∧ grid_agrees (wipe_mon_list demo_world) :=
  ⟨demo_world_agrees, rfl,
    (grid_agreement_invariant demo_world demo_world_agrees).1 0 1 { race := some 1 } 0 {} 2
      demo_world_placed (by decide) rfl,
    (grid_agreement_invariant demo_world demo_world_agrees).2.2.2.1⟩


/-! ## Properties of fear -/

theorem randint0_nonneg (raw : Nat) (m : Int) (hm : m ≠ 0) : 0 ≤ randint0 raw m :=
  Int.emod_nonneg _ hm

theorem randint0_lt (raw : Nat) (m : Int) (hm : 0 < m) : randint0 raw m < m :=
  Int.emod_lt_of_pos _ hm

theorem hit_fear_reduce (mon : monster) (race : monster_race) (dam : Int) (d : hit_draws)
    (hdam : 0 < dam) (hfear : 0 < mon.fear) (hlt : randint1 d.pain dam < mon.fear) :
    hit_fear mon race dam false d =
      .ok (false, { mon with fear := mon.fear - randint1 d.pain dam }) := by
  have h1 : false = false ∧ mon.fear ≠ 0 ∧ dam > 0 := ⟨rfl, by omega, hdam⟩
  have h2 : ¬ (mon.fear - randint1 d.pain dam = 0 ∧
      rf_has race.flags race_flag.NO_FEAR = false ∧ dam > 0) := fun h => by omega
  have hs1 : (if false = false ∧ mon.fear ≠ 0 ∧ dam > 0 then
      if randint1 d.pain dam < mon.fear then
        (false, { mon with fear := mon.fear - randint1 d.pain dam })
      else (false, { mon with fear := 0 })
    else (false, mon) : Bool × monster) =
      (false, { mon with fear := mon.fear - randint1 d.pain dam }) := by
    rw [if_pos h1, if_pos hlt]
  unfold hit_fear
  rw [hs1]
  simp only
  rw [if_neg h2]

theorem hit_fear_cure (mon : monster) (race : monster_race) (dam : Int) (d : hit_draws)
    (hdam : 0 < dam) (hfear : 0 < mon.fear) (hge : mon.fear ≤ randint1 d.pain dam)
    (hmax : mon.maxhp ≠ 0) :
    hit_fear mon race dam false d =
      if rf_has race.flags race_flag.NO_FEAR = false ∧
          (randint1 d.run 10 ≥ Int.tdiv (100 * mon.hp) mon.maxhp ∨
            (dam ≥ mon.hp ∧ randint0 d.usually 100 < 80)) then
        .ok (true, { mon with fear := randint1 d.timer 10 +
          (if dam ≥ mon.hp ∧ Int.tdiv (100 * mon.hp) mon.maxhp > 7 then 20
           else (11 - Int.tdiv (100 * mon.hp) mon.maxhp) * 5) })
      else .ok (false, { mon with fear := 0 }) := by
  have h1 : false = false ∧ mon.fear ≠ 0 ∧ dam > 0 := ⟨rfl, by omega, hdam⟩
  have hs1 : (if false = false ∧ mon.fear ≠ 0 ∧ dam > 0 then
      if randint1 d.pain dam < mon.fear then
        (false, { mon with fear := mon.fear - randint1 d.pain dam })
      else (false, { mon with fear := 0 })
    else (false, mon) : Bool × monster) = (false, { mon with fear := 0 }) := by
    rw [if_pos h1, if_neg (by omega)]
  unfold hit_fear
  rw [hs1]
  simp only
  by_cases hno : rf_has race.flags race_flag.NO_FEAR = false
  · rw [if_pos ⟨trivial, hno, hdam⟩, if_neg hmax]
    by_cases hrun : randint1 d.run 10 ≥ Int.tdiv (100 * mon.hp) mon.maxhp ∨
        (dam ≥ mon.hp ∧ randint0 d.usually 100 < 80)
    · have hboth : rf_has race.flags race_flag.NO_FEAR = false ∧
          (randint1 d.run 10 ≥ Int.tdiv (100 * mon.hp) mon.maxhp ∨
            (dam ≥ mon.hp ∧ randint0 d.usually 100 < 80)) := ⟨hno, hrun⟩
      rw [if_pos hrun, if_pos hboth, zero_add]
    · have hboth : ¬ (rf_has race.flags race_flag.NO_FEAR = false ∧
          (randint1 d.run 10 ≥ Int.tdiv (100 * mon.hp) mon.maxhp ∨
            (dam ≥ mon.hp ∧ randint0 d.usually 100 < 80))) := fun h => hrun h.2
      rw [if_neg hrun, if_neg hboth]
  · have hboth : ¬ (rf_has race.flags race_flag.NO_FEAR = false ∧
        (randint1 d.run 10 ≥ Int.tdiv (100 * mon.hp) mon.maxhp ∨
          (dam ≥ mon.hp ∧ randint0 d.usually 100 < 80))) := fun h => hno h.1
    rw [if_neg (fun h => hno h.2.1), if_neg hboth]

theorem mon_take_hit_nonlethal (w : world) (m : Nat) (dam : Int) (fear : Bool) (d : hit_draws)
    (r : Nat) (hrace : (w.monsters m).race = some r)
    (halive : ¬ (w.monsters m).hp - dam < 0) (s : Bool × monster)
    (hs : hit_fear
      { w.monsters m with sleep := 0, unaware := false, hp := (w.monsters m).hp - dam }
      (w.r_info.getD r {}) dam fear d = .ok s) :
    ∃ w', mon_take_hit w m dam fear d = .ok (false, s.1, w') ∧ w'.monsters m = s.2 := by
  unfold mon_take_hit
  split
  · rename_i hnone
    rw [hrace] at hnone
    cases hnone
  · rename_i r' hsome
    have hrr : r' = r := by
      rw [hrace] at hsome
      injection hsome with hsome
      exact hsome.symm
    subst hrr
    simp only
    rw [if_neg halive, hs]
    refine ⟨_, rfl, ?_⟩
    simp only [slot_set_same]

theorem scare_time_pos (w : world) (m r : Nat) (dam : Int) (d : hit_draws)
    (h : scared w m r dam d) : 0 < scare_time w m dam d := by
  unfold scare_time
  have h0 := randint0_nonneg d.timer 10 (by decide)
  have h1 := randint0_lt d.run 10 (by decide)
  obtain ⟨_, h⟩ := h
  unfold randint1 at h ⊢
  split
  · omega
  · rename_i hn
    rcases h with h | h
    · omega
    · have : ¬ Int.tdiv (100 * ((w.monsters m).hp - dam)) (w.monsters m).maxhp > 7 :=
        fun h7 => hn ⟨h.1, h7⟩
      omega

/-- C32 (counterexample): the monster of `demo_afraid` has 5 hit points and a
fear timer of 2. It takes a hit of 3 points with the fear flag passed in as
FALSE; `randint1(3)` gives 2, which meets the remaining fear, so the timer is
cleared. The hit is not lethal, and the scare test of the same call then
passes (the hit took at least the 2 hit points left and `randint0(100)` gave
0): the call returns with the fear flag TRUE and a fear timer of 21. -/
theorem fear_cured_then_induced :
    (demo_afraid.monsters 1).fear = 2 ∧
    (demo_afraid.monsters 1).hp = 5 ∧
    randint1 ({ pain := 1 } : hit_draws).pain 3 = 2 ∧
    mon_take_hit demo_afraid 1 3 false { pain := 1 } = .ok (false, true, demo_afraid_after) ∧
    (demo_afraid_after.monsters 1).hp = 2 ∧
    (demo_afraid_after.monsters 1).fear = 21 :=
  ⟨rfl, rfl, rfl, rfl, rfl, rfl⟩

/-- C32: a hit of `dam > 0` points that the monster in slot `m` survives,
with the fear flag passed in as FALSE, on a monster that is afraid and whose
`maxhp` is not 0, returns FALSE (not killed). If the random reduction
`randint1(dam)` is below the remaining fear, the fear timer is reduced by
exactly that amount and the flag stays FALSE. If the reduction meets or
exceeds the remaining fear, the timer is cleared and the scare test of the
same call runs on the cleared timer: when it fails (or the race is immune to
fear) the timer is 0 and the flag FALSE at the return, and when it passes the
flag is TRUE and the timer is the new duration, which is positive. -/
theorem mon_take_hit_fear (w : world) (m : Nat) (dam : Int) (d : hit_draws) (r : Nat)
    (hrace : (w.monsters m).race = some r)
    (halive : dam ≤ (w.monsters m).hp) (hdam : 0 < dam)
    (hfear : 0 < (w.monsters m).fear) (hmax : (w.monsters m).maxhp ≠ 0) :
    ∃ fear' w', mon_take_hit w m dam false d = .ok (false, fear', w') ∧
      (randint1 d.pain dam < (w.monsters m).fear →
        fear' = false ∧
        (w'.monsters m).fear = (w.monsters m).fear - randint1 d.pain dam) ∧
      ((w.monsters m).fear ≤ randint1 d.pain dam → ¬ scared w m r dam d →
        fear' = false ∧ (w'.monsters m).fear = 0) ∧
      ((w.monsters m).fear ≤ randint1 d.pain dam → scared w m r dam d →
        fear' = true ∧ (w'.monsters m).fear = scare_time w m dam d ∧
        0 < (w'.monsters m).fear) := by
  have hal : ¬ (w.monsters m).hp - dam < 0 := by omega
  by_cases hlt : randint1 d.pain dam < (w.monsters m).fear
  · obtain ⟨w', hrun, hslot⟩ := mon_take_hit_nonlethal w m dam false d r hrace hal _
      (hit_fear_reduce
        { w.monsters m with sleep := 0, unaware := false, hp := (w.monsters m).hp - dam }
        (w.r_info.getD r {}) dam d hdam hfear hlt)
    refine ⟨false, w', hrun, fun _ => ⟨rfl, by rw [hslot]⟩, fun h => (by omega),
      fun h => (by omega)⟩
  · have hge : (w.monsters m).fear ≤ randint1 d.pain dam := by omega
    have hcure := hit_fear_cure
      { w.monsters m with sleep := 0, unaware := false, hp := (w.monsters m).hp - dam }
      (w.r_info.getD r {}) dam d hdam hfear hge hmax
    split at hcure
    · rename_i hc
      have hsc : scared w m r dam d := hc
      obtain ⟨w', hrun, hslot⟩ := mon_take_hit_nonlethal w m dam false d r hrace hal _ hcure
      have hf : (w'.monsters m).fear = scare_time w m dam d := by rw [hslot]; rfl
      refine ⟨true, w', hrun, fun h => absurd h hlt, fun _ h => absurd hsc h,
        fun _ _ => ⟨rfl, hf, ?_⟩⟩
      rw [hf]
      exact scare_time_pos w m r dam d hsc
    · rename_i hc
      have hsc : ¬ scared w m r dam d := hc
      obtain ⟨w', hrun, hslot⟩ := mon_take_hit_nonlethal w m dam false d r hrace hal _ hcure
      refine ⟨false, w', hrun, fun h => absurd h hlt, fun _ _ => ⟨rfl, by rw [hslot]⟩,
        fun _ h => absurd h hsc⟩

theorem mon_take_hit_fear_witness :
    (∃ fear' w', mon_take_hit demo_afraid 1 3 false {} = .ok (false, fear', w') ∧
      fear' = false ∧ (w'.monsters 1).fear = 1) ∧
    (∃ fear' w', mon_take_hit demo_afraid 1 3 false { pain := 1, usually := 90 } =
        .ok (false, fear', w') ∧ fear' = false ∧ (w'.monsters 1).fear = 0) := by
  constructor
  · obtain ⟨fear', w', h1, h2, _, _⟩ :=
      mon_take_hit_fear demo_afraid 1 3 {} 3 rfl (by decide) (by decide) (by decide)
        (by decide)
    exact ⟨fear', w', h1, (h2 (by decide)).1, (h2 (by decide)).2⟩
  · obtain ⟨fear', w', h1, _, h3, _⟩ :=
      mon_take_hit_fear demo_afraid 1 3 { pain := 1, usually := 90 } 3 rfl (by decide)
        (by decide) (by decide) (by decide)
    have hns : ¬ scared demo_afraid 1 3 3 { pain := 1, usually := 90 } := by
      unfold scared
      decide
    exact ⟨fear', w', h1, (h3 (by decide) hns).1, (h3 (by decide) hns).2⟩

/-! ## Properties of the size of a group of friends -/

theorem friends_size_band (depth total : Int) (friends_race : monster_race) (raw : Nat)
    (hu : rf_has friends_race.flags race_flag.UNIQUE = false)
    (hlo : 0 < depth - friends_race.level + 5) (hhi : depth - friends_race.level + 5 < 10) :
    friends_size depth friends_race total raw =
      some (Int.tdiv (total * (depth - friends_race.level + 5)) 10 +
        if randint0 raw 10 > Int.tmod (total * (depth - friends_race.level + 5)) 10 then 1
        else 0) := by
  have h1 : ¬ (depth - friends_race.level + 5 ≤ 0 ∧
      rf_has friends_race.flags race_flag.UNIQUE = false) := fun h => by omega
  have h2 : depth - friends_race.level + 5 < 10 ∧
      rf_has friends_race.flags race_flag.UNIQUE = false := ⟨hhi, hu⟩
  have h3 : ¬ (rf_has friends_race.flags race_flag.UNIQUE = true) := by
    rw [hu]
    decide
  unfold friends_size
  simp only
  rw [if_neg h1, if_pos h2, if_neg h3]
  split
  · rfl
  · rw [add_zero]

theorem count_above (k : Nat) (hk : k < 10) :
    (((List.range 10).countP (fun v => decide (randint0 v 10 > (k : Int))) : Nat) : Int) =
      9 - (k : Int) := by
  interval_cases k <;> rfl

/-- C31: for a friend race that is not unique, with
`level_difference = depth - level + 5` in the band 0 < d < 10 and a base size
`total ≥ 0`, the size after "Reduce group size" is `floor(total * d / 10)`,
plus 1 exactly when the draw `randint0(10)` is greater than the remainder
`(total * d) mod 10`. Of the ten values of the draw, `9 - (total * d) mod 10`
add the extra monster and not `(total * d) mod 10` of them: the chance of the
extra monster falls as the remainder grows, and a remainder of 0 adds the
extra monster for nine draws out of ten. -/
theorem place_friends_extra_chance (depth total : Int) (friends_race : monster_race)
    (hu : rf_has friends_race.flags race_flag.UNIQUE = false)
    (hlo : 0 < depth - friends_race.level + 5) (hhi : depth - friends_race.level + 5 < 10)
    (ht : 0 ≤ total) :
    (∀ raw, friends_size depth friends_race total raw =
      some (total * (depth - friends_race.level + 5) / 10 +
        if randint0 raw 10 > total * (depth - friends_race.level + 5) % 10 then 1 else 0)) ∧
    (((List.range 10).countP (fun v => decide (friends_size depth friends_race total v =
        some (total * (depth - friends_race.level + 5) / 10 + 1))) : Nat) : Int) =
      9 - total * (depth - friends_race.level + 5) % 10 := by
  have hnn : 0 ≤ total * (depth - friends_race.level + 5) :=
    Int.mul_nonneg ht (by omega)
  have hsize : ∀ raw, friends_size depth friends_race total raw =
      some (total * (depth - friends_race.level + 5) / 10 +
        if randint0 raw 10 > total * (depth - friends_race.level + 5) % 10 then 1 else 0) := by
    intro raw
    rw [friends_size_band depth total friends_race raw hu hlo hhi,
      Int.tdiv_eq_ediv hnn (by decide), Int.tmod_eq_emod hnn (by decide)]
  refine ⟨hsize, ?_⟩
  obtain ⟨k, hk⟩ := Int.eq_ofNat_of_zero_le
    (Int.emod_nonneg (total * (depth - friends_race.level + 5)) (by decide : (10 : Int) ≠ 0))
  have hk10 : k < 10 := by
    have := Int.emod_lt_of_pos (total * (depth - friends_race.level + 5))
      (by decide : (0 : Int) < 10)
    omega
  have hcongr : (List.range 10).countP (fun v => decide (friends_size depth friends_race total v =
        some (total * (depth - friends_race.level + 5) / 10 + 1))) =
      (List.range 10).countP (fun v => decide (randint0 v 10 > (k : Int))) := by
    apply List.countP_congr
    intro v _
    rw [hsize v, hk]
    simp only [decide_eq_true_eq, Option.some.injEq]
    constructor
    · intro h
      by_contra hn
      rw [if_neg hn] at h
      omega
    · intro h
      rw [if_pos h]
  rw [hcongr, count_above k hk10, hk]

theorem place_friends_extra_chance_witness :
    friends_size 3 (demo_pack.r_info.getD 2 {}) 2 5 = some 2 ∧
    (List.range 10).countP
      (fun v => decide (friends_size 3 (demo_pack.r_info.getD 2 {}) 2 v = some 2)) = 9 ∧
    (place_friends demo_pack 4 4 1 2 2 false 0 (fun _ => 0) 16
      { extra := 5, scatter := fun _ => (2, 2) }).toOption.map
        (fun s => (s.1, s.2.mon_cnt)) = some (true, 2) ∧
    (place_friends demo_pack 4 4 1 2 2 false 0 (fun _ => 0) 16
      { extra := 0, scatter := fun _ => (2, 2) }).toOption.map
        (fun s => (s.1, s.2.mon_cnt)) = some (true, 1) :=
  ⟨(place_friends_extra_chance 3 2 (demo_pack.r_info.getD 2 {}) rfl (by decide) (by decide)
      (by decide)).1 5, rfl, rfl, rfl⟩


/-! ## Properties of the cap of a unique -/

theorem max_num_kept (w : world) (k : Nat) :
    (∀ y x r sleep origin turn_energy basic_colors d b w',
      place_new_monster_one w y x r sleep origin turn_energy basic_colors d = .ok (b, w') →
      (w'.r_info.getD k {}).max_num = (w.r_info.getD k {}).max_num) ∧
    (∀ m_idx w', delete_monster_idx w m_idx = .ok w' →
      (w'.r_info.getD k {}).max_num = (w.r_info.getD k {}).max_num) ∧
    ((wipe_mon_list w).r_info.getD k {}).max_num = (w.r_info.getD k {}).max_num ∧
    (∀ m dam fear d b fear' w', mon_take_hit w m dam fear d = .ok (b, fear', w') →
      (w'.r_info.getD k {}).max_num = (w.r_info.getD k {}).max_num ∨
      (w'.r_info.getD k {}).max_num = 0) := by
  refine ⟨?_, ?_, ?_, ?_⟩
  · intro y x r sleep origin turn_energy basic_colors d b w' h
    rcases place_new_monster_one_r_info w w' y x r sleep origin turn_energy basic_colors d b h
      with hsame | ⟨_, hup⟩
    · rw [hsame]
    · rw [hup, getD_race_update]
      split
      · rename_i hk
        rw [hk.1]
      · rfl
  · intro m_idx w' h
    obtain ⟨_, _, r, _, hrun⟩ := delete_monster_idx_race w w' m_idx h
    rw [hrun] at h
    injection h with h
    rw [← h]
    exact (race_update_dec w.r_info r k).2.2
  · exact (wipe_loop_fields (w.mon_max - 1) w k).2.2
  · intro m dam fear d b fear' w' h
    obtain ⟨r, _, hcase⟩ := mon_take_hit_run w w' m dam fear fear' d b h
    rcases hcase with ⟨_, hsame⟩ | ⟨_, hdel⟩
    · left
      rw [hsame]
    · obtain ⟨_, _, r', _, hrun⟩ := delete_monster_idx_race _ w' _ hdel
      obtain ⟨_, _, f3, _⟩ := slain_fields w m r dam
      rw [hrun] at hdel
      injection hdel with hdel
      rw [← hdel]
      simp only
      rw [(race_update_dec (slain w m r dam).r_info r' k).2.2, f3]
      split
      · rw [getD_race_update]
        split
        · right
          rfl
        · left
          rfl
      · left
        rfl

/-- C24: for a unique race `k` with `cur_num ≤ max_num` and a cap of at most
one living copy (`max_num ≤ 1`; the only write to `max_num` sets it to 0), the
race is still a unique with `cur_num ≤ max_num`, and its cap still at most 1,
after `place_new_monster_one` (whatever it returns), after
`delete_monster_idx`, after `wipe_mon_list`, after a `mon_take_hit` that does
not kill, and after a lethal `mon_take_hit` on a monster whose `midx` is its
slot, a member of that race included: the kill sets `max_num` to 0 and takes
the one living copy off `cur_num`. -/
theorem unique_cap_preserved (w : world) (k : Nat) (hcap : capped w k)
    (hone : (w.r_info.getD k {}).max_num ≤ 1) :
    (∀ y x r sleep origin turn_energy basic_colors d b w',
      place_new_monster_one w y x r sleep origin turn_energy basic_colors d = .ok (b, w') →
      capped w' k ∧ (w'.r_info.getD k {}).max_num ≤ 1) ∧
    (∀ m_idx w', delete_monster_idx w m_idx = .ok w' →
      capped w' k ∧ (w'.r_info.getD k {}).max_num ≤ 1) ∧
    (capped (wipe_mon_list w) k ∧ ((wipe_mon_list w).r_info.getD k {}).max_num ≤ 1) ∧
    (∀ m dam fear d fear' w',
      mon_take_hit w m dam fear d = .ok (false, fear', w') →
      capped w' k ∧ (w'.r_info.getD k {}).max_num ≤ 1) ∧
    (∀ m dam fear d fear' w',
      mon_take_hit w m dam fear d = .ok (true, fear', w') →
      (w.monsters m).midx = (m : Int) →
      capped w' k ∧ (w'.r_info.getD k {}).max_num ≤ 1) := by
  obtain ⟨c1, c2, c3, c4, c5⟩ := capped_kept w k hcap
  obtain ⟨m1, m2, m3, m4⟩ := max_num_kept w k
  have hcur : (w.r_info.getD k {}).cur_num ≤ 1 := le_trans hcap.2 hone
  refine ⟨?_, ?_, ⟨c3, by rw [m3]; exact hone⟩, ?_, ?_⟩
  · intro y x r sleep origin turn_energy basic_colors d b w' h
    exact ⟨c1 y x r sleep origin turn_energy basic_colors d b w' h,
      by rw [m1 y x r sleep origin turn_energy basic_colors d b w' h]; exact hone⟩
  · intro m_idx w' h
    exact ⟨c2 m_idx w' h, by rw [m2 m_idx w' h]; exact hone⟩
  · intro m dam fear d fear' w' h
    refine ⟨c4 m dam fear d fear' w' h, ?_⟩
    rcases m4 m dam fear d false fear' w' h with e | e
    · rw [e]; exact hone
    · rw [e]; decide
  · intro m dam fear d fear' w' h hmidx
    refine ⟨c5 m dam fear d fear' w' h hmidx (Or.inr hcur), ?_⟩
    rcases m4 m dam fear d true fear' w' h with e | e
    · rw [e]; exact hone
    · rw [e]; decide

theorem unique_cap_preserved_witness :
    capped demo_world 3 ∧ (demo_world.r_info.getD 3 {}).max_num ≤ 1 ∧
    (demo_world.monsters 1).race = some 3 ∧
    mon_take_hit demo_world 1 10 false {} = .ok (true, false, demo_world_after) ∧
    capped demo_world_after 3 ∧
    (demo_world_after.r_info.getD 3 {}).cur_num = 0 ∧
    (demo_world_after.r_info.getD 3 {}).max_num = 0 ∧
    capped (wipe_mon_list demo_world) 3 :=
  ⟨⟨rfl, by decide⟩, by decide, rfl, rfl,
    ((unique_cap_preserved demo_world 3 ⟨rfl, by decide⟩ (by decide)).2.2.2.2 1 10 false {}
      false demo_world_after rfl rfl).1, rfl, rfl,
    (unique_cap_preserved demo_world 3 ⟨rfl, by decide⟩ (by decide)).2.2.1.1⟩

/-! ## Properties of the deletion passes -/

theorem live_upto_count (w : world) (N : Nat) :
    (live_upto w N).length = (List.range N).countP (is_live w) := by
  unfold live_upto
  generalize List.range N = l
  induction l with
  | nil => rfl
  | cons a l ih =>
    cases hl : is_live w a with
    | false =>
      rw [List.filterMap_cons_none ((live_slot_none w a).mpr hl), ih,
        List.countP_cons_of_neg _ _ (by rw [hl]; decide)]
    | true =>
      have hs : live_slot w a = some (unindexed (w.monsters a)) := by
        unfold live_slot
        rw [if_pos hl]
      rw [List.filterMap_cons_some hs, List.length_cons, ih,
        List.countP_cons_of_pos _ _ hl]

theorem delete_monster_idx_live (w w' : world) (m_idx : Int) (N : Nat)
    (hgrid : slots_on_grid w) (hN : w.mon_max ≤ N)
    (hrun : delete_monster_idx w m_idx = .ok w') :
    slots_on_grid w' ∧ w'.mon_max = w.mon_max ∧
    (live_upto w' N).length + 1 = (live_upto w N).length := by
  obtain ⟨hpos, _, r, hr, heq⟩ := delete_monster_idx_race w w' m_idx hrun
  rw [heq] at hrun
  injection hrun with hw
  have hlive : is_live w m_idx.toNat = true := by
    unfold is_live; rw [hr]; rfl
  obtain ⟨_, ha2, _, hgm⟩ := hgrid _ hlive
  have hmon : w'.monsters = slot_set w.monsters m_idx.toNat {} := by rw [← hw]
  have hsq : w'.squares_mon = grid_set w.squares_mon (w.monsters m_idx.toNat).fy
      (w.monsters m_idx.toNat).fx 0 := by rw [← hw]
  have hmm : w'.mon_max = w.mon_max := by rw [← hw]
  have hl : ∀ i, is_live w' i = (decide (i ≠ m_idx.toNat) && is_live w i) := by
    intro i
    unfold is_live
    rw [hmon]
    by_cases him : i = m_idx.toNat
    · rw [him, slot_set_same]
      simp
    · simp only [slot_set, if_neg him]
      simp [him]
  refine ⟨?_, hmm, ?_⟩
  · intro i hi
    rw [hl] at hi
    have him : i ≠ m_idx.toNat := by
      intro him
      rw [him] at hi
      simp at hi
    have hiw : is_live w i = true := by
      simpa [him] using hi
    obtain ⟨a1, a2, a3, a4⟩ := hgrid i hiw
    rw [hmon, hsq, hmm]
    simp only [slot_set, if_neg him]
    refine ⟨a1, a2, a3, ?_⟩
    simp only [grid_set]
    rw [if_neg]
    · exact a4
    · rintro ⟨e1, e2⟩
      rw [e1, e2, hgm] at a4
      exact him (by exact_mod_cast a4.symm)
  · rw [live_upto_count, live_upto_count,
      countP_range_erase (is_live w) m_idx.toNat N (by omega), if_pos hlive]
    congr 1
    apply List.countP_congr
    intro i _
    rw [hl i]

theorem compact_visit_live (M N : Nat) (K : Int) (iter : Int) (draw : Nat)
    (st st' : world × Int) (m_idx : Nat)
    (h : slots_on_grid st.1 ∧ st.1.mon_max = M ∧
      ((live_upto st.1 N).length : Int) + st.2 = K) (hN : M ≤ N)
    (hrun : compact_visit iter draw st m_idx = .ok st') :
    slots_on_grid st'.1 ∧ st'.1.mon_max = M ∧
      ((live_upto st'.1 N).length : Int) + st'.2 = K := by
  unfold compact_visit at hrun
  split at hrun
  · injection hrun with hs
    rw [← hs]; exact h
  · rename_i r hrace
    split at hrun
    · injection hrun with hs
      rw [← hs]; exact h
    · split at hrun
      · injection hrun with hs
        rw [← hs]; exact h
      · split at hrun
        · injection hrun with hs
          rw [← hs]; exact h
        · split at hrun
          · cases hrun
          · rename_i w1 hdel
            injection hrun with hs
            rw [← hs]
            have hlive : is_live st.1 m_idx = true := by
              unfold is_live; rw [hrace]; rfl
            obtain ⟨a1, _, _, a4⟩ := h.1 m_idx hlive
            unfold delete_monster at hdel
            split at hdel
            · cases hdel
            · rw [a4, if_pos (by omega)] at hdel
              obtain ⟨b1, b2, b3⟩ := delete_monster_idx_live st.1 w1 _ N h.1
                (by rw [h.2.1]; exact hN) hdel
              refine ⟨b1, by rw [b2]; exact h.2.1, ?_⟩
              have := h.2.2
              simp only
              omega

theorem compact_pass_live (M N : Nat) (K : Int) (iter : Int) (draws : Nat → Nat) (w : world)
    (c : Int) (st : world × Int)
    (h : slots_on_grid w ∧ w.mon_max = M ∧ ((live_upto w N).length : Int) + c = K)
    (hN : M ≤ N) (hrun : compact_pass iter draws w c = .ok st) :
    slots_on_grid st.1 ∧ st.1.mon_max = M ∧ ((live_upto st.1 N).length : Int) + st.2 = K := by
  unfold compact_pass at hrun
  exact foldlM_preserves
    (fun s : world × Int => slots_on_grid s.1 ∧ s.1.mon_max = M ∧
      ((live_upto s.1 N).length : Int) + s.2 = K)
    (fun s m_idx => compact_visit iter (draws m_idx) s m_idx)
    (fun s a s' hs hf => compact_visit_live M N K iter (draws a) s s' a hs hN hf)
    _ (w, c) st h hrun

theorem compact_passes_live (M N : Nat) (K : Int) (draws : Nat → Nat → Nat) (n : Int)
    (fuel iter : Nat) (w : world) (c : Int) (st : world × Int)
    (h : slots_on_grid w ∧ w.mon_max = M ∧ ((live_upto w N).length : Int) + c = K)
    (hN : M ≤ N) (hrun : compact_passes draws n fuel iter w c = some (.ok st)) :
    slots_on_grid st.1 ∧ st.1.mon_max = M ∧ ((live_upto st.1 N).length : Int) + st.2 = K := by
  induction fuel generalizing iter w c with
  | zero =>
    unfold compact_passes at hrun
    split at hrun
    · cases hrun
    · injection hrun with hrun
      injection hrun with hrun
      rw [← hrun]; exact h
  | succ fuel ih =>
    unfold compact_passes at hrun
    split at hrun
    · split at hrun
      · cases hrun
      · rename_i st1 hpass
        exact ih _ _ _ (compact_pass_live M N K _ _ w c st1 h hN hpass) hrun
    · injection hrun with hrun
      injection hrun with hrun
      rw [← hrun]; exact h

theorem excise_dead_live (w : world) (hgrid : slots_on_grid w) :
    (live_monsters (excise_dead (w.mon_max - 1) w)).Perm (live_upto w w.mon_max) := by
  obtain ⟨t1, t2, _, t4, _⟩ :=
    excise_dead_spec w.mon_max (w.mon_max - 1) w hgrid (by omega) (le_refl _)
      (fun i h1 h2 => by omega)
  have hdead : ∀ i, (excise_dead (w.mon_max - 1) w).mon_max ≤ i →
      is_live (excise_dead (w.mon_max - 1) w) i = false := by
    intro i hi
    cases hl : is_live (excise_dead (w.mon_max - 1) w) i with
    | false => rfl
    | true =>
      obtain ⟨_, h2, _⟩ := t1 i hl
      omega
  have hext := live_upto_extend (excise_dead (w.mon_max - 1) w)
    (excise_dead (w.mon_max - 1) w).mon_max
    (w.mon_max - (excise_dead (w.mon_max - 1) w).mon_max)
    (fun i hi => (live_slot_none _ i).mpr (hdead i hi))
  have hsplit : (excise_dead (w.mon_max - 1) w).mon_max +
      (w.mon_max - (excise_dead (w.mon_max - 1) w).mon_max) = w.mon_max := by omega
  rw [hsplit] at hext
  unfold live_monsters
  rw [← hext]
  exact t4

theorem compact_monsters_removed (fuel : Nat) (w w' : world) (n : Int)
    (draws : Nat → Nat → Nat) (hgrid : slots_on_grid w)
    (hrun : compact_monsters fuel w n draws = some (.ok w')) :
    ((live_monsters w').length : Int) + n ≤ ((live_monsters w).length : Int) := by
  unfold compact_monsters at hrun
  have h0 : slots_on_grid
      (if n ≠ 0 then { w with msgs := w.msgs ++ ["Compacting monsters..."] } else w) ∧
      (if n ≠ 0 then { w with msgs := w.msgs ++ ["Compacting monsters..."] } else w).mon_max
        = w.mon_max ∧
      ((live_upto
        (if n ≠ 0 then { w with msgs := w.msgs ++ ["Compacting monsters..."] } else w)
        w.mon_max).length : Int) + 0 = ((live_monsters w).length : Int) := by
    split
    · exact ⟨hgrid, rfl, by rw [add_zero]; rfl⟩
    · exact ⟨hgrid, rfl, by rw [add_zero]; rfl⟩
  split at hrun
  · cases hrun
  · cases hrun
  · rename_i st hpass
    injection hrun with hrun
    injection hrun with hrun
    obtain ⟨s1, s2, s3⟩ := compact_passes_live w.mon_max w.mon_max _ draws n fuel 1 _ 0 st h0
      (le_refl _) hpass
    have hcount := compact_passes_count draws n fuel 1 _ 0 st hpass
    have hperm := excise_dead_live st.1 s1
    rw [s2] at hperm
    rw [← hrun, s2, hperm.length_eq]
    omega

theorem demo_quest_on_grid : slots_on_grid demo_quest := by
  intro i hi
  by_cases h1 : i = 1
  · subst h1
    exact ⟨by decide, by decide, rfl, rfl⟩
  · have : is_live demo_quest i = false := by
      unfold is_live demo_quest
      simp [h1]
    rw [this] at hi
    cases hi

/-- C14 (amended): `compact_monsters(n)` ends for every `n ≤ 0`, since no
deletion pass runs. For `n > 0` the deletion passes end only when the counter
`num_compacted` has reached `n`. On a list that agrees with the grid (every
live monster sits in a slot of `[1, mon_max)`, knows its slot index, and the
grid cell at its position holds that index) a call that returns has removed
at least `n` monsters: the number of live monsters has dropped by at least
`n`. There is no exit for passes that delete nothing: on such a list with
fewer than `n` live monsters no call returns, and on a list without live
monsters the passes never end. -/
theorem compact_monsters_passes (w : world) (draws : Nat → Nat → Nat) (n : Int) :
    (n ≤ 0 → ∀ fuel, ∃ w', compact_monsters fuel w n draws = some (.ok w')) ∧
    (∀ fuel iter c st, compact_passes draws n fuel iter w c = some (.ok st) → n ≤ st.2) ∧
    (slots_on_grid w → ∀ fuel w', compact_monsters fuel w n draws = some (.ok w') →
      ((live_monsters w').length : Int) + n ≤ ((live_monsters w).length : Int)) ∧
    (slots_on_grid w → ((live_monsters w).length : Int) < n →
      ∀ fuel w', compact_monsters fuel w n draws ≠ some (.ok w')) ∧
    (0 < n → (∀ i, 1 ≤ i → i < w.mon_max → (w.monsters i).race = none) →
      ∀ fuel, compact_monsters fuel w n draws = none) := by
  refine ⟨fun hn fuel => ⟨_, compact_monsters_zero fuel w n hn draws⟩,
    fun fuel iter c st h => compact_passes_count draws n fuel iter w c st h,
    fun hgrid fuel w' h => compact_monsters_removed fuel w w' n draws hgrid h, ?_, ?_⟩
  · intro hgrid hfew fuel w' h
    have := compact_monsters_removed fuel w w' n draws hgrid h
    omega
  · intro hn hdead fuel
    unfold compact_monsters
    rw [compact_passes_no_live draws n fuel 1 _ 0 hn]
    rw [if_pos (by omega)]
    exact hdead

theorem compact_monsters_passes_witness :
    (∃ w', compact_monsters 0 demo_world 0 (fun _ _ => 0) = some (.ok w')) ∧
    compact_monsters 1 demo_quest 1 (fun _ _ => 99) = some (.ok demo_quest_after) ∧
    (live_monsters demo_quest).length = 1 ∧
    ((live_monsters demo_quest_after).length : Int) + 1 ≤
      ((live_monsters demo_quest).length : Int) ∧
    (∀ fuel w', compact_monsters fuel demo_quest 2 (fun _ _ => 99) ≠ some (.ok w')) ∧
    compact_monsters 7 {} 2 (fun _ _ => 0) = none :=
  ⟨(compact_monsters_passes demo_world (fun _ _ => 0) 0).1 (le_refl _) 0, rfl, rfl,
    (compact_monsters_passes demo_quest (fun _ _ => 99) 1).2.2.1 demo_quest_on_grid 1
      demo_quest_after rfl,
    (compact_monsters_passes demo_quest (fun _ _ => 99) 2).2.2.2.1 demo_quest_on_grid
      (by decide),
    (compact_monsters_passes {} (fun _ _ => 0) 2).2.2.2.2 (by decide) (fun _ _ _ => rfl) 7⟩


end MonMake
